import Mathlib

/-!
# xendbg: the guest execution-control engine

A shallow embedding of the breakpoint manager and execution controller of
xendbg, and theorems about them.

* `src/src/Debugger/DebuggerPV.cpp`: the address-keyed table `_infinite_loops`
  (namespace `xd.DebuggerPV`).
* `src/src/Debugger/Debugger.cpp`, the base class of `DebuggerPV`: its instruction
  predictor and `detach` (namespace `xd.DebuggerPV` as well).
* `src/Debugger/Debugger.cpp`: the id-keyed table `_breakpoints` and its instruction
  predictor (namespace `xd.Debugger`).

Conventions of the embedding.

* `Address` is `uint64_t`.  Addresses are natural numbers; the arithmetic the
  source performs on them is reduced modulo `2^64`.
* Guest memory is a total function from addresses to bytes.  A two-byte window
  mapped at `a` is the pair of cells `a` and `a + 1`; the `uint16_t` stored in
  it is little-endian.
* `map_memory` can throw.  The domain carries `can_map`, which tells for each
  window whether mapping it succeeds.
* A C++ member function becomes a function from the object's state to an
  `Outcome`: the state it leaves behind together with either the returned value
  or the exception thrown.  State changes made before a throw stay.
* The iteration order of the table containers is the order of the list that
  represents them.
* The disassembler is external: the instructions it decodes are given by a function
  `cs_disasm`, and the predictors are stated for every such function.
* `src/Debugger/GDBStub/GDBResponsePacket.hpp`: the response packets of the protocol
  codec (namespace `xd.pkt`).  A `std::stringstream` is its contents together with its
  formatting state (base, fill character, field width); texts are lists of characters,
  one per byte of the `std::string`.
* `src/src/Xen/XenForeignMemory.cpp` (namespace `xd.XenForeignMemory`) and
  `src/Xen/Xenstore.cpp` (namespace `xd.XenStore`): the hypervisor and the store are
  external, so `xenforeignmemory_map`, `xs_directory` and `xs_read` are parameters.
* `src/Parser/Parser.cpp` (namespace `xd.parser`): the parser runs on the token list the
  tokenizer produces, with `precedence_of` as a parameter.  Its recursion is bounded by a
  depth argument; a result of `none` means the bound was reached.
* `src/src/REPL/Command/Match.cpp` (namespace `xd.repl`): the two checks of the
  position of arguments with a default value.
-/

namespace xd

/-- Guest virtual address (`xd::xen::Address`, a `uint64_t`). -/
abbrev Address := Nat

/-- The modulus of `uint64_t` / `size_t` arithmetic. -/
def WORD : Nat := 2 ^ 64

/-- The macro `X86_INFINITE_LOOP`: the bytes `EB FE` read as a little-endian `uint16_t`. -/
def X86_INFINITE_LOOP : Nat := 0xFEEB

/-- One byte of guest memory. -/
abbrev Byte := Fin 256

/-- Guest memory: one byte per address. -/
abbrev Memory := Address → Byte

/-- The low eight bits of a number, as a byte. -/
def byte_of (v : Nat) : Byte := ⟨v % 256, Nat.mod_lt v (by decide)⟩

/-- Load of a `uint16_t` through a pointer to the window at `a`. -/
def read_u16 (m : Memory) (a : Address) : Nat :=
  (m a).val + 256 * (m (a + 1)).val

/-- Store of one byte. -/
def write_u8 (m : Memory) (a : Address) (b : Byte) : Memory :=
  fun x => if x = a then b else m x

/-- Store of a `uint16_t` through a pointer to the window at `a`. -/
def write_u16 (m : Memory) (a : Address) (v : Nat) : Memory :=
  write_u8 (write_u8 m a (byte_of v)) (a + 1) (byte_of (v / 256))

/-- The call `memcpy(dst, data, data.size())` into guest memory at `a`. -/
def write_bytes (m : Memory) (a : Address) : List Byte → Memory
  | [] => m
  | b :: bs => write_bytes (write_u8 m a b) (a + 1) bs

/-- The `n` bytes of guest memory starting at `a`. -/
def read_bytes (m : Memory) (a : Address) (n : Nat) : List Byte :=
  (List.range n).map (fun i => m (a + i))

/-- The exceptions the modelled code throws. -/
inductive Error where
  /-- Thrown by `map_memory` when the window cannot be mapped. -/
  | map_error
  /-- The `std::out_of_range` of `at` on a missing key. -/
  | out_of_range
  /-- The exception `NoGuestAttachedException`. -/
  | no_guest_attached
  /-- The exception `NoSuchBreakpointException(id)`. -/
  | no_such_breakpoint (id : Nat)
  /-- A `std::runtime_error` of the instruction predictor. -/
  | runtime_error
  /-- Member access through an empty `std::optional` (undefined behaviour in the source). -/
  | empty_optional_access
  /-- The exception `CapstoneException`. -/
  | capstone_exception
  /-- A failed `assert`. -/
  | assertion_failed
  /-- The exception `NoSuchSymbolException(name)`. -/
  | no_such_symbol (name : String)
  /-- The exception `NoSuchVariableException(message)`. -/
  | no_such_variable (message : String)
  /-- The exception `XenException(message)`. -/
  | xen_exception (message : String)
  /-- The `std::invalid_argument` of a numeric conversion that finds no digit. -/
  | invalid_argument
  /-- An array read past the end of its table (undefined behaviour in the source). -/
  | out_of_bounds_access
  /-- A `top`, `front` or `pop` on an empty container (undefined behaviour in the source). -/
  | empty_container_access
  /-- The exception `MissingExpressionException`. -/
  | missing_expression
  /-- The exception `ExtraTokenException`. -/
  | extra_token
  /-- The exception `SentinelMergeException`. -/
  | sentinel_merge
  /-- The exception thrown by `expect` when the next token is not the expected one. -/
  | expect_failed (message : String)
  /-- The exception `DefaultArgPositionException`. -/
  | default_arg_position
  deriving DecidableEq, Repr

/-- How a call ends: with a value or with an exception. -/
inductive Result (α : Type) where
  | ok (value : α)
  | throw (e : Error)
  deriving DecidableEq, Repr

/-- The state a call leaves behind, and how the call ended. -/
structure Outcome (σ : Type) (α : Type) where
  state : σ
  result : Result α

/-- The guest domain as the debugger sees it through its `Domain` handle. -/
structure Domain where
  /-- Guest memory. -/
  mem : Memory
  /-- Whether `map_memory(address, length, _)` succeeds. -/
  can_map : Address → Nat → Bool
  /-- The instruction pointer (`eip` / `rip`) of the CPU context. -/
  ip : Address
  /-- Whether the guest is paused. -/
  paused : Bool

/-- The call `pause()` on the handle. -/
def Domain.pause (d : Domain) : Domain := { d with paused := true }

/-- The call `unpause()` on the handle. -/
def Domain.unpause (d : Domain) : Domain := { d with paused := false }

/-! ## Containers -/

namespace Map

/-- The member `count(k)` of a map: 1 when the key is present, 0 otherwise. -/
def count {β : Type} (t : List (Nat × β)) (k : Nat) : Nat :=
  if (t.lookup k).isSome then 1 else 0

/-- The member `at(k)`: the mapped value, `none` standing for `std::out_of_range`. -/
def at_ {β : Type} (t : List (Nat × β)) (k : Nat) : Option β := t.lookup k

/-- The assignment `t[k] = v`: overwrite the value of `k`, or add a new entry. -/
def set {β : Type} : List (Nat × β) → Nat → β → List (Nat × β)
  | [], k, v => [(k, v)]
  | (k', v') :: t, k, v => if k' = k then (k, v) :: t else (k', v') :: set t k v

/-- The call `t.erase(t.find(k))` for a key that is present. -/
def erase {β : Type} (t : List (Nat × β)) (k : Nat) : List (Nat × β) :=
  t.filter (fun e => e.1 != k)

/-- The keys of a map, in iteration order. -/
def keys {β : Type} (t : List (Nat × β)) : List Nat := t.map Prod.fst

end Map

/-! ## `DebuggerPV` (src/src/Debugger/DebuggerPV.cpp) -/

/-- The state of a `DebuggerPV` object. -/
structure DebuggerPV where
  /-- The member `_domain`. -/
  domain : Domain
  /-- The member `_infinite_loops`: address to the two bytes the sentinel replaced. -/
  infinite_loops : List (Address × Nat)

namespace DebuggerPV

/-- The method `DebuggerPV::insert_breakpoint` (lines 80-97). -/
def insert_breakpoint (s : DebuggerPV) (address : Address) : Outcome DebuggerPV Unit :=
  if Map.count s.infinite_loops address ≠ 0 then
    -- logs "Tried to insert infinite loop where one already exists" and returns
    ⟨s, .ok ()⟩
  else if s.domain.can_map address 2 = false then
    ⟨s, .throw .map_error⟩
  else
    let orig_bytes := read_u16 s.domain.mem address
    ⟨{ domain := { s.domain with mem := write_u16 s.domain.mem address X86_INFINITE_LOOP },
       infinite_loops := Map.set s.infinite_loops address orig_bytes }, .ok ()⟩

/-- The method `DebuggerPV::remove_breakpoint` (lines 99-116). -/
def remove_breakpoint (s : DebuggerPV) (address : Address) : Outcome DebuggerPV Unit :=
  if Map.count s.infinite_loops address ≠ 0 then
    -- logs "Tried to remove infinite loop where one already exists" and returns
    ⟨s, .ok ()⟩
  else if s.domain.can_map address 2 = false then
    ⟨s, .throw .map_error⟩
  else
    match Map.at_ s.infinite_loops address with
    | none => ⟨s, .throw .out_of_range⟩
    | some orig_bytes =>
      ⟨{ domain := { s.domain with mem := write_u16 s.domain.mem address orig_bytes },
         infinite_loops := Map.erase s.infinite_loops address }, .ok ()⟩

/-- The store `*((uint16_t*)(buf + i)) = v` into the local copy made by
`read_memory_masking_breakpoints`.  The copy has `length` bytes; a store that
runs past its end leaves the returned bytes as they are. -/
def buf_write_u16 (buf : List Byte) (i : Nat) (v : Nat) : List Byte :=
  (buf.set i (byte_of v)).set (i + 1) (byte_of (v / 256))

/-- The loop of `read_memory_masking_breakpoints` (lines 127-132) over the table entries. -/
def mask_loop (address address_end : Address) : List (Address × Nat) → List Byte → List Byte
  | [], buf => buf
  | (il_address, il_orig_bytes) :: rest, buf =>
    if il_address ≥ address ∧ il_address < address_end then
      let dist := il_address - address
      mask_loop address address_end rest (buf_write_u16 buf dist il_orig_bytes)
    else
      mask_loop address address_end rest buf

/-- The method `DebuggerPV::read_memory_masking_breakpoints` (lines 118-135). -/
def read_memory_masking_breakpoints (s : DebuggerPV) (address : Address) (length : Nat) :
    Outcome DebuggerPV (List Byte) :=
  if s.domain.can_map address length = false then
    ⟨s, .throw .map_error⟩
  else
    let mem_masked := read_bytes s.domain.mem address length
    let address_end := (address + length) % WORD
    ⟨s, .ok (mask_loop address address_end s.infinite_loops mem_masked)⟩

/-- The first loop of `write_memory_retaining_breakpoints` (lines 151-156), run over the
keys of the table: calls `remove_breakpoint` on every key in range and collects it.  The
loop walks the keys the table has when it starts; `remove_breakpoint` erases none of them
(theorem `remove_breakpoint_state`). -/
def remove_loop (address address_end : Address) :
    List Address → DebuggerPV → Outcome DebuggerPV (List Address)
  | [], s => ⟨s, .ok []⟩
  | il_address :: rest, s =>
    if il_address ≥ address ∧ il_address < address_end then
      match remove_breakpoint s il_address with
      | ⟨s1, .throw e⟩ => ⟨s1, .throw e⟩
      | ⟨s1, .ok _⟩ =>
        match remove_loop address address_end rest s1 with
        | ⟨s2, .throw e⟩ => ⟨s2, .throw e⟩
        | ⟨s2, .ok il_addresses⟩ => ⟨s2, .ok (il_address :: il_addresses)⟩
    else
      remove_loop address address_end rest s

/-- The last loop of `write_memory_retaining_breakpoints` (lines 164-165). -/
def insert_loop : List Address → DebuggerPV → Outcome DebuggerPV Unit
  | [], s => ⟨s, .ok ()⟩
  | il_address :: rest, s =>
    match insert_breakpoint s il_address with
    | ⟨s1, .throw e⟩ => ⟨s1, .throw e⟩
    | ⟨s1, .ok _⟩ => insert_loop rest s1

/-- The method `DebuggerPV::write_memory_retaining_breakpoints` (lines 137-166).
The argument `data` is the buffer behind the `void*`; `memcpy` copies its first
`length` bytes. -/
def write_memory_retaining_breakpoints (s : DebuggerPV) (address : Address) (length : Nat)
    (data : List Byte) : Outcome DebuggerPV Unit :=
  let half_overlap_start_address := (address + WORD - 1) % WORD
  let half_overlap_end_address := (address + length + WORD - 1) % WORD
  let length_orig := length
  let start_hit := Map.count s.infinite_loops half_overlap_start_address ≠ 0
  let address1 := if start_hit then (address + WORD - 1) % WORD else address
  let length1 := if start_hit then (length + 1) % WORD else length
  let length2 :=
    if Map.count s.infinite_loops half_overlap_end_address ≠ 0 then (length1 + 1) % WORD
    else length1
  let address_end := (address1 + length_orig) % WORD
  match remove_loop address1 address_end (Map.keys s.infinite_loops) s with
  | ⟨s1, .throw e⟩ => ⟨s1, .throw e⟩
  | ⟨s1, .ok il_addresses⟩ =>
    if s1.domain.can_map address1 length2 = false then
      ⟨s1, .throw .map_error⟩
    else
      let mem_orig := address1 + (length2 + WORD - length_orig) % WORD
      let s2 : DebuggerPV :=
        { s1 with domain :=
            { s1.domain with mem := write_bytes s1.domain.mem mem_orig (data.take length_orig) } }
      insert_loop il_addresses s2

/-- The method `DebuggerPV::check_breakpoint_hit` (lines 168-176). -/
def check_breakpoint_hit (s : DebuggerPV) : Outcome DebuggerPV (Option Address) :=
  let address := s.domain.ip
  if s.domain.can_map address 2 = false then
    ⟨s, .throw .map_error⟩
  else if read_u16 s.domain.mem address = X86_INFINITE_LOOP
      ∧ Map.count s.infinite_loops address ≠ 0 then
    ⟨s, .ok (some address)⟩
  else
    ⟨s, .ok none⟩

/-- The sentinel invariant: every address in the table reads `EB FE` in guest memory. -/
def SentinelInv (s : DebuggerPV) : Prop :=
  ∀ p ∈ Map.keys s.infinite_loops, read_u16 s.domain.mem p = X86_INFINITE_LOOP

/-- A sequence of `insert_breakpoint` calls; a call that throws leaves the state it found. -/
def insert_all (s : DebuggerPV) (addresses : List Address) : DebuggerPV :=
  addresses.foldl (fun st a => (insert_breakpoint st a).state) s

end DebuggerPV

/-! ## The id-keyed `Debugger` (src/Debugger/Debugger.cpp) -/

/-- The record `Debugger::Breakpoint`. -/
structure Breakpoint where
  id : Nat
  address : Address
  orig_bytes : Nat
  deriving DecidableEq, Repr

/-- The state of a `Debugger` object. -/
structure Debugger where
  /-- The member `_domain`, a `std::optional<Domain>`: `none` while detached. -/
  domain : Option Domain
  /-- The member `_current_vcpu`. -/
  current_vcpu : Nat
  /-- The member `_next_breakpoint_id`, a `size_t`. -/
  next_breakpoint_id : Nat
  /-- The member `_breakpoints`: id to breakpoint. -/
  breakpoints : List (Nat × Breakpoint)

namespace Debugger

/-- The method `Debugger::attach` (lines 25-40).  The guest named by `domid` is `guest`;
`cs_open_ok` tells whether `cs_open` returns `CS_ERR_OK`. -/
def attach (s : Debugger) (guest : Domain) (cs_open_ok : Bool) : Outcome Debugger Unit :=
  let s1 : Debugger :=
    { s with current_vcpu := 0, next_breakpoint_id := 0, domain := some guest }
  if cs_open_ok then ⟨s1, .ok ()⟩ else ⟨s1, .throw .runtime_error⟩

/-- The method `Debugger::insert_infinite_loop` (lines 328-341). -/
def insert_infinite_loop (s : Debugger) (address : Address) : Outcome Debugger Breakpoint :=
  match s.domain with
  | none => ⟨s, .throw .no_guest_attached⟩
  | some d =>
    if d.can_map address 2 = false then
      ⟨s, .throw .map_error⟩
    else
      let id := s.next_breakpoint_id
      let orig_bytes := read_u16 d.mem address
      ⟨{ s with next_breakpoint_id := (s.next_breakpoint_id + 1) % WORD,
                domain := some { d with mem := write_u16 d.mem address X86_INFINITE_LOOP } },
       .ok { id := id, address := address, orig_bytes := orig_bytes }⟩

/-- The method `Debugger::remove_infinite_loop` (lines 343-348). -/
def remove_infinite_loop (s : Debugger) (bp : Breakpoint) : Outcome Debugger Unit :=
  match s.domain with
  | none => ⟨s, .throw .empty_optional_access⟩
  | some d =>
    if d.can_map bp.address 2 = false then
      ⟨s, .throw .map_error⟩
    else
      ⟨{ s with domain := some { d with mem := write_u16 d.mem bp.address bp.orig_bytes } },
       .ok ()⟩

/-- The method `Debugger::create_breakpoint` (lines 85-91). -/
def create_breakpoint (s : Debugger) (address : Address) : Outcome Debugger Nat :=
  match s.domain with
  | none => ⟨s, .throw .empty_optional_access⟩
  | some d =>
    let s1 : Debugger := { s with domain := some d.pause }
    match insert_infinite_loop s1 address with
    | ⟨s2, .throw e⟩ => ⟨s2, .throw e⟩
    | ⟨s2, .ok bp⟩ =>
      let s3 : Debugger := { s2 with domain := s2.domain.map Domain.unpause }
      ⟨{ s3 with breakpoints := Map.set s3.breakpoints bp.id bp }, .ok bp.id⟩

/-- The method `Debugger::delete_breakpoint` (lines 93-105). -/
def delete_breakpoint (s : Debugger) (id : Nat) : Outcome Debugger Unit :=
  match s.domain with
  | none => ⟨s, .throw .no_guest_attached⟩
  | some d =>
    if Map.count s.breakpoints id = 0 then
      ⟨s, .throw (.no_such_breakpoint id)⟩
    else
      match Map.at_ s.breakpoints id with
      | none => ⟨s, .throw .out_of_range⟩
      | some bp =>
        let s1 : Debugger := { s with domain := some d.pause }
        match remove_infinite_loop s1 bp with
        | ⟨s2, .throw e⟩ => ⟨s2, .throw e⟩
        | ⟨s2, .ok _⟩ =>
          let s3 : Debugger := { s2 with domain := s2.domain.map Domain.unpause }
          ⟨{ s3 with breakpoints := Map.erase s3.breakpoints id }, .ok ()⟩

/-- The method `Debugger::get_breakpoint_by_address` (lines 194-206): the first entry,
in iteration order, whose breakpoint has the address. -/
def get_breakpoint_by_address (s : Debugger) (address : Address) : Option Breakpoint :=
  (s.breakpoints.find? (fun pair => pair.2.address == address)).map Prod.snd

/-- The method `Debugger::check_infinite_loop_hit` (lines 216-230): the instruction
pointer when the two bytes there are the sentinel, else 0. -/
def check_infinite_loop_hit (s : Debugger) : Outcome Debugger Address :=
  match s.domain with
  | none => ⟨s, .throw .empty_optional_access⟩
  | some d =>
    let address := d.ip
    if d.can_map address 2 = false then
      ⟨s, .throw .map_error⟩
    else
      ⟨s, .ok (if read_u16 d.mem address = X86_INFINITE_LOOP then address else 0)⟩

/-- The method `Debugger::check_breakpoint_hit` (lines 208-214). -/
def check_breakpoint_hit (s : Debugger) : Outcome Debugger (Option Breakpoint) :=
  match check_infinite_loop_hit s with
  | ⟨s1, .throw e⟩ => ⟨s1, .throw e⟩
  | ⟨s1, .ok address⟩ =>
    if address = 0 then ⟨s1, .ok none⟩
    else ⟨s1, .ok (get_breakpoint_by_address s1 address)⟩

/-- The loop `while (!(check_infinite_loop_hit()));` of `single_step` (line 145).  The
guest runs meanwhile; `polls` lists the instruction pointer the guest is seen at by each
successive call.  The result is `none` when none of the listed observations ends the loop. -/
def poll_infinite_loop_hit (s : Debugger) : List Address → Option (Outcome Debugger Unit)
  | [] => none
  | ip :: rest =>
    let s1 : Debugger := { s with domain := s.domain.map (fun d => { d with ip := ip }) }
    match check_infinite_loop_hit s1 with
    | ⟨s2, .throw e⟩ => some ⟨s2, .throw e⟩
    | ⟨s2, .ok address⟩ =>
      if address ≠ 0 then some ⟨s2, .ok ()⟩ else poll_infinite_loop_hit s2 rest

/-- Lines 139-142 of `single_step`: plant a sentinel at a predicted address unless it is 0.
A breakpoint that is not assigned stays default-constructed. -/
def plant_dest (s : Debugger) (dest_addr : Address) : Outcome Debugger Breakpoint :=
  if dest_addr ≠ 0 then insert_infinite_loop s dest_addr
  else ⟨s, .ok { id := 0, address := 0, orig_bytes := 0 }⟩

/-- Lines 150-153 of `single_step`: remove the sentinel at a predicted address unless the
address is 0 or the table has a breakpoint there. -/
def unplant_dest (s : Debugger) (dest_addr : Address) (dest_bp : Breakpoint) :
    Outcome Debugger Unit :=
  if dest_addr ≠ 0 ∧ (get_breakpoint_by_address s dest_addr).isNone then
    remove_infinite_loop s dest_bp
  else ⟨s, .ok ()⟩

/-- Lines 144-157 of `single_step`, after both predicted addresses were handled. -/
def single_step_finish (s : Debugger) (bp_orig : Option Breakpoint)
    (dest1_addr dest2_addr : Address) (dest1_bp dest2_bp : Breakpoint)
    (polls : List Address) : Option (Outcome Debugger Unit) :=
  let s1 : Debugger := { s with domain := s.domain.map Domain.unpause }
  match poll_infinite_loop_hit s1 polls with
  | none => none
  | some ⟨s2, .throw e⟩ => some ⟨s2, .throw e⟩
  | some ⟨s2, .ok _⟩ =>
    let s3 : Debugger := { s2 with domain := s2.domain.map Domain.pause }
    match unplant_dest s3 dest1_addr dest1_bp with
    | ⟨s4, .throw e⟩ => some ⟨s4, .throw e⟩
    | ⟨s4, .ok _⟩ =>
      match unplant_dest s4 dest2_addr dest2_bp with
      | ⟨s5, .throw e⟩ => some ⟨s5, .throw e⟩
      | ⟨s5, .ok _⟩ =>
        match bp_orig with
        | none => some ⟨s5, .ok ()⟩
        | some bp =>
          match insert_infinite_loop s5 bp.address with
          | ⟨s6, .throw e⟩ => some ⟨s6, .throw e⟩
          | ⟨s6, .ok _⟩ => some ⟨s6, .ok ()⟩

/-- Lines 136-157 of `single_step`, from the call of the predictor on. -/
def single_step_predicted (s : Debugger) (bp_orig : Option Breakpoint)
    (predicted : Result (Address × Address)) (polls : List Address) :
    Option (Outcome Debugger Unit) :=
  match predicted with
  | .throw e => some ⟨s, .throw e⟩
  | .ok (dest1_addr, dest2_addr) =>
    match plant_dest s dest1_addr with
    | ⟨s1, .throw e⟩ => some ⟨s1, .throw e⟩
    | ⟨s1, .ok dest1_bp⟩ =>
      match plant_dest s1 dest2_addr with
      | ⟨s2, .throw e⟩ => some ⟨s2, .throw e⟩
      | ⟨s2, .ok dest2_bp⟩ =>
        single_step_finish s2 bp_orig dest1_addr dest2_addr dest1_bp dest2_bp polls

/-- The method `Debugger::single_step` (lines 125-158).  The instruction predictor
`get_address_of_next_instruction` decodes guest code with an external disassembler; what
it returns or throws in this call is the argument `predicted`.  The argument `polls` is
what the polling loop observes, see `poll_infinite_loop_hit`; `none` means the call does
not return. -/
def single_step (s : Debugger) (predicted : Result (Address × Address))
    (polls : List Address) : Option (Outcome Debugger Unit) :=
  match s.domain with
  | none => some ⟨s, .throw .no_guest_attached⟩
  | some d =>
    let s1 : Debugger := { s with domain := some d.pause }
    match check_breakpoint_hit s1 with
    | ⟨s2, .throw e⟩ => some ⟨s2, .throw e⟩
    | ⟨s2, .ok none⟩ => single_step_predicted s2 none predicted polls
    | ⟨s2, .ok (some bp)⟩ =>
      match remove_infinite_loop s2 bp with
      | ⟨s3, .throw e⟩ => some ⟨s3, .throw e⟩
      | ⟨s3, .ok _⟩ => single_step_predicted s3 (some bp) predicted polls

/-- The value of the id counter after one `_next_breakpoint_id++`. -/
def next_id (n : Nat) : Nat := (n + 1) % WORD

/-- The id counter of `s2` is the id counter of `s1` incremented at most `k` times. -/
def CounterWithin (k : Nat) (s1 s2 : Debugger) : Prop :=
  ∃ j, j ≤ k ∧ s2.next_breakpoint_id = next_id^[j] s1.next_breakpoint_id

/-- One call made on an attached debugger. -/
inductive Call where
  | create (address : Address)
  | delete (id : Nat)
  | step (predicted : Result (Address × Address)) (polls : List Address)

/-- Runs a sequence of calls and collects, in order, the ids `create_breakpoint` returns.
A call that throws leaves the state it reached and the sequence goes on; a `single_step`
that does not return ends it. -/
def run_calls : Debugger → List Call → List Nat
  | _, [] => []
  | s, .create address :: rest =>
    match create_breakpoint s address with
    | ⟨s1, .ok id⟩ => id :: run_calls s1 rest
    | ⟨s1, .throw _⟩ => run_calls s1 rest
  | s, .delete id :: rest => run_calls (delete_breakpoint s id).state rest
  | s, .step predicted polls :: rest =>
    match single_step s predicted polls with
    | none => []
    | some o => run_calls o.state rest

end Debugger

/-! ## The disassembler and the registers, as the predictor sees them -/

/-- The macro `X86_MAX_INSTRUCTION_SIZE`. -/
def X86_MAX_INSTRUCTION_SIZE : Nat := 0x10

/-- Conversion of a signed 64-bit value to `uint64_t`. -/
def to_u64 (i : Int) : Nat := (i % 18446744073709551616).toNat

/-- The little-endian number stored in the `n` bytes at `a`. -/
def read_le (m : Memory) (a : Address) : Nat → Nat
  | 0 => 0
  | n + 1 => (m a).val + 256 * read_le m (a + 1) n

/-- The operand kinds of the disassembler (`x86_op_type`). -/
inductive OpType where
  | invalid
  | reg
  | imm
  | mem
  deriving DecidableEq, Repr

/-- The memory operand `x86_op_mem`: base and index register (0 for none), scale and
displacement. -/
structure OpMem where
  base : Nat
  index : Nat
  scale : Int
  disp : Int
  deriving DecidableEq, Repr

/-- One operand `cs_x86_op` of a decoded instruction. -/
structure Operand where
  type : OpType
  reg : Nat
  imm : Int
  mem : OpMem
  deriving DecidableEq, Repr

/-- One decoded instruction `cs_insn`, with the answers `cs_insn_group` gives for it and
the first operand of its detail. -/
structure Insn where
  address : Address
  grp_jump : Bool
  grp_call : Bool
  grp_ret : Bool
  grp_iret : Bool
  op_count : Nat
  op0 : Operand
  deriving DecidableEq, Repr

/-- The external call `cs_disasm(handle, code, code_size, address, 0, &instrs)`: the
instructions decoded from the bytes `code` placed at `address`. -/
abbrev Disasm := List Byte → Address → List Insn

/-- The parts of the guest the predictor reads besides memory and the instruction pointer. -/
structure Cpu where
  /-- The value of `get_word_size()`. -/
  word_size : Nat
  /-- The stack pointer (`esp` / `rsp`) of the CPU context. -/
  sp : Address
  /-- The lookup `find_by_id` of the register file of the CPU context. -/
  find_by_id : Nat → Option Nat
  /-- The call `Domain::read_register(name)` of the id-keyed debugger, for the name of a
  disassembler register. -/
  read_register : Nat → Result Nat

/-- Sequencing of two steps that can throw. -/
def Result.bind {α β : Type} (r : Result α) (f : α → Result β) : Result β :=
  match r with
  | .ok v => f v
  | .throw e => .throw e

namespace DebuggerPV

/-! ### The predictor of src/src/Debugger/Debugger.cpp, the base class of `DebuggerPV` -/

/-- The lambda `read_word` (lines 58-65): maps eight bytes and reads a guest word. -/
def read_word (d : Domain) (cpu : Cpu) (addr : Address) : Result Nat :=
  if d.can_map addr 8 = false then .throw .map_error
  else if cpu.word_size = 8 then .ok (read_le d.mem addr 8)
  else .ok (read_le d.mem addr 4)

/-- The lambda `read_reg_cs` (lines 68-86).  The id looked up is the constant 0; the
disassembler register `cs_reg` only provides the name for the error message. -/
def read_reg_cs (cpu : Cpu) (_cs_reg : Nat) : Result Nat :=
  let id := 0
  match cpu.find_by_id id with
  | some value => .ok value
  | none => .throw .runtime_error

/-- The method `Debugger::get_address_of_next_instruction` of src/src/Debugger/Debugger.cpp
(lines 56-148). -/
def get_address_of_next_instruction (d : Domain) (cpu : Cpu) (cs_disasm : Disasm) :
    Result (Address × Option Address) :=
  let address := d.ip
  let read_size := 2 * X86_MAX_INSTRUCTION_SIZE
  if d.can_map address read_size = false then .throw .map_error
  else
    match cs_disasm (read_bytes d.mem address (read_size - 1)) address with
    | cur_instr :: next_instr :: _ =>
      let next_instr_address := next_instr.address
      if cur_instr.grp_jump = true ∨ cur_instr.grp_call = true then
        if cur_instr.op_count = 0 then .throw .assertion_failed
        else
          let op := cur_instr.op0
          match op.type with
          | .imm => .ok (next_instr_address, some (to_u64 op.imm))
          | .mem =>
            (if op.mem.base ≠ 0 then read_reg_cs cpu op.mem.base else .ok 0).bind fun base =>
            (if op.mem.index ≠ 0 then read_reg_cs cpu op.mem.index else .ok 0).bind fun index =>
            let addr := (base + (to_u64 op.mem.scale * index) % WORD + to_u64 op.mem.disp) % WORD
            if cpu.word_size = 8 then
              if d.can_map addr 8 = false then .throw .map_error
              else .ok (read_le d.mem addr 8, none)
            else
              if d.can_map addr 4 = false then .throw .map_error
              else .ok (read_le d.mem addr 4, none)
          | .reg => (read_reg_cs cpu op.reg).bind fun reg_value => .ok (reg_value, none)
          | .invalid => .throw .runtime_error
      else if cur_instr.grp_ret = true ∨ cur_instr.grp_iret = true then
        (read_word d cpu cpu.sp).bind fun ret_dest => .ok (ret_dest, none)
      else
        .ok (next_instr_address, none)
    | _ => .throw .capstone_exception

/-! ### Stepping and detaching -/

/-- The loop `while (!(address_opt = check_breakpoint_hit()));` of `single_step` (line 59).
The guest runs meanwhile; `polls` lists the instruction pointer the guest is seen at by each
successive call.  The result is `none` when none of the listed observations ends the loop. -/
def poll_breakpoint_hit (s : DebuggerPV) : List Address → Option (Outcome DebuggerPV Address)
  | [] => none
  | ip :: rest =>
    let s1 : DebuggerPV := { s with domain := { s.domain with ip := ip } }
    match check_breakpoint_hit s1 with
    | ⟨s2, .throw e⟩ => some ⟨s2, .throw e⟩
    | ⟨s2, .ok (some address)⟩ => some ⟨s2, .ok address⟩
    | ⟨s2, .ok none⟩ => poll_breakpoint_hit s2 rest

/-- Lines 54-55 and 65-66 of `single_step`: the call on the alternate address, made when
there is one and it had no table entry before the step. -/
def on_dest2 (f : DebuggerPV → Address → Outcome DebuggerPV Unit) (s : DebuggerPV)
    (dest2_addr_opt : Option Address) (dest2_had_il : Bool) : Outcome DebuggerPV Unit :=
  match dest2_addr_opt with
  | some dest2_addr => if dest2_had_il = false then f s dest2_addr else ⟨s, .ok ()⟩
  | none => ⟨s, .ok ()⟩

/-- Lines 57-72 of `single_step`, after the traps were planted. -/
def single_step_finish (s : DebuggerPV) (orig_addr : Option Address) (dest1_addr : Address)
    (dest2_addr_opt : Option Address) (dest2_had_il : Bool) (polls : List Address) :
    Option (Outcome DebuggerPV Address) :=
  let s1 : DebuggerPV := { s with domain := s.domain.unpause }
  match poll_breakpoint_hit s1 polls with
  | none => none
  | some ⟨s2, .throw e⟩ => some ⟨s2, .throw e⟩
  | some ⟨s2, .ok address⟩ =>
    let s3 : DebuggerPV := { s2 with domain := s2.domain.pause }
    match remove_breakpoint s3 dest1_addr with
    | ⟨s4, .throw e⟩ => some ⟨s4, .throw e⟩
    | ⟨s4, .ok _⟩ =>
      match on_dest2 remove_breakpoint s4 dest2_addr_opt dest2_had_il with
      | ⟨s5, .throw e⟩ => some ⟨s5, .throw e⟩
      | ⟨s5, .ok _⟩ =>
        match orig_addr with
        | none => some ⟨s5, .ok address⟩
        | some orig =>
          match insert_breakpoint s5 orig with
          | ⟨s6, .throw e⟩ => some ⟨s6, .throw e⟩
          | ⟨s6, .ok _⟩ => some ⟨s6, .ok address⟩

/-- Lines 49-72 of `single_step`, from the call of the predictor on. -/
def single_step_predicted (s : DebuggerPV) (orig_addr : Option Address)
    (predicted : Result (Address × Option Address)) (polls : List Address) :
    Option (Outcome DebuggerPV Address) :=
  match predicted with
  | .throw e => some ⟨s, .throw e⟩
  | .ok (dest1_addr, dest2_addr_opt) =>
    let dest2_had_il : Bool :=
      match dest2_addr_opt with
      | some dest2_addr => decide (Map.count s.infinite_loops dest2_addr ≠ 0)
      | none => false
    match insert_breakpoint s dest1_addr with
    | ⟨s1, .throw e⟩ => some ⟨s1, .throw e⟩
    | ⟨s1, .ok _⟩ =>
      match on_dest2 insert_breakpoint s1 dest2_addr_opt dest2_had_il with
      | ⟨s2, .throw e⟩ => some ⟨s2, .throw e⟩
      | ⟨s2, .ok _⟩ => single_step_finish s2 orig_addr dest1_addr dest2_addr_opt dest2_had_il polls

/-- The method `DebuggerPV::single_step` (lines 42-73).  What the predictor
`get_address_of_next_instruction` returns or throws in this call is the argument
`predicted`; the argument `polls` is what the polling loop observes, see
`poll_breakpoint_hit`; `none` means the call does not return. -/
def single_step (s : DebuggerPV) (predicted : Result (Address × Option Address))
    (polls : List Address) : Option (Outcome DebuggerPV Address) :=
  let s1 : DebuggerPV := { s with domain := s.domain.pause }
  match check_breakpoint_hit s1 with
  | ⟨s2, .throw e⟩ => some ⟨s2, .throw e⟩
  | ⟨s2, .ok none⟩ => single_step_predicted s2 none predicted polls
  | ⟨s2, .ok (some orig_addr)⟩ =>
    match remove_breakpoint s2 orig_addr with
    | ⟨s3, .throw e⟩ => some ⟨s3, .throw e⟩
    | ⟨s3, .ok _⟩ => single_step_predicted s3 (some orig_addr) predicted polls

/-- The loop of `DebuggerPV::cleanup` (lines 76-77) over the keys of the table.  The loop
walks the keys the table has when it starts; `remove_breakpoint` erases none of them
(theorem `remove_breakpoint_state`). -/
def cleanup_loop : List Address → DebuggerPV → Outcome DebuggerPV Unit
  | [], s => ⟨s, .ok ()⟩
  | il_address :: rest, s =>
    match remove_breakpoint s il_address with
    | ⟨s1, .throw e⟩ => ⟨s1, .throw e⟩
    | ⟨s1, .ok _⟩ => cleanup_loop rest s1

/-- The method `DebuggerPV::cleanup` (lines 75-78). -/
def cleanup (s : DebuggerPV) : Outcome DebuggerPV Unit :=
  cleanup_loop (Map.keys s.infinite_loops) s

/-- The method `Debugger::detach` of src/src/Debugger/Debugger.cpp (lines 35-38), on a
`DebuggerPV`. -/
def detach (s : DebuggerPV) : Outcome DebuggerPV Unit :=
  match cleanup s with
  | ⟨s1, .throw e⟩ => ⟨s1, .throw e⟩
  | ⟨s1, .ok _⟩ => ⟨{ s1 with domain := s1.domain.unpause }, .ok ()⟩

end DebuggerPV

namespace Debugger

/-! ### The predictor of src/Debugger/Debugger.cpp -/

/-- The lambda `read_word` (lines 253-260). -/
def read_word (d : Domain) (cpu : Cpu) (addr : Address) : Result Nat :=
  if d.can_map addr 8 = false then .throw .map_error
  else if cpu.word_size = 8 then .ok (read_le d.mem addr 8)
  else .ok (read_le d.mem addr 4)

/-- The method `Debugger::get_address_of_next_instruction` of src/Debugger/Debugger.cpp
(lines 232-326), called on the attached domain `d`.  An address 0 in the returned pair
stands for "none". -/
def get_address_of_next_instruction (d : Domain) (cpu : Cpu) (cs_disasm : Disasm) :
    Result (Address × Address) :=
  let address := d.ip
  let read_size := 2 * X86_MAX_INSTRUCTION_SIZE
  if d.can_map address read_size = false then .throw .map_error
  else
    match cs_disasm (read_bytes d.mem address (read_size - 1)) address with
    | cur_instr :: next_instr :: _ =>
      let next_instr_address := next_instr.address
      if cur_instr.grp_jump = true ∨ cur_instr.grp_call = true then
        if cur_instr.op_count = 0 then .throw .assertion_failed
        else
          let op := cur_instr.op0
          match op.type with
          | .imm => .ok (next_instr_address, to_u64 op.imm)
          | .mem => .throw .runtime_error
          | .reg => (cpu.read_register op.reg).bind fun reg_value => .ok (0, reg_value)
          | .invalid => .throw .runtime_error
      else if cur_instr.grp_ret = true ∨ cur_instr.grp_iret = true then
        (read_word d cpu cpu.sp).bind fun ret_dest => .ok (0, ret_dest)
      else
        .ok (next_instr_address, 0)
    | _ => .throw .runtime_error

/-- The loop `while (!(bp = check_breakpoint_hit()));` of `continue_until_breakpoint`
(line 118); `polls` lists the instruction pointer the guest is seen at by each successive
call, and the result is `none` when none of the listed observations ends the loop. -/
def poll_breakpoint_hit (s : Debugger) : List Address → Option (Outcome Debugger Breakpoint)
  | [] => none
  | ip :: rest =>
    let s1 : Debugger := { s with domain := s.domain.map (fun d => { d with ip := ip }) }
    match check_breakpoint_hit s1 with
    | ⟨s2, .throw e⟩ => some ⟨s2, .throw e⟩
    | ⟨s2, .ok (some bp)⟩ => some ⟨s2, .ok bp⟩
    | ⟨s2, .ok none⟩ => poll_breakpoint_hit s2 rest

/-- The method `Debugger::continue_until_breakpoint` (lines 107-123).  The arguments
`predicted` and `step_polls` are those of the `single_step` it starts with; `polls` is what
its own polling loop observes. -/
def continue_until_breakpoint (s : Debugger) (predicted : Result (Address × Address))
    (step_polls polls : List Address) : Option (Outcome Debugger Breakpoint) :=
  match s.domain with
  | none => some ⟨s, .throw .no_guest_attached⟩
  | some _ =>
    match single_step s predicted step_polls with
    | none => none
    | some ⟨s1, .throw e⟩ => some ⟨s1, .throw e⟩
    | some ⟨s1, .ok _⟩ =>
      let s2 : Debugger := { s1 with domain := s1.domain.map Domain.unpause }
      match poll_breakpoint_hit s2 polls with
      | none => none
      | some ⟨s3, .throw e⟩ => some ⟨s3, .throw e⟩
      | some ⟨s3, .ok bp⟩ =>
        some ⟨{ s3 with domain := s3.domain.map Domain.pause }, .ok bp⟩

end Debugger

/-! ## The text stream of the protocol codec (`std::stringstream`) -/

/-- The character of a digit below 16, lowercase as the stream prints it. -/
def digit_char (d : Nat) : Char :=
  if d < 10 then Char.ofNat (48 + d) else Char.ofNat (87 + d)

/-- The digit a character of `0123456789abcdef` stands for. -/
def digit_value (c : Char) : Nat :=
  if c.toNat < 58 then c.toNat - 48 else c.toNat - 87

/-- The number a sequence of digit characters denotes in a base, most significant digit
first. -/
def digits_value (base : Nat) (cs : List Char) : Nat :=
  cs.foldl (fun acc c => acc * base + digit_value c) 0

/-- The digits of `n` in a base, most significant first, without leading zeros; the first
argument bounds the number of digits after the first. -/
def unsigned_digits (base : Nat) : Nat → Nat → List Char
  | 0, n => [digit_char (n % base)]
  | fuel + 1, n =>
    if n < base then [digit_char n]
    else unsigned_digits base fuel (n / base) ++ [digit_char (n % base)]

/-- The text of an unsigned number as the stream prints it: hexadecimal or decimal. -/
def format_unsigned (hex : Bool) (n : Nat) : List Char :=
  unsigned_digits (if hex then 16 else 10) n n

/-- The state of a `std::stringstream`: its contents and the formatting state. -/
structure StringStream where
  /-- The characters written so far. -/
  buf : List Char
  /-- Whether `std::hex` was inserted; numbers are decimal otherwise. -/
  hex : Bool
  /-- The fill character, set by `std::setfill`. -/
  fill : Char
  /-- The field width for the next formatted output, set by `std::setw`. -/
  width : Nat

namespace StringStream

/-- A newly constructed stream: empty, decimal, fill character space, width 0. -/
def fresh : StringStream := { buf := [], hex := false, fill := ' ', width := 0 }

/-- The manipulator `std::hex`. -/
def set_hex (ss : StringStream) : StringStream := { ss with hex := true }

/-- The manipulator `std::setfill(c)`. -/
def setfill (ss : StringStream) (c : Char) : StringStream := { ss with fill := c }

/-- The manipulator `std::setw(n)`. -/
def setw (ss : StringStream) (n : Nat) : StringStream := { ss with width := n }

/-- A formatted output: the text, right-adjusted in the field width with fill characters
in front, after which the width is 0 again. -/
def put_field (ss : StringStream) (field : List Char) : StringStream :=
  { ss with
    buf := ss.buf ++ (List.replicate (ss.width - field.length) ss.fill ++ field),
    width := 0 }

/-- The insertion `ss << "text"`. -/
def put_string (ss : StringStream) (text : String) : StringStream := ss.put_field text.data

/-- The insertion `ss << ch` of a `char`: the character itself. -/
def put_char (ss : StringStream) (ch : Char) : StringStream := ss.put_field [ch]

/-- The insertion `ss << n` of an unsigned number. -/
def put_unsigned (ss : StringStream) (n : Nat) : StringStream :=
  ss.put_field (format_unsigned ss.hex n)

/-- The member `str()`. -/
def str (ss : StringStream) : String := String.mk ss.buf

end StringStream

/-! ## The response packets (src/Debugger/GDBStub/GDBResponsePacket.hpp) -/

namespace pkt

/-- The template `write_bytes` (lines 21-30) for a value type of `size` bytes: the bytes of
the value as they lie in the memory of the (little-endian x86) host, each as a number. -/
def write_bytes (ss : StringStream) (size : Nat) (value : Nat) : StringStream :=
  (List.range size).foldl
    (fun st i => (st.setw 2).put_unsigned (value / 256 ^ i % 256))
    ((ss.set_hex).setfill '0')

/-- The template `add_list_entry` (lines 32-38) for an unsigned value. -/
def add_list_entry (ss : StringStream) (key : String) (value : Nat) : StringStream :=
  (((ss.put_string key).put_string ":").put_unsigned value).put_string ";"

/-- The class `QueryCurrentThreadIDResponse` (lines 97-116); `thread_id` is a `size_t`. -/
structure QueryCurrentThreadIDResponse where
  thread_id : Nat

/-- The method `QueryCurrentThreadIDResponse::to_string` (lines 102-112). -/
def QueryCurrentThreadIDResponse.to_string (r : QueryCurrentThreadIDResponse) : String :=
  let ss := StringStream.fresh.put_string "QC"
  if r.thread_id = WORD - 1 then (ss.put_string "-1").str
  else ((ss.set_hex).put_unsigned r.thread_id).str

/-- The class `QueryThreadInfoResponse` (lines 118-144). -/
structure QueryThreadInfoResponse where
  thread_ids : List Nat
  deriving DecidableEq, Repr

/-- The constructor `QueryThreadInfoResponse::QueryThreadInfoResponse` (lines 120-125). -/
def QueryThreadInfoResponse.create (thread_ids : List Nat) : Result QueryThreadInfoResponse :=
  if thread_ids.isEmpty then .throw .runtime_error
  else .ok { thread_ids := thread_ids }

/-- The method `QueryThreadInfoResponse::to_string` (lines 127-140).  The call
`_thread_ids.front()` needs a non-empty list, which the constructor ensures; for the empty
list, on which it is undefined, no id is written. -/
def QueryThreadInfoResponse.to_string (r : QueryThreadInfoResponse) : String :=
  let ss := (StringStream.fresh.put_string "m").set_hex
  let ss1 :=
    match r.thread_ids.head? with
    | some front => ss.put_unsigned front
    | none => ss
  let ss2 := r.thread_ids.tail.foldl (fun st tid => (st.put_string ",").put_unsigned tid) ss1
  (ss2.put_string "l").str

/-- The class `RegisterReadResponse` (lines 153-167): a `uint64_t` value and a width. -/
structure RegisterReadResponse where
  value : Nat
  width : Nat

/-- The method `RegisterReadResponse::to_string` (lines 158-162): `write_bytes` on the
member `_value`, of type `uint64_t`. -/
def RegisterReadResponse.to_string (r : RegisterReadResponse) : String :=
  (write_bytes StringStream.fresh 8 r.value).str

/-- The 32-bit register file `GDBRegisters32`.  The header GDBRegisters.hpp is not in the
sources; every field is taken to be four bytes wide, as in scenario S4 of the
specification. -/
structure GDBRegisters32 where
  eax : Nat
  ecx : Nat
  edx : Nat
  ebx : Nat
  esp : Nat
  ebp : Nat
  esi : Nat
  edi : Nat
  eip : Nat
  eflags : Nat
  cs : Nat
  ss : Nat
  ds : Nat
  es : Nat
  fs : Nat
  gs : Nat

/-- The 64-bit register file `GDBRegisters64`.  The header GDBRegisters.hpp is not in the
sources; the general registers, `rip` and `rflags` are eight bytes wide, and the width of
the segment fields is a parameter of `to_string`. -/
structure GDBRegisters64 where
  rax : Nat
  rbx : Nat
  rcx : Nat
  rdx : Nat
  rsi : Nat
  rdi : Nat
  rbp : Nat
  rsp : Nat
  r8 : Nat
  r9 : Nat
  r10 : Nat
  r11 : Nat
  r12 : Nat
  r13 : Nat
  r14 : Nat
  r15 : Nat
  rip : Nat
  rflags : Nat
  cs : Nat
  ss : Nat
  ds : Nat
  es : Nat
  fs : Nat
  gs : Nat

/-- The variant `GDBRegisters`. -/
inductive GDBRegisters where
  | regs64 (regs : GDBRegisters64)
  | regs32 (regs : GDBRegisters32)

/-- The template `write_register` (lines 239-242) for a register type of `size` bytes. -/
def write_register (ss : StringStream) (size : Nat) (reg : Nat) : StringStream :=
  (ss.setw (2 * size)).put_unsigned (reg % 256 ^ size)

/-- The method `GeneralRegistersBatchReadResponse::to_string` (lines 174-237); `sizeof_seg`
is the size in bytes of a segment field of `GDBRegisters64`. -/
def GeneralRegistersBatchReadResponse.to_string (sizeof_seg : Nat) (registers : GDBRegisters) :
    String :=
  let ss0 := (StringStream.fresh.set_hex).setfill '0'
  match registers with
  | .regs64 regs =>
    let s1 := write_register ss0 8 regs.rax
    let s2 := write_register s1 8 regs.rbx
    let s3 := write_register s2 8 regs.rcx
    let s4 := write_register s3 8 regs.rdx
    let s5 := write_register s4 8 regs.rsi
    let s6 := write_register s5 8 regs.rdi
    let s7 := write_register s6 8 regs.rbp
    let s8 := write_register s7 8 regs.rsp
    let s9 := write_register s8 8 regs.r8
    let s10 := write_register s9 8 regs.r9
    let s11 := write_register s10 8 regs.r10
    let s12 := write_register s11 8 regs.r11
    let s13 := write_register s12 8 regs.r12
    let s14 := write_register s13 8 regs.r13
    let s15 := write_register s14 8 regs.r14
    let s16 := write_register s15 8 regs.r15
    let s17 := write_register s16 8 regs.rip
    let eflags := regs.rflags % 4294967296
    let s18 := write_register s17 4 eflags
    let s19 := write_register s18 sizeof_seg regs.cs
    let s20 := write_register s19 sizeof_seg regs.ss
    let s21 := write_register s20 sizeof_seg regs.ds
    let s22 := write_register s21 sizeof_seg regs.es
    let s23 := write_register s22 sizeof_seg regs.fs
    let s24 := write_register s23 sizeof_seg regs.gs
    s24.str
  | .regs32 regs =>
    let s1 := write_register ss0 4 regs.eax
    let s2 := write_register s1 4 regs.ecx
    let s3 := write_register s2 4 regs.edx
    let s4 := write_register s3 4 regs.ebx
    let s5 := write_register s4 4 regs.esp
    let s6 := write_register s5 4 regs.ebp
    let s7 := write_register s6 4 regs.esi
    let s8 := write_register s7 4 regs.edi
    let s9 := write_register s8 4 regs.eip
    let s10 := write_register s9 4 regs.eflags
    let s11 := write_register s10 4 regs.cs
    let s12 := write_register s11 4 regs.ss
    let s13 := write_register s12 4 regs.ds
    let s14 := write_register s13 4 regs.es
    let s15 := write_register s14 4 regs.fs
    let s16 := write_register s15 4 regs.gs
    s16.str

/-- The class `MemoryReadResponse` (lines 248-267): the bytes copied from `data`. -/
structure MemoryReadResponse where
  data : List Byte

/-- The method `MemoryReadResponse::to_string` (lines 253-263).  The elements of `_data`
are of type `char`, so each insertion writes the character with the code of the byte. -/
def MemoryReadResponse.to_string (r : MemoryReadResponse) : String :=
  (r.data.foldl (fun st ch => (st.setw 2).put_char (Char.ofNat ch.val))
    ((StringStream.fresh.set_hex).setfill '0')).str

/-- The class `QueryProcessInfoResponse` (lines 308-321); `pid` is a `size_t`. -/
structure QueryProcessInfoResponse where
  pid : Nat

/-- The method `QueryProcessInfoResponse::to_string` (lines 313-317). -/
def QueryProcessInfoResponse.to_string (r : QueryProcessInfoResponse) : String :=
  (add_list_entry StringStream.fresh "pid" r.pid).str

/-- A number in hexadecimal, filled with zeros on the left to `2 * size` digits: the text
of a field of `size` bytes. -/
def hex_field (size : Nat) (v : Nat) : List Char :=
  List.replicate (2 * size - (format_unsigned true v).length) '0' ++ format_unsigned true v

end pkt

/-! ## Symbols and variables of the id-keyed `Debugger` (src/Debugger/Debugger.cpp) -/

namespace Debugger

/-- A `std::unordered_map<std::string, uint64_t>` such as the member `_variables`: at most
one pair for each name. -/
abbrev NameTable := List (String × Nat)

/-- The `count` of a name-keyed table. -/
def NameTable.count (t : NameTable) (name : String) : Nat :=
  match t.lookup name with
  | some _ => 1
  | none => 0

/-- The `operator[]` assignment of a name-keyed table: overwrite the value of a present
name, add an absent one. -/
def NameTable.assign : NameTable → String → Nat → NameTable
  | [], name, v => [(name, v)]
  | (k, w) :: rest, name, v =>
    if name == k then (k, v) :: rest else (k, w) :: NameTable.assign rest name v

/-- The `erase` of a name-keyed table. -/
def NameTable.erase (t : NameTable) (name : String) : NameTable :=
  t.filter (fun kv => !(name == kv.1))

/-- The method `Debugger::lookup_symbol`, over the member `_symbols`; the address of the
symbol stands for the `Symbol` record. -/
def lookup_symbol (symbols : NameTable) (name : String) : Result Nat :=
  if symbols.count name = 0 then .throw (.no_such_symbol name)
  else match symbols.lookup name with
    | some v => .ok v
    | none => .throw .out_of_range

/-- The method `Debugger::get_var`, over the member `_variables`. -/
def get_var (vars : NameTable) (name : String) : Result Nat :=
  if vars.count name = 0 then .throw (.no_such_symbol name)
  else match vars.lookup name with
    | some v => .ok v
    | none => .throw .out_of_range

/-- The method `Debugger::set_var`: the new contents of `_variables`. -/
def set_var (vars : NameTable) (name : String) (value : Nat) : NameTable :=
  vars.assign name value

/-- The method `Debugger::delete_var`: the new contents of `_variables`, or the exception. -/
def delete_var (vars : NameTable) (name : String) : Result NameTable :=
  if vars.count name = 0 then .throw (.no_such_variable "No such variable!")
  else .ok (vars.erase name)

end Debugger

/-! ## Foreign memory (src/src/Xen/XenForeignMemory.cpp) -/

namespace XenForeignMemory

/-- The macro `XC_PAGE_SHIFT` of the Xen headers. -/
def XC_PAGE_SHIFT : Nat := 12

/-- The macro `XC_PAGE_SIZE` of the Xen headers. -/
def XC_PAGE_SIZE : Nat := 2 ^ XC_PAGE_SHIFT

/-- The macro `INVALID_MFN` of the Xen headers: `~0UL`. -/
def INVALID_MFN : Nat := WORD - 1

/-- What `pfn_to_mfn_pv` and `map` read of a domain: the word size of the guest and the
page-to-machine table of `map_meminfo`, whose entries are listed from index 0 in the width
of the guest. -/
structure GuestInfo where
  /-- The result of `get_word_size`, in bytes. -/
  word_size : Nat
  /-- The entries of `meminfo->p2m_table`. -/
  p2m_table : List Nat
  /-- The field `meminfo->p2m_size`. -/
  p2m_size : Nat

/-- The method `XenForeignMemory::pfn_to_mfn_pv`. -/
def pfn_to_mfn_pv (domain : GuestInfo) (pfn : Nat) : Result Nat :=
  if pfn > domain.p2m_size then .throw (.xen_exception "Invalid PFN!")
  else match domain.p2m_table.get? pfn with
    | none => .throw .out_of_bounds_access
    | some entry =>
      if domain.word_size = 8 then .ok (entry % WORD)
      else
        let mfn := entry % 2 ^ 32
        .ok (if mfn = 2 ^ 32 - 1 then INVALID_MFN else mfn)

/-- The number of pages `map` requests for a window of `size` bytes. -/
def num_pages (size : Nat) : Nat :=
  ((size + XC_PAGE_SIZE - 1) % WORD) >>> XC_PAGE_SHIFT

/-- The frames `map` puts into its `pages` array. -/
def page_list (base_mfn n : Nat) : List Nat :=
  (List.range n).map (fun i => (base_mfn + i) % WORD)

/-- The window `map` hands out: the offset of the returned pointer inside the first mapped
page, and the frames that were mapped. -/
structure MappedMemory where
  /-- The value `address % XC_PAGE_SIZE` added to the base of the mapping. -/
  offset : Nat
  /-- The frames of the mapping, in order. -/
  pages : List Nat
  deriving DecidableEq, Repr

/-- The first page the hypervisor reported an error for, as `map` scans the `errors`
array: its index counted from 0 and its error code. -/
def first_error : Nat → List Int → Option (Nat × Int)
  | _, [] => none
  | i, e :: rest => if e ≠ 0 then some (i, e) else first_error (i + 1) rest

/-- How a call of `map` ends, and the page lists it handed to `xenforeignmemory_map`. -/
structure MapOutcome where
  /-- The requests made to the hypervisor, in order. -/
  requests : List (List Nat)
  /-- The window, or the exception. -/
  result : Result MappedMemory
  deriving DecidableEq, Repr

/-- The method `XenForeignMemory::map`. The call `xenforeignmemory_map` is the parameter
`hv`, which answers a list of frames with the `errors` array it fills in; the two `malloc`
calls succeed. -/
def map (hv : List Nat → List Int) (domain : GuestInfo) (address size : Nat) : MapOutcome :=
  match pfn_to_mfn_pv domain (address >>> XC_PAGE_SHIFT) with
  | .throw e => { requests := [], result := .throw e }
  | .ok base_mfn =>
    let n := num_pages size
    let pages := page_list base_mfn n
    let errors := hv pages
    match first_error 0 (errors.take n) with
    | some (i, _) =>
      { requests := [pages]
        result := .throw (.xen_exception (String.mk ("Failed to map page ".data
          ++ format_unsigned false (i + 1) ++ " of ".data ++ format_unsigned false n))) }
    | none =>
      { requests := [pages]
        result := .ok { offset := address % XC_PAGE_SIZE, pages := pages } }

end XenForeignMemory

/-! ## The store (src/Xen/Xenstore.cpp) -/

namespace XenStore

/-- The store as the library calls answer it: `xs_directory` gives the entries of a
directory (an entry may be a null pointer) and `xs_read` the contents of a path; either
gives nothing when the call fails. -/
structure Store where
  /-- The call `xs_directory`. -/
  xs_directory : String → Option (List (Option String))
  /-- The call `xs_read`. -/
  xs_read : String → Option String

/-- The method `XenStore::read_directory`. -/
def read_directory (xs : Store) (dir : String) : Result (List String) :=
  match xs.xs_directory dir with
  | none => .throw (.xen_exception ("Read from directory \"" ++ dir ++ "\" failed!"))
  | some entries => .ok (entries.filterMap id)

/-- The method `XenStore::read`. -/
def read (xs : Store) (file : String) : Result String :=
  match xs.xs_read file with
  | none => .throw (.xen_exception ("Read from \"" ++ file ++ "\" failed!"))
  | some contents => .ok contents

/-- The characters `isspace` accepts in the C locale. -/
def is_space (c : Char) : Bool :=
  c == ' ' || (9 ≤ c.toNat && c.toNat ≤ 13)

/-- The library function `std::stoul(s, nullptr, 10)`: leading white space is skipped, a
sign is accepted, the longest run of decimal digits is converted, and a minus sign negates
the value in `unsigned long`. -/
def stoul (s : String) : Result Nat :=
  let cs := s.data.dropWhile is_space
  let signed : Bool × List Char :=
    match cs with
    | '-' :: rest => (true, rest)
    | '+' :: rest => (false, rest)
    | _ => (false, cs)
  let ds := signed.2.takeWhile Char.isDigit
  if ds.isEmpty then .throw .invalid_argument
  else
    let v := digits_value 10 ds
    if v ≥ WORD then .throw .out_of_range
    else .ok (if signed.1 then (WORD - v) % WORD else v)

/-- The path `get_domid_from_name` reads for a directory entry. -/
def name_path (domid : String) : String :=
  "local/domain/" ++ domid ++ "/name"

/-- The loop of `XenStore::get_domid_from_name` over the directory entries. -/
def get_domid_loop (xs : Store) (name : String) : List String → Result Nat
  | [] => .throw (.xen_exception ("Domain \"" ++ name ++ "\" not found!"))
  | domid :: rest =>
    match read xs (name_path domid) with
    | .throw e => .throw e
    | .ok name_candidate =>
      if name_candidate = name then
        match stoul domid with
        | .throw e => .throw e
        | .ok v => .ok (v % 2 ^ 32)
      else get_domid_loop xs name rest

/-- The method `XenStore::get_domid_from_name`. -/
def get_domid_from_name (xs : Store) (name : String) : Result Nat :=
  match read_directory xs "/local/domain" with
  | .throw e => .throw e
  | .ok domain_ids => get_domid_loop xs name domain_ids

end XenStore

/-! ## The expression parser (src/Parser/Parser.cpp) -/

namespace parser

/-- The enumeration `token::Symbol::Type`; the parser names six of its members. -/
inductive SymbolType where
  | Plus | Minus | Star | Slash | ParenLeft | ParenRight | Other
  deriving DecidableEq, Repr

/-- The variant `Parser::Token`, as the tokenizer produces it. -/
inductive Token where
  | constant (value : Nat)
  | variable (name : String)
  | label (name : String)
  | symbol (type : SymbolType)
  deriving DecidableEq, Repr

/-- The binary operators `symbol_to_binop` produces. -/
inductive BinaryOperator where
  | Add | Subtract | Multiply | Divide
  deriving DecidableEq, Repr

/-- The unary operators `symbol_to_unop` produces. -/
inductive UnaryOperator where
  | Negate | Dereference
  deriving DecidableEq, Repr

/-- The variant `Parser::Operator`. -/
inductive Operator where
  | sentinel
  | binary (op : BinaryOperator)
  | unary (op : UnaryOperator)
  deriving DecidableEq, Repr

/-- The expression tree. The constructor `binary op x y` is
`BinaryExpression(op, x, y)` and `unary op x` is `UnaryExpression(op, x)`, with the
arguments in the order of the call. -/
inductive Expression where
  | constant (value : Nat)
  | variable (name : String)
  | label (name : String)
  | binary (op : BinaryOperator) (x y : Expression)
  | unary (op : UnaryOperator) (x : Expression)
  deriving DecidableEq, Repr

/-- The members of `Parser` the parse works on: the queue `_tokens` from its front, and
the stacks `_operands` and `_operators` from their tops. -/
structure Parser where
  /-- The queue `_tokens`. -/
  tokens : List Token
  /-- The stack `_operands`. -/
  operands : List Expression
  /-- The stack `_operators`. -/
  operators : List Operator
  deriving DecidableEq, Repr

/-- The function `Parser::symbol_to_binop`. -/
def symbol_to_binop (s : SymbolType) : Result Operator :=
  match s with
  | .Plus => .ok (.binary .Add)
  | .Minus => .ok (.binary .Subtract)
  | .Star => .ok (.binary .Multiply)
  | .Slash => .ok (.binary .Divide)
  | _ => .throw .runtime_error

/-- The function `Parser::symbol_to_unop`. -/
def symbol_to_unop (s : SymbolType) : Result Operator :=
  match s with
  | .Minus => .ok (.unary .Negate)
  | .Star => .ok (.unary .Dereference)
  | _ => .throw .runtime_error

/-- The predicate `is_binary_operator_symbol` on the front of the queue: the symbols
`symbol_to_binop` converts. The source reads `_tokens.front()` also when the queue has
run empty; such a read satisfies no predicate here. -/
def is_binary_operator_symbol (t : Option Token) : Bool :=
  match t with
  | some (.symbol .Plus) | some (.symbol .Minus) | some (.symbol .Star)
  | some (.symbol .Slash) => true
  | _ => false

/-- The predicate `is_unary_operator_symbol`: the symbols `symbol_to_unop` converts. -/
def is_unary_operator_symbol (t : Option Token) : Bool :=
  match t with
  | some (.symbol .Minus) | some (.symbol .Star) => true
  | _ => false

/-- The method `Parser::next_token`. -/
def next_token (p : Parser) : Option Token := p.tokens.head?

/-- The method `Parser::consume`. -/
def consume (p : Parser) : Parser := { p with tokens := p.tokens.tail }

/-- The body of `Parser::pop_operator_and_merge` once the operator is popped: what the
visitor does to the operand stack. -/
def merge (op : Operator) (operands : List Expression) : Result (List Expression) :=
  match op with
  | .sentinel => .throw .sentinel_merge
  | .binary b =>
    match operands with
    | x :: y :: rest => .ok (.binary b x y :: rest)
    | _ => .throw .empty_container_access
  | .unary u =>
    match operands with
    | x :: rest => .ok (.unary u x :: rest)
    | [] => .throw .empty_container_access

/-- The method `Parser::pop_operator_and_merge`. -/
def pop_operator_and_merge (p : Parser) : Result Parser :=
  match p.operators with
  | [] => .throw .empty_container_access
  | op :: ops =>
    match merge op p.operands with
    | .ok operands => .ok { p with operators := ops, operands := operands }
    | .throw e => .throw e

/-- A loop `while (cond(_operators.top())) pop_operator_and_merge();` over the two
stacks. -/
def merge_while (cond : Operator → Bool) :
    List Operator → List Expression → Result (List Operator × List Expression)
  | [], _ => .throw .empty_container_access
  | top :: ops, operands =>
    if cond top then
      match merge top operands with
      | .ok merged => merge_while cond ops merged
      | .throw e => .throw e
    else .ok (top :: ops, operands)

/-- The method `Parser::push_operator_and_merge`; the function `precedence_of` is a
parameter. -/
def push_operator_and_merge (precedence_of : Operator → Nat) (op : Operator) (p : Parser) :
    Result Parser :=
  match merge_while (fun top => decide (precedence_of top > precedence_of op))
      p.operators p.operands with
  | .ok (ops, operands) => .ok { p with operators := op :: ops, operands := operands }
  | .throw e => .throw e

/-- The call `expect` of `parse_unit`: consume a close-paren or throw. -/
def expect_paren_right (p : Parser) : Result Parser :=
  match next_token p with
  | some (.symbol .ParenRight) => .ok (consume p)
  | _ => .throw (.expect_failed "Expected close-paren!")

mutual

/-- The method `Parser::parse_unit`. The first argument bounds the depth of the calls; the
result is `none` when the bound is reached. -/
def parse_unit (precedence_of : Operator → Nat) : Nat → Parser → Option (Result Parser)
  | 0, _ => none
  | fuel + 1, p =>
    match next_token p with
    | some (.constant v) => some (.ok (consume { p with operands := .constant v :: p.operands }))
    | some (.variable n) => some (.ok (consume { p with operands := .variable n :: p.operands }))
    | some (.label n) => some (.ok (consume { p with operands := .label n :: p.operands }))
    | some (.symbol .ParenLeft) =>
      match parse_expression precedence_of fuel
          { consume p with operators := .sentinel :: p.operators } with
      | none => none
      | some (.throw e) => some (.throw e)
      | some (.ok p1) =>
        match expect_paren_right p1 with
        | .throw e => some (.throw e)
        | .ok p2 =>
          match p2.operators with
          | [] => some (.throw .empty_container_access)
          | _ :: ops => some (.ok { p2 with operators := ops })
    | some (.symbol s) =>
      if is_unary_operator_symbol (some (.symbol s)) then
        match (symbol_to_unop s).bind (fun op => push_operator_and_merge precedence_of op p) with
        | .throw e => some (.throw e)
        | .ok p1 => parse_unit precedence_of fuel (consume p1)
      else some (.throw .missing_expression)
    | none => some (.throw .missing_expression)

/-- The first loop of `Parser::parse_expression`: a binary operator symbol, then a unit. -/
def parse_operators (precedence_of : Operator → Nat) : Nat → Parser → Option (Result Parser)
  | 0, _ => none
  | fuel + 1, p =>
    match next_token p with
    | some (.symbol s) =>
      if is_binary_operator_symbol (some (.symbol s)) then
        match (symbol_to_binop s).bind (fun op => push_operator_and_merge precedence_of op p) with
        | .throw e => some (.throw e)
        | .ok p1 =>
          let p2 := consume p1
          if p2.tokens.isEmpty then some (.throw .missing_expression)
          else
            match parse_unit precedence_of fuel p2 with
            | none => none
            | some (.throw e) => some (.throw e)
            | some (.ok p3) => parse_operators precedence_of fuel p3
      else some (.ok p)
    | _ => some (.ok p)

/-- The method `Parser::parse_expression`. -/
def parse_expression (precedence_of : Operator → Nat) : Nat → Parser → Option (Result Parser)
  | 0, _ => none
  | fuel + 1, p =>
    match parse_unit precedence_of fuel p with
    | none => none
    | some (.throw e) => some (.throw e)
    | some (.ok p1) =>
      match parse_operators precedence_of fuel p1 with
      | none => none
      | some (.throw e) => some (.throw e)
      | some (.ok p2) =>
        match merge_while (fun top => decide (top ≠ .sentinel)) p2.operators p2.operands with
        | .throw e => some (.throw e)
        | .ok (ops, operands) => some (.ok { p2 with operators := ops, operands := operands })

end

/-- The method `Parser::parse`, from the tokens `tokenize` leaves in `_tokens`. The bound
on the depth of the calls is the first argument. -/
def parse_tokens (precedence_of : Operator → Nat) (fuel : Nat) (tokens : List Token) :
    Option (Result Expression) :=
  match parse_expression precedence_of fuel
      { tokens := tokens, operands := [], operators := [.sentinel] } with
  | none => none
  | some (.throw e) => some (.throw e)
  | some (.ok p) =>
    if !p.tokens.isEmpty then some (.throw .extra_token)
    else
      match p.operands with
      | [] => some (.throw .empty_container_access)
      | top :: _ => some (.ok top)

/-- The method `Parser::parse` on a token list, with a bound no parse of that list
reaches. -/
def parse (precedence_of : Operator → Nat) (tokens : List Token) : Option (Result Expression) :=
  parse_tokens precedence_of (3 * tokens.length + 3) tokens

end parser

/-! ## Argument lists of commands (src/src/REPL/Command/Match.cpp) -/

namespace repl

/-- What the checks read of an `Argument`: its name and the result of
`get_default_value`, empty when the argument has no default. -/
structure Argument where
  /-- The name of the argument. -/
  name : String
  /-- The text `get_default_value` returns. -/
  default_value : String
  deriving DecidableEq, Repr

/-- The loop of `validate_args`, from the value of `prev_arg_has_default`. -/
def validate_args_loop : Bool → List Argument → Result Unit
  | _, [] => .ok ()
  | prev_arg_has_default, arg :: rest =>
    if arg.default_value.isEmpty then
      if prev_arg_has_default then .throw .default_arg_position
      else validate_args_loop prev_arg_has_default rest
    else validate_args_loop true rest

/-- The function `validate_args`. -/
def validate_args (args : List Argument) : Result Unit :=
  validate_args_loop false args

/-- The function `validate_new_arg`. -/
def validate_new_arg (args : List Argument) (new_arg : Argument) : Result Unit :=
  match args.getLast? with
  | some back =>
    if !back.default_value.isEmpty && new_arg.default_value.isEmpty then
      .throw .default_arg_position
    else .ok ()
  | none => .ok ()

/-- The whole-list condition in the words of the specification: no argument without a
default value comes after an argument with a default value. -/
def NoRequiredAfterDefault (args : List Argument) : Prop :=
  ∀ i j : Fin args.length, i < j →
    (args.get i).default_value ≠ "" → (args.get j).default_value ≠ ""

instance (args : List Argument) : Decidable (NoRequiredAfterDefault args) := by
  unfold NoRequiredAfterDefault
  infer_instance

end repl

/-! ## Concrete guests used by the closed theorems -/

namespace Fixture

/-- Guest memory holding `48 89` at `0x1000` and zero elsewhere. -/
def mem_4889 : Memory :=
  fun a => if a = 0x1000 then 0x48 else if a = 0x1001 then 0x89 else 0

/-- A paused guest over `mem_4889` in which every window can be mapped. -/
def guest : Domain :=
  { mem := mem_4889, can_map := fun _ _ => true, ip := 0x1000, paused := true }

/-- A `DebuggerPV` on `guest` with an empty table. -/
def pv_empty : DebuggerPV := { domain := guest, infinite_loops := [] }

/-- The state `pv_empty` after `insert_breakpoint(0x1000)`. -/
def pv_planted : DebuggerPV := (DebuggerPV.insert_breakpoint pv_empty 0x1000).state

/-- Scenario S6: `pv_empty` after `insert_breakpoint(0x2000)` and `insert_breakpoint(0x2004)`. -/
def pv_two : DebuggerPV := DebuggerPV.insert_all pv_empty [0x2000, 0x2004]

/-- The state `pv_empty` after `insert_breakpoint(0x2001)`. -/
def pv_end_overlap : DebuggerPV := (DebuggerPV.insert_breakpoint pv_empty 0x2001).state

/-- A guest whose own code has `EB FE` at its instruction pointer `0x1000`, under a
`DebuggerPV` with an empty table. -/
def pv_guest_loop : DebuggerPV :=
  { domain :=
      { mem := fun a => if a = 0x1000 then 0xEB else if a = 0x1001 then 0xFE else 0,
        can_map := fun _ _ => true, ip := 0x1000, paused := true },
    infinite_loops := [] }

/-- A detached `Debugger` with an empty table. -/
def dbg_detached : Debugger :=
  { domain := none, current_vcpu := 0, next_breakpoint_id := 0, breakpoints := [] }

/-- The state `dbg_detached` after `attach` to `guest`. -/
def dbg_attached : Debugger := (Debugger.attach dbg_detached guest true).state

/-- The state `dbg_attached` after `create_breakpoint(0x1000)`. -/
def dbg_one : Debugger := (Debugger.create_breakpoint dbg_attached 0x1000).state

/-- A guest like `guest` in which the window at `0x1007` cannot be mapped. -/
def guest_unmappable_1007 : Domain :=
  { mem := mem_4889, can_map := fun a _ => decide (a ≠ 0x1007), ip := 0x1000, paused := true }

/-- A `DebuggerPV` on `guest_unmappable_1007` with an empty table. -/
def pv_unmappable_1007 : DebuggerPV := { domain := guest_unmappable_1007, infinite_loops := [] }

/-- An operand that is not used. -/
def no_operand : Operand :=
  { type := .invalid, reg := 0, imm := 0, mem := { base := 0, index := 0, scale := 0, disp := 0 } }

/-- The instruction `EB 05` at `0x1000` as decoded: a jump with the immediate target `0x1007`. -/
def insn_jmp_imm : Insn :=
  { address := 0x1000, grp_jump := true, grp_call := false, grp_ret := false, grp_iret := false,
    op_count := 1, op0 := { no_operand with type := .imm, imm := 0x1007 } }

/-- A jump through the disassembler register `cs_reg`, at `0x1000`. -/
def insn_jmp_reg (cs_reg : Nat) : Insn :=
  { address := 0x1000, grp_jump := true, grp_call := false, grp_ret := false, grp_iret := false,
    op_count := 1, op0 := { no_operand with type := .reg, reg := cs_reg } }

/-- A return instruction at `0x1000`. -/
def insn_ret : Insn :=
  { address := 0x1000, grp_jump := false, grp_call := false, grp_ret := true, grp_iret := false,
    op_count := 0, op0 := no_operand }

/-- Any instruction at `0x1002` that is neither a jump, a call nor a return. -/
def insn_next : Insn :=
  { address := 0x1002, grp_jump := false, grp_call := false, grp_ret := false, grp_iret := false,
    op_count := 0, op0 := no_operand }

/-- A register file in which the register with id `i` holds `0x1000 * (i + 1)`; the stack
pointer is `0x3000` and the word size 8. -/
def cpu64 : Cpu :=
  { word_size := 8, sp := 0x3000, find_by_id := fun i => some (0x1000 * (i + 1)),
    read_register := fun r => .ok (0x1000 * (r + 1)) }

/-- The register file `cpu64` with word size 4. -/
def cpu32 : Cpu := { cpu64 with word_size := 4 }

/-- A paused guest whose stack at `0x3000` holds the bytes `01 02 03 04 05 06 07 08`. -/
def guest_stack : Domain :=
  { mem := fun a => if 0x3000 ≤ a ∧ a < 0x3008 then byte_of (a - 0x3000 + 1) else 0,
    can_map := fun _ _ => true, ip := 0x1000, paused := true }

/-- The register file of scenario S4. -/
def regs_s4 : pkt.GDBRegisters32 :=
  { eax := 1, ecx := 2, edx := 3, ebx := 4, esp := 5, ebp := 6, esi := 7, edi := 8, eip := 9,
    eflags := 0x202, cs := 0x10, ss := 0x11, ds := 0x12, es := 0x13, fs := 0x14, gs := 0x15 }

/-- A 64-bit register file with `rax = 1`, the given `rflags`, and all else 0. -/
def regs64_with_rflags (rflags : Nat) : pkt.GDBRegisters64 :=
  { rax := 1, rbx := 0, rcx := 0, rdx := 0, rsi := 0, rdi := 0, rbp := 0, rsp := 0,
    r8 := 0, r9 := 0, r10 := 0, r11 := 0, r12 := 0, r13 := 0, r14 := 0, r15 := 0,
    rip := 0, rflags := rflags, cs := 0, ss := 0, ds := 0, es := 0, fs := 0, gs := 0 }

/-- A 32-bit guest whose page-to-machine table marks page 0 as invalid. -/
def guest32_invalid : XenForeignMemory.GuestInfo :=
  { word_size := 4, p2m_table := [0xFFFFFFFF, 0x1234], p2m_size := 2 }

/-- A 64-bit guest with two valid pages. -/
def guest64_two_pages : XenForeignMemory.GuestInfo :=
  { word_size := 8, p2m_table := [0x100, 0x101], p2m_size := 2 }

/-- A hypervisor that refuses the frame `INVALID_MFN` with `-EINVAL` and maps every other
frame. -/
def hv_refusing_invalid (pages : List Nat) : List Int :=
  pages.map (fun mfn => if mfn = XenForeignMemory.INVALID_MFN then -22 else 0)

/-- A hypervisor that reports no error for any frame. -/
def hv_accepting (pages : List Nat) : List Int :=
  pages.map (fun _ => 0)

/-- A store with the domains 0 and 5, answering absolute paths only. -/
def store_absolute : XenStore.Store :=
  { xs_directory := fun dir =>
      if dir = "/local/domain" then some [some "0", some "5"] else none
    xs_read := fun path =>
      if path = "/local/domain/0/name" then some "Domain-0"
      else if path = "/local/domain/5/name" then some "guest"
      else none }

/-- The same two domains in a store that answers the paths without the leading slash. -/
def store_relative : XenStore.Store :=
  { xs_directory := fun dir =>
      if dir = "/local/domain" then some [some "0", some "5"] else none
    xs_read := fun path =>
      if path = "local/domain/0/name" then some "Domain-0"
      else if path = "local/domain/5/name" then some "guest"
      else none }

/-- A precedence function: the sentinel lowest, then the additive, the multiplicative and
the unary operators. -/
def precedence : parser.Operator → Nat
  | .sentinel => 0
  | .binary .Add => 1
  | .binary .Subtract => 1
  | .binary .Multiply => 2
  | .binary .Divide => 2
  | .unary _ => 3

/-- The tokens of `1 - 2 - 3`. -/
def tokens_1_minus_2_minus_3 : List parser.Token :=
  [.constant 1, .symbol .Minus, .constant 2, .symbol .Minus, .constant 3]

/-- An argument without a default value. -/
def arg_required : repl.Argument := { name := "address", default_value := "" }

/-- An argument with a default value. -/
def arg_optional : repl.Argument := { name := "count", default_value := "1" }

end Fixture

/-! ## Theorems -/

/-! ### Memory and container lemmas -/

theorem byte_of_val (b : Byte) : byte_of b.val = b := by
  apply Fin.ext
  simp [byte_of, Nat.mod_eq_of_lt b.isLt]

theorem write_u8_same (m : Memory) (a : Address) (b : Byte) : write_u8 m a b a = b := by
  simp [write_u8]

theorem write_u8_other (m : Memory) (a x : Address) (b : Byte) (h : x ≠ a) :
    write_u8 m a b x = m x := by
  simp [write_u8, h]

theorem write_u16_at (m : Memory) (a : Address) (v : Nat) :
    write_u16 m a v a = byte_of v := by
  simp [write_u16, write_u8]

theorem write_u16_next (m : Memory) (a : Address) (v : Nat) :
    write_u16 m a v (a + 1) = byte_of (v / 256) := by
  simp [write_u16, write_u8]

theorem write_u16_other (m : Memory) (a x : Address) (v : Nat)
    (h1 : x ≠ a) (h2 : x ≠ a + 1) : write_u16 m a v x = m x := by
  simp [write_u16, write_u8, h1, h2]

theorem read_write_u16 (m : Memory) (a : Address) (v : Nat) (hv : v < 65536) :
    read_u16 (write_u16 m a v) a = v := by
  simp only [read_u16, write_u16_at, write_u16_next, byte_of]
  show v % 256 + 256 * (v / 256 % 256) = v
  omega

theorem read_u16_lt (m : Memory) (a : Address) : read_u16 m a < 65536 := by
  have h1 := (m a).isLt
  have h2 := (m (a + 1)).isLt
  simp only [read_u16]
  omega

theorem write_read_u16 (m : Memory) (a : Address) :
    write_u16 m a (read_u16 m a) = m := by
  funext x
  have h1 := (m a).isLt
  have h2 := (m (a + 1)).isLt
  by_cases hx : x = a
  · subst hx
    rw [write_u16_at]
    apply Fin.ext
    show (read_u16 m x) % 256 = (m x).val
    simp only [read_u16]
    omega
  · by_cases hx2 : x = a + 1
    · subst hx2
      rw [write_u16_next]
      apply Fin.ext
      show (read_u16 m a / 256) % 256 = (m (a + 1)).val
      simp only [read_u16]
      omega
    · exact write_u16_other m a x _ hx hx2

theorem Map.count_ne_zero_iff {β : Type} (t : List (Nat × β)) (k : Nat) :
    Map.count t k ≠ 0 ↔ k ∈ Map.keys t := by
  induction t with
  | nil => simp [Map.count, Map.keys]
  | cons e t ih =>
    obtain ⟨k1, v1⟩ := e
    by_cases h : k = k1
    · subst h
      simp [Map.count, Map.keys, List.lookup]
    · have h2 : (k == k1) = false := by simpa using h
      simp only [Map.count, Map.keys, List.lookup, h2, List.map_cons, List.mem_cons] at ih ⊢
      rw [ih]
      simp [h]

theorem Map.count_eq_zero_iff {β : Type} (t : List (Nat × β)) (k : Nat) :
    Map.count t k = 0 ↔ k ∉ Map.keys t := by
  rw [← Map.count_ne_zero_iff]
  simp

theorem Map.mem_keys_set {β : Type} (t : List (Nat × β)) (k : Nat) (v : β) (p : Nat) :
    p ∈ Map.keys (Map.set t k v) ↔ p = k ∨ p ∈ Map.keys t := by
  induction t with
  | nil => simp [Map.set, Map.keys]
  | cons e t ih =>
    obtain ⟨k1, v1⟩ := e
    by_cases h : k1 = k
    · subst h
      simp [Map.set, Map.keys]
    · simp only [Map.keys, List.map_cons, List.mem_cons] at ih
      simp only [Map.set, h, if_false, Map.keys, List.map_cons, List.mem_cons, ih]
      tauto

theorem Map.at_set_same {β : Type} (t : List (Nat × β)) (k : Nat) (v : β) :
    Map.at_ (Map.set t k v) k = some v := by
  induction t with
  | nil => simp [Map.set, Map.at_, List.lookup]
  | cons e t ih =>
    obtain ⟨k1, v1⟩ := e
    by_cases h : k1 = k
    · subst h
      simp [Map.set, Map.at_, List.lookup]
    · have h2 : (k == k1) = false := by
        simpa using fun h3 : k = k1 => h h3.symm
      simp only [Map.at_] at ih
      simp [Map.set, h, Map.at_, List.lookup, h2, ih]

theorem Map.set_of_absent {β : Type} (t : List (Nat × β)) (k : Nat) (v : β)
    (h : k ∉ Map.keys t) : Map.set t k v = t ++ [(k, v)] := by
  induction t with
  | nil => rfl
  | cons e t ih =>
    obtain ⟨k1, v1⟩ := e
    simp only [Map.keys, List.map_cons, List.mem_cons, not_or] at h
    have hne : ¬ k1 = k := fun e => h.1 e.symm
    simp only [Map.keys] at ih
    simp [Map.set, hne, ih h.2]

theorem Map.not_mem_keys_erase {β : Type} (t : List (Nat × β)) (k : Nat) :
    k ∉ Map.keys (Map.erase t k) := by
  simp [Map.keys, Map.erase, List.mem_filter]

theorem Map.erase_of_absent {β : Type} (t : List (Nat × β)) (k : Nat)
    (h : k ∉ Map.keys t) : Map.erase t k = t := by
  simp only [Map.erase, List.filter_eq_self]
  intro e he
  have : e.1 ≠ k := fun h2 => h (h2 ▸ List.mem_map_of_mem Prod.fst he)
  simpa using this

theorem Map.erase_set_of_absent {β : Type} (t : List (Nat × β)) (k : Nat) (v : β)
    (h : k ∉ Map.keys t) : Map.erase (Map.set t k v) k = t := by
  rw [Map.set_of_absent t k v h]
  simp only [Map.erase, List.filter_append]
  have h1 := Map.erase_of_absent t k h
  simp only [Map.erase] at h1
  simp [h1]

theorem write_u16_write_u16 (m : Memory) (a : Address) (v w : Nat) :
    write_u16 (write_u16 m a v) a w = write_u16 m a w := by
  funext x
  by_cases hx : x = a
  · subst hx
    rw [write_u16_at, write_u16_at]
  · by_cases hx2 : x = a + 1
    · subst hx2
      rw [write_u16_next, write_u16_next]
    · rw [write_u16_other _ _ _ _ hx hx2, write_u16_other _ _ _ _ hx hx2,
        write_u16_other _ _ _ _ hx hx2]

namespace Debugger

theorem create_breakpoint_of_mappable (s : Debugger) (d : Domain) (A : Address)
    (hd : s.domain = some d) (hm : d.can_map A 2 = true) :
    create_breakpoint s A =
      ⟨{ s with
          domain := some { d with mem := write_u16 d.mem A X86_INFINITE_LOOP, paused := false },
          next_breakpoint_id := (s.next_breakpoint_id + 1) % WORD,
          breakpoints := Map.set s.breakpoints s.next_breakpoint_id
            { id := s.next_breakpoint_id, address := A, orig_bytes := read_u16 d.mem A } },
       .ok s.next_breakpoint_id⟩ := by
  simp [create_breakpoint, hd, insert_infinite_loop, Domain.pause, Domain.unpause, hm]

theorem delete_breakpoint_of_present (s : Debugger) (d : Domain) (id : Nat) (bp : Breakpoint)
    (hd : s.domain = some d) (hbp : Map.at_ s.breakpoints id = some bp)
    (hm : d.can_map bp.address 2 = true) :
    delete_breakpoint s id =
      ⟨{ s with
          domain := some { d with mem := write_u16 d.mem bp.address bp.orig_bytes,
                                  paused := false },
          breakpoints := Map.erase s.breakpoints id }, .ok ()⟩ := by
  have hc : Map.count s.breakpoints id ≠ 0 := by
    simp only [Map.at_] at hbp
    simp [Map.count, hbp]
  simp [delete_breakpoint, hd, hc, hbp, remove_infinite_loop, Domain.pause, Domain.unpause, hm]

/-- Claim C3: on an attached debugger, `create_breakpoint(A)` at a mappable `A` returns the
value of the id counter (0 right after `attach`) and leaves the sentinel at `A`; the
following `delete_breakpoint` of that id succeeds, leaves guest memory exactly as it was
before the create, and leaves the table without the id. -/
theorem create_delete_round_trip (s : Debugger) (d : Domain) (A : Address)
    (hd : s.domain = some d) (hm : d.can_map A 2 = true) :
    (create_breakpoint s A).result = .ok s.next_breakpoint_id
    ∧ (create_breakpoint s A).state.domain.map (fun g => read_u16 g.mem A)
        = some X86_INFINITE_LOOP
    ∧ (∀ (s0 : Debugger) (cs_open_ok : Bool),
        (create_breakpoint (attach s0 d cs_open_ok).state A).result = .ok 0)
    ∧ (delete_breakpoint (create_breakpoint s A).state s.next_breakpoint_id).result = .ok ()
    ∧ (delete_breakpoint (create_breakpoint s A).state s.next_breakpoint_id).state.domain.map
        Domain.mem = some d.mem
    ∧ s.next_breakpoint_id ∉ Map.keys
        (delete_breakpoint (create_breakpoint s A).state s.next_breakpoint_id).state.breakpoints
    := by
  have hc := create_breakpoint_of_mappable s d A hd hm
  have hdel := delete_breakpoint_of_present (create_breakpoint s A).state
    { d with mem := write_u16 d.mem A X86_INFINITE_LOOP, paused := false }
    s.next_breakpoint_id
    { id := s.next_breakpoint_id, address := A, orig_bytes := read_u16 d.mem A }
    (by rw [hc]) (by rw [hc]; exact Map.at_set_same _ _ _) hm
  refine ⟨by rw [hc], ?_, ?_, by rw [hdel], ?_, ?_⟩
  · rw [hc]
    exact congrArg some (read_write_u16 _ _ _ (by decide))
  · intro s0 cs_open_ok
    have h0 : (attach s0 d cs_open_ok).state.domain = some d := by
      cases cs_open_ok <;> rfl
    have h1 : (attach s0 d cs_open_ok).state.next_breakpoint_id = 0 := by
      cases cs_open_ok <;> rfl
    rw [create_breakpoint_of_mappable _ d A h0 hm, h1]
  · rw [hdel]
    show some (write_u16 (write_u16 d.mem A X86_INFINITE_LOOP) A (read_u16 d.mem A))
      = some d.mem
    rw [write_u16_write_u16, write_read_u16]
  · rw [hdel]
    exact Map.not_mem_keys_erase _ _

/-- Witness of `create_delete_round_trip`: scenario S1, the guest holding `48 89` at `0x1000`. -/
theorem create_delete_round_trip_witness :
    (create_breakpoint Fixture.dbg_attached 0x1000).result = .ok 0
    ∧ (delete_breakpoint (create_breakpoint Fixture.dbg_attached 0x1000).state 0).state.domain.map
        Domain.mem = some Fixture.mem_4889 :=
  have h := create_delete_round_trip Fixture.dbg_attached Fixture.guest 0x1000 rfl rfl
  ⟨h.1, h.2.2.2.2.1⟩

/-- On an attached debugger whose id counter is not an id of the table, `create_breakpoint`
at the (mappable) address of a breakpoint `b` of the table returns the counter value, which
differs from `b.id`, keeps every entry of the table and appends one entry with the address
of `b` that records the bytes now at that address. -/
theorem create_breakpoint_at_patched_address (s : Debugger) (d : Domain) (b : Breakpoint)
    (hd : s.domain = some d) (hm : d.can_map b.address 2 = true)
    (hb : (b.id, b) ∈ s.breakpoints)
    (hfresh : s.next_breakpoint_id ∉ Map.keys s.breakpoints) :
    (create_breakpoint s b.address).result = .ok s.next_breakpoint_id
    ∧ s.next_breakpoint_id ≠ b.id
    ∧ (create_breakpoint s b.address).state.breakpoints
        = s.breakpoints ++ [(s.next_breakpoint_id,
            { id := s.next_breakpoint_id, address := b.address,
              orig_bytes := read_u16 d.mem b.address })] := by
  have hc := create_breakpoint_of_mappable s d b.address hd hm
  have hset := Map.set_of_absent s.breakpoints s.next_breakpoint_id
    { id := s.next_breakpoint_id, address := b.address,
      orig_bytes := read_u16 d.mem b.address } hfresh
  refine ⟨by rw [hc], ?_, by rw [hc]; exact hset⟩
  intro e
  apply hfresh
  rw [e]
  exact List.mem_map_of_mem Prod.fst hb

/-- Claim C4, evaluated on the code: with breakpoint 0 live at `0x1000` (original bytes
`48 89`), a second `create_breakpoint(0x1000)` returns the new id 1, not the existing id 0;
the table then holds two breakpoints with address `0x1000`, and the new one records the
sentinel `0xFEEB` as its original bytes. -/
theorem create_breakpoint_at_patched_address_adds_entry :
    Fixture.dbg_one.breakpoints = [(0, { id := 0, address := 0x1000, orig_bytes := 0x8948 })]
    ∧ get_breakpoint_by_address Fixture.dbg_one 0x1000
      = some { id := 0, address := 0x1000, orig_bytes := 0x8948 }
    ∧ (create_breakpoint Fixture.dbg_one 0x1000).result = .ok 1
    ∧ (create_breakpoint Fixture.dbg_one 0x1000).state.breakpoints
        = [(0, { id := 0, address := 0x1000, orig_bytes := 0x8948 }),
           (1, { id := 1, address := 0x1000, orig_bytes := 0xFEEB })] := by
  refine ⟨by decide, by decide, by decide, by decide⟩

end Debugger

namespace DebuggerPV

theorem insert_breakpoint_of_present (s : DebuggerPV) (a : Address)
    (h : a ∈ Map.keys s.infinite_loops) : insert_breakpoint s a = ⟨s, .ok ()⟩ := by
  have hc := (Map.count_ne_zero_iff s.infinite_loops a).2 h
  simp [insert_breakpoint, hc]

theorem insert_breakpoint_of_unmappable (s : DebuggerPV) (a : Address)
    (h : a ∉ Map.keys s.infinite_loops) (hm : s.domain.can_map a 2 = false) :
    insert_breakpoint s a = ⟨s, .throw .map_error⟩ := by
  have hc := (Map.count_eq_zero_iff s.infinite_loops a).2 h
  simp [insert_breakpoint, hc, hm]

theorem insert_breakpoint_of_fresh (s : DebuggerPV) (a : Address)
    (h : a ∉ Map.keys s.infinite_loops) (hm : s.domain.can_map a 2 = true) :
    insert_breakpoint s a =
      ⟨{ domain := { s.domain with mem := write_u16 s.domain.mem a X86_INFINITE_LOOP },
         infinite_loops := Map.set s.infinite_loops a (read_u16 s.domain.mem a) }, .ok ()⟩ := by
  have hc := (Map.count_eq_zero_iff s.infinite_loops a).2 h
  simp [insert_breakpoint, hc, hm]

theorem insert_breakpoint_keys (s : DebuggerPV) (a p : Address)
    (hp : p ∈ Map.keys (insert_breakpoint s a).state.infinite_loops) :
    p = a ∨ p ∈ Map.keys s.infinite_loops := by
  by_cases h : a ∈ Map.keys s.infinite_loops
  · rw [insert_breakpoint_of_present s a h] at hp
    exact Or.inr hp
  · cases hm : s.domain.can_map a 2 with
    | false =>
      rw [insert_breakpoint_of_unmappable s a h hm] at hp
      exact Or.inr hp
    | true =>
      rw [insert_breakpoint_of_fresh s a h hm] at hp
      exact (Map.mem_keys_set _ _ _ _).1 hp

theorem insert_breakpoint_sentinel (s : DebuggerPV) (a : Address) (hinv : SentinelInv s)
    (hadj : ∀ p ∈ Map.keys s.infinite_loops, p + 1 ≠ a ∧ a + 1 ≠ p) :
    SentinelInv (insert_breakpoint s a).state := by
  by_cases h : a ∈ Map.keys s.infinite_loops
  · rw [insert_breakpoint_of_present s a h]
    exact hinv
  · cases hm : s.domain.can_map a 2 with
    | false =>
      rw [insert_breakpoint_of_unmappable s a h hm]
      exact hinv
    | true =>
      rw [insert_breakpoint_of_fresh s a h hm]
      intro p hp
      rcases (Map.mem_keys_set _ _ _ _).1 hp with rfl | hp2
      · exact read_write_u16 _ _ _ (by decide)
      · have hne : p ≠ a := fun e => h (e ▸ hp2)
        obtain ⟨h1, h2⟩ := hadj p hp2
        have e1 : write_u16 s.domain.mem a X86_INFINITE_LOOP p = s.domain.mem p :=
          write_u16_other _ _ _ _ hne (fun e => h2 e.symm)
        have e2 : write_u16 s.domain.mem a X86_INFINITE_LOOP (p + 1) = s.domain.mem (p + 1) :=
          write_u16_other _ _ _ _ h1 (fun e => hne (Nat.add_right_cancel e))
        show read_u16 (write_u16 s.domain.mem a X86_INFINITE_LOOP) p = X86_INFINITE_LOOP
        have := hinv p hp2
        simp only [read_u16] at this ⊢
        rw [e1, e2]
        exact this

theorem insert_all_sentinel_aux (addresses : List Address) :
    ∀ s : DebuggerPV, SentinelInv s →
      (∀ p ∈ Map.keys s.infinite_loops, ∀ q ∈ addresses, p + 1 ≠ q ∧ q + 1 ≠ p) →
      (∀ p ∈ addresses, ∀ q ∈ addresses, p + 1 ≠ q) →
      SentinelInv (insert_all s addresses) := by
  induction addresses with
  | nil => intro s hinv _ _; exact hinv
  | cons a rest ih =>
    intro s hinv hkeys hpair
    show SentinelInv (insert_all (insert_breakpoint s a).state rest)
    apply ih
    · exact insert_breakpoint_sentinel s a hinv
        (fun p hp => hkeys p hp a (List.mem_cons_self a rest))
    · intro p hp q hq
      rcases insert_breakpoint_keys s a p hp with rfl | hp2
      · exact ⟨hpair p (List.mem_cons_self p rest) q (List.mem_cons_of_mem p hq),
          hpair q (List.mem_cons_of_mem p hq) p (List.mem_cons_self p rest)⟩
      · exact hkeys p hp2 q (List.mem_cons_of_mem a hq)
    · intro p hp q hq
      exact hpair p (List.mem_cons_of_mem a hp) q (List.mem_cons_of_mem a hq)

/-- Claim C2 as stated fails: from the empty table, `insert_breakpoint(0x1000)` followed by
`insert_breakpoint(0x1001)` leaves `0x1000` in the table while guest memory at `0x1000`
reads `EB EB`, not `EB FE`. -/
theorem sentinel_invariant_fails_for_adjacent :
    ¬ (∀ (s : DebuggerPV) (addresses : List Address), s.infinite_loops = [] →
        ∀ p ∈ Map.keys (insert_all s addresses).infinite_loops,
          read_u16 (insert_all s addresses).domain.mem p = X86_INFINITE_LOOP) := by
  intro h
  have h1 := h Fixture.pv_empty [0x1000, 0x1001] rfl 0x1000 (by decide)
  revert h1
  decide

/-- Claim C2, amended: starting from an empty table, after every sequence of
`insert_breakpoint` calls in which no two addresses differ by exactly 1, every address in
the table reads the sentinel `0xFEEB` in guest memory. -/
theorem insert_all_sentinel (s : DebuggerPV) (addresses : List Address)
    (hempty : s.infinite_loops = [])
    (hadj : ∀ p ∈ addresses, ∀ q ∈ addresses, p + 1 ≠ q) :
    ∀ p ∈ Map.keys (insert_all s addresses).infinite_loops,
      read_u16 (insert_all s addresses).domain.mem p = X86_INFINITE_LOOP := by
  apply insert_all_sentinel_aux addresses s
  · intro p hp
    rw [hempty] at hp
    simp [Map.keys] at hp
  · intro p hp
    rw [hempty] at hp
    simp [Map.keys] at hp
  · exact hadj

/-- Witness of `insert_all_sentinel`: with breakpoints inserted at `0x1000` and `0x1004`,
both addresses read the sentinel. -/
theorem insert_all_sentinel_witness :
    Map.keys (insert_all Fixture.pv_empty [0x1000, 0x1004]).infinite_loops = [0x1000, 0x1004]
    ∧ read_u16 (insert_all Fixture.pv_empty [0x1000, 0x1004]).domain.mem 0x1000
        = X86_INFINITE_LOOP
    ∧ read_u16 (insert_all Fixture.pv_empty [0x1000, 0x1004]).domain.mem 0x1004
        = X86_INFINITE_LOOP :=
  ⟨by decide,
   insert_all_sentinel Fixture.pv_empty [0x1000, 0x1004] rfl (by decide) 0x1000 (by decide),
   insert_all_sentinel Fixture.pv_empty [0x1000, 0x1004] rfl (by decide) 0x1004 (by decide)⟩

/-- Claim C5: `insert_breakpoint` is idempotent per address.  A second
`insert_breakpoint(A)` leaves the state (table and guest memory) of the first; when `A` was
not in the table and can be mapped, the bytes recorded for `A` after both calls are the
bytes guest memory held at `A` before the first call; when `A` was already in the table the
first call changes nothing either. -/
theorem insert_breakpoint_idempotent (s : DebuggerPV) (A : Address) :
    (insert_breakpoint (insert_breakpoint s A).state A).state = (insert_breakpoint s A).state
    ∧ (A ∉ Map.keys s.infinite_loops → s.domain.can_map A 2 = true →
        Map.at_ (insert_breakpoint (insert_breakpoint s A).state A).state.infinite_loops A
          = some (read_u16 s.domain.mem A))
    ∧ (A ∈ Map.keys s.infinite_loops → (insert_breakpoint s A).state = s) := by
  refine ⟨?_, ?_, ?_⟩
  · by_cases h : A ∈ Map.keys s.infinite_loops
    · rw [insert_breakpoint_of_present s A h, insert_breakpoint_of_present s A h]
    · cases hm : s.domain.can_map A 2 with
      | false =>
        rw [insert_breakpoint_of_unmappable s A h hm, insert_breakpoint_of_unmappable s A h hm]
      | true =>
        rw [insert_breakpoint_of_fresh s A h hm]
        rw [insert_breakpoint_of_present _ A ((Map.mem_keys_set _ _ _ _).2 (Or.inl rfl))]
  · intro h hm
    rw [insert_breakpoint_of_fresh s A h hm]
    rw [insert_breakpoint_of_present _ A ((Map.mem_keys_set _ _ _ _).2 (Or.inl rfl))]
    exact Map.at_set_same _ _ _
  · intro h
    rw [insert_breakpoint_of_present s A h]

/-- Witness of `insert_breakpoint_idempotent`: inserting twice at `0x1000`, where the guest
holds `48 89`, records `0x8948`. -/
theorem insert_breakpoint_idempotent_witness :
    Map.at_ (insert_breakpoint (insert_breakpoint Fixture.pv_empty 0x1000).state
      0x1000).state.infinite_loops 0x1000 = some 0x8948 :=
  (insert_breakpoint_idempotent Fixture.pv_empty 0x1000).2.1 (by decide) rfl

theorem remove_breakpoint_of_present (s : DebuggerPV) (a : Address)
    (h : a ∈ Map.keys s.infinite_loops) : remove_breakpoint s a = ⟨s, .ok ()⟩ := by
  have hc := (Map.count_ne_zero_iff s.infinite_loops a).2 h
  simp [remove_breakpoint, hc]

theorem remove_breakpoint_state (s : DebuggerPV) (a : Address) :
    (remove_breakpoint s a).state = s := by
  by_cases h : a ∈ Map.keys s.infinite_loops
  · rw [remove_breakpoint_of_present s a h]
  · have hc := (Map.count_eq_zero_iff s.infinite_loops a).2 h
    have hn : Map.at_ s.infinite_loops a = none := by
      cases hl : List.lookup a s.infinite_loops with
      | none => exact hl
      | some v => simp [Map.count, hl] at hc
    cases hm : s.domain.can_map a 2 <;> simp [remove_breakpoint, hc, hm, hn]

/-- Claim C1, evaluated on the code: `remove_breakpoint(0x1000)`, called when `0x1000` is
in the table with original bytes `48 89`, returns without restoring them and without
removing the entry: guest memory at `0x1000` still reads the sentinel and the table still
holds the entry. -/
theorem remove_breakpoint_of_present_keeps_entry :
    Fixture.pv_planted.infinite_loops = [(0x1000, 0x8948)]
    ∧ (remove_breakpoint Fixture.pv_planted 0x1000).result = .ok ()
    ∧ (remove_breakpoint Fixture.pv_planted 0x1000).state.infinite_loops = [(0x1000, 0x8948)]
    ∧ read_u16 (remove_breakpoint Fixture.pv_planted 0x1000).state.domain.mem 0x1000
        = X86_INFINITE_LOOP := by
  refine ⟨by decide, by decide, by decide, by decide⟩

end DebuggerPV

namespace Debugger

theorem next_id_iterate (j a : Nat) (h : a + j < WORD) : next_id^[j] a = a + j := by
  induction j generalizing a with
  | zero => rfl
  | succ j ih =>
    rw [Function.iterate_succ_apply]
    have h1 : next_id a = a + 1 := by
      unfold next_id
      exact Nat.mod_eq_of_lt (by omega)
    rw [h1, ih (a + 1) (by omega)]
    omega

theorem CounterWithin.of_eq {s1 s2 : Debugger}
    (h : s2.next_breakpoint_id = s1.next_breakpoint_id) : CounterWithin 0 s1 s2 :=
  ⟨0, Nat.le_refl 0, h⟩

theorem CounterWithin.trans {j k : Nat} {s1 s2 s3 : Debugger}
    (h1 : CounterWithin j s1 s2) (h2 : CounterWithin k s2 s3) : CounterWithin (j + k) s1 s3 := by
  obtain ⟨a, ha, e1⟩ := h1
  obtain ⟨b, hb, e2⟩ := h2
  refine ⟨b + a, by omega, ?_⟩
  rw [e2, e1, Function.iterate_add_apply]

theorem CounterWithin.mono {j k : Nat} {s1 s2 : Debugger}
    (h : CounterWithin j s1 s2) (hjk : j ≤ k) : CounterWithin k s1 s2 := by
  obtain ⟨a, ha, e1⟩ := h
  exact ⟨a, Nat.le_trans ha hjk, e1⟩

theorem CounterWithin.bound {k : Nat} {s1 s2 : Debugger}
    (h : CounterWithin k s1 s2) (hk : s1.next_breakpoint_id + k < WORD) :
    s1.next_breakpoint_id ≤ s2.next_breakpoint_id
    ∧ s2.next_breakpoint_id ≤ s1.next_breakpoint_id + k := by
  obtain ⟨a, ha, e1⟩ := h
  rw [e1, next_id_iterate a _ (by omega)]
  omega

theorem insert_infinite_loop_of_detached (s : Debugger) (A : Address) (hd : s.domain = none) :
    insert_infinite_loop s A = ⟨s, .throw .no_guest_attached⟩ := by
  simp [insert_infinite_loop, hd]

theorem insert_infinite_loop_of_unmappable (s : Debugger) (d : Domain) (A : Address)
    (hd : s.domain = some d) (hm : d.can_map A 2 = false) :
    insert_infinite_loop s A = ⟨s, .throw .map_error⟩ := by
  simp [insert_infinite_loop, hd, hm]

theorem insert_infinite_loop_of_mappable (s : Debugger) (d : Domain) (A : Address)
    (hd : s.domain = some d) (hm : d.can_map A 2 = true) :
    insert_infinite_loop s A =
      ⟨{ s with next_breakpoint_id := (s.next_breakpoint_id + 1) % WORD,
                domain := some { d with mem := write_u16 d.mem A X86_INFINITE_LOOP } },
       .ok { id := s.next_breakpoint_id, address := A, orig_bytes := read_u16 d.mem A }⟩ := by
  simp [insert_infinite_loop, hd, hm]

theorem insert_infinite_loop_counter (s : Debugger) (A : Address) :
    CounterWithin 1 s (insert_infinite_loop s A).state
    ∧ ∀ bp, (insert_infinite_loop s A).result = .ok bp →
        bp.id = s.next_breakpoint_id
        ∧ (insert_infinite_loop s A).state.next_breakpoint_id = next_id s.next_breakpoint_id := by
  cases hd : s.domain with
  | none =>
    rw [insert_infinite_loop_of_detached s A hd]
    exact ⟨(CounterWithin.of_eq rfl).mono (by decide), fun bp h => by simp at h⟩
  | some d =>
    cases hm : d.can_map A 2 with
    | false =>
      rw [insert_infinite_loop_of_unmappable s d A hd hm]
      exact ⟨(CounterWithin.of_eq rfl).mono (by decide), fun bp h => by simp at h⟩
    | true =>
      rw [insert_infinite_loop_of_mappable s d A hd hm]
      refine ⟨⟨1, Nat.le_refl 1, rfl⟩, fun bp h => ?_⟩
      simp only [Result.ok.injEq] at h
      subst h
      exact ⟨rfl, rfl⟩

theorem remove_infinite_loop_counter (s : Debugger) (bp : Breakpoint) :
    (remove_infinite_loop s bp).state.next_breakpoint_id = s.next_breakpoint_id := by
  cases hd : s.domain with
  | none => simp [remove_infinite_loop, hd]
  | some d =>
    cases hm : d.can_map bp.address 2 <;> simp [remove_infinite_loop, hd, hm]

theorem check_infinite_loop_hit_state (s : Debugger) :
    (check_infinite_loop_hit s).state = s := by
  cases hd : s.domain with
  | none => simp [check_infinite_loop_hit, hd]
  | some d =>
    cases hm : d.can_map d.ip 2 <;> simp [check_infinite_loop_hit, hd, hm]

theorem check_breakpoint_hit_state (s : Debugger) :
    (check_breakpoint_hit s).state = s := by
  have h := check_infinite_loop_hit_state s
  unfold check_breakpoint_hit
  cases hc : check_infinite_loop_hit s with
  | mk s1 r =>
    rw [hc] at h
    cases r with
    | throw e => exact h
    | ok address =>
      by_cases h0 : address = 0
      · simp only [h0, if_true]; exact h
      · simp only [h0, if_false]; exact h

theorem poll_infinite_loop_hit_counter (polls : List Address) :
    ∀ (s : Debugger) (o : Outcome Debugger Unit), poll_infinite_loop_hit s polls = some o →
      o.state.next_breakpoint_id = s.next_breakpoint_id := by
  induction polls with
  | nil => intro s o h; simp [poll_infinite_loop_hit] at h
  | cons ip rest ih =>
    intro s o h
    unfold poll_infinite_loop_hit at h
    simp only at h
    have hs := check_infinite_loop_hit_state
      { s with domain := s.domain.map (fun d => { d with ip := ip }) }
    cases hc : check_infinite_loop_hit
      { s with domain := s.domain.map (fun d => { d with ip := ip }) } with
    | mk s2 r =>
      rw [hc] at h hs
      simp only at hs
      cases r with
      | throw e =>
        simp only [Option.some.injEq] at h
        subst h; subst hs; rfl
      | ok address =>
        by_cases h0 : address = 0
        · simp only [h0, ne_eq, not_true_eq_false, if_false] at h
          rw [ih s2 o h, hs]
        · simp only [ne_eq, h0, not_false_eq_true, if_true, Option.some.injEq] at h
          subst h; subst hs; rfl

theorem plant_dest_counter (s : Debugger) (a : Address) :
    CounterWithin 1 s (plant_dest s a).state := by
  unfold plant_dest
  split
  · exact (insert_infinite_loop_counter s a).1
  · exact (CounterWithin.of_eq rfl).mono (by decide)

theorem unplant_dest_counter (s : Debugger) (a : Address) (bp : Breakpoint) :
    (unplant_dest s a bp).state.next_breakpoint_id = s.next_breakpoint_id := by
  unfold unplant_dest
  split
  · exact remove_infinite_loop_counter s bp
  · rfl

theorem single_step_finish_counter (s : Debugger) (bp_orig : Option Breakpoint)
    (d1 d2 : Address) (b1 b2 : Breakpoint) (polls : List Address)
    (o : Outcome Debugger Unit)
    (h : single_step_finish s bp_orig d1 d2 b1 b2 polls = some o) :
    CounterWithin 1 s o.state := by
  unfold single_step_finish at h
  simp only at h
  split at h
  · simp at h
  · rename_i s2 e hp
    have h2 := poll_infinite_loop_hit_counter polls _ _ hp
    simp only [Option.some.injEq] at h
    subst h
    exact (CounterWithin.of_eq h2).mono (by decide)
  · rename_i s2 u hp
    have h2 : s2.next_breakpoint_id = s.next_breakpoint_id :=
      poll_infinite_loop_hit_counter polls _ _ hp
    have h4 := unplant_dest_counter { s2 with domain := s2.domain.map Domain.pause } d1 b1
    split at h
    · rename_i s4 e hu1
      rw [hu1] at h4
      simp only [Option.some.injEq] at h
      subst h
      exact (CounterWithin.of_eq (h4.trans h2)).mono (by decide)
    · rename_i s4 u1 hu1
      rw [hu1] at h4
      have h5 := unplant_dest_counter s4 d2 b2
      split at h
      · rename_i s5 e hu2
        rw [hu2] at h5
        simp only [Option.some.injEq] at h
        subst h
        exact (CounterWithin.of_eq (h5.trans (h4.trans h2))).mono (by decide)
      · rename_i s5 u2 hu2
        rw [hu2] at h5
        have h05 : CounterWithin 0 s s5 := CounterWithin.of_eq (h5.trans (h4.trans h2))
        split at h
        · simp only [Option.some.injEq] at h
          subst h
          exact h05.mono (by decide)
        · rename_i bp
          have h6 := (insert_infinite_loop_counter s5 bp.address).1
          split at h
          · rename_i s6 e hi
            rw [hi] at h6
            simp only [Option.some.injEq] at h
            subst h
            exact h05.trans h6
          · rename_i s6 b hi
            rw [hi] at h6
            simp only [Option.some.injEq] at h
            subst h
            exact h05.trans h6

theorem single_step_predicted_counter (s : Debugger) (bp_orig : Option Breakpoint)
    (predicted : Result (Address × Address)) (polls : List Address)
    (o : Outcome Debugger Unit)
    (h : single_step_predicted s bp_orig predicted polls = some o) :
    CounterWithin 3 s o.state := by
  unfold single_step_predicted at h
  split at h
  · simp only [Option.some.injEq] at h
    subst h
    exact (CounterWithin.of_eq rfl).mono (by decide)
  · rename_i d1 d2
    have h1 := plant_dest_counter s d1
    split at h
    · rename_i s1 e hp1
      rw [hp1] at h1
      simp only [Option.some.injEq] at h
      subst h
      exact h1.mono (by decide)
    · rename_i s1 b1 hp1
      rw [hp1] at h1
      have h2 := plant_dest_counter s1 d2
      split at h
      · rename_i s2 e hp2
        rw [hp2] at h2
        simp only [Option.some.injEq] at h
        subst h
        exact (h1.trans h2).mono (by decide)
      · rename_i s2 b2 hp2
        rw [hp2] at h2
        exact (h1.trans h2).trans (single_step_finish_counter _ _ _ _ _ _ _ _ h)

theorem single_step_counter (s : Debugger) (predicted : Result (Address × Address))
    (polls : List Address) (o : Outcome Debugger Unit)
    (h : single_step s predicted polls = some o) : CounterWithin 3 s o.state := by
  unfold single_step at h
  split at h
  · simp only [Option.some.injEq] at h
    subst h
    exact (CounterWithin.of_eq rfl).mono (by decide)
  · rename_i d hd
    have hc := check_breakpoint_hit_state { s with domain := some d.pause }
    simp only at h
    split at h
    · rename_i s2 e hcb
      rw [hcb] at hc
      simp only [Option.some.injEq] at h
      subst h
      simp only at hc
      rw [hc]
      exact (CounterWithin.of_eq rfl).mono (by decide)
    · rename_i s2 hcb
      rw [hcb] at hc
      simp only at hc
      have h0 : CounterWithin 0 s s2 := by rw [hc]; exact CounterWithin.of_eq rfl
      have := h0.trans (single_step_predicted_counter _ _ _ _ _ h)
      exact this.mono (by decide)
    · rename_i s2 bp hcb
      rw [hcb] at hc
      simp only at hc
      have h0 : CounterWithin 0 s s2 := by rw [hc]; exact CounterWithin.of_eq rfl
      have hr := remove_infinite_loop_counter s2 bp
      split at h
      · rename_i s3 e hrm
        rw [hrm] at hr
        simp only [Option.some.injEq] at h
        subst h
        exact (h0.trans (CounterWithin.of_eq hr)).mono (by decide)
      · rename_i s3 u hrm
        rw [hrm] at hr
        have := (h0.trans (CounterWithin.of_eq hr)).trans
          (single_step_predicted_counter _ _ _ _ _ h)
        exact this.mono (by decide)

theorem create_breakpoint_counter (s : Debugger) (A : Address) :
    CounterWithin 1 s (create_breakpoint s A).state
    ∧ ∀ id, (create_breakpoint s A).result = .ok id →
        id = s.next_breakpoint_id
        ∧ (create_breakpoint s A).state.next_breakpoint_id = next_id s.next_breakpoint_id := by
  cases hd : s.domain with
  | none =>
    have e : create_breakpoint s A = ⟨s, .throw .empty_optional_access⟩ := by
      simp [create_breakpoint, hd]
    rw [e]
    exact ⟨(CounterWithin.of_eq rfl).mono (by decide), fun id h => by simp at h⟩
  | some d =>
    cases hm : d.can_map A 2 with
    | false =>
      have e : create_breakpoint s A
          = ⟨{ s with domain := some d.pause }, .throw .map_error⟩ := by
        simp [create_breakpoint, hd, insert_infinite_loop, Domain.pause, hm]
      rw [e]
      exact ⟨(CounterWithin.of_eq rfl).mono (by decide), fun id h => by simp at h⟩
    | true =>
      rw [create_breakpoint_of_mappable s d A hd hm]
      refine ⟨⟨1, Nat.le_refl 1, rfl⟩, fun id h => ?_⟩
      simp only [Result.ok.injEq] at h
      subst h
      exact ⟨rfl, rfl⟩

theorem delete_breakpoint_counter (s : Debugger) (id : Nat) :
    (delete_breakpoint s id).state.next_breakpoint_id = s.next_breakpoint_id := by
  unfold delete_breakpoint
  split
  · rfl
  · rename_i d hd
    split
    · rfl
    · split
      · rfl
      · rename_i bp hbp
        have hr := remove_infinite_loop_counter { s with domain := some d.pause } bp
        simp only
        split
        · rename_i s2 e hrm
          rw [hrm] at hr
          exact hr
        · rename_i s2 u hrm
          rw [hrm] at hr
          exact hr

theorem run_calls_increasing (calls : List Call) :
    ∀ s : Debugger, s.next_breakpoint_id + 3 * calls.length < WORD →
      (∀ id ∈ run_calls s calls, s.next_breakpoint_id ≤ id)
      ∧ (run_calls s calls).Pairwise (fun a b => a < b) := by
  induction calls with
  | nil =>
    intro s _
    simp [run_calls]
  | cons c rest ih =>
    intro s hs
    simp only [List.length_cons] at hs
    cases c with
    | create address =>
      have hc := create_breakpoint_counter s address
      unfold run_calls
      split
      · rename_i s1 id heq
        rw [heq] at hc
        obtain ⟨h1, h2⟩ := hc.2 id rfl
        simp only at h2
        have hn : next_id s.next_breakpoint_id = s.next_breakpoint_id + 1 := by
          unfold next_id
          exact Nat.mod_eq_of_lt (by omega)
        have hr := ih s1 (by rw [h2, hn]; omega)
        rw [h2, hn] at hr
        refine ⟨?_, ?_⟩
        · intro x hx
          rcases List.mem_cons.1 hx with rfl | hx2
          · omega
          · have := hr.1 x hx2
            omega
        · refine List.Pairwise.cons ?_ hr.2
          intro x hx
          have := hr.1 x hx
          omega
      · rename_i s1 e heq
        rw [heq] at hc
        have hb := hc.1.bound (by omega)
        simp only at hb
        have hr := ih s1 (by omega)
        exact ⟨fun x hx => Nat.le_trans hb.1 (hr.1 x hx), hr.2⟩
    | delete id =>
      have hd := delete_breakpoint_counter s id
      unfold run_calls
      have hr := ih (delete_breakpoint s id).state (by rw [hd]; omega)
      rw [hd] at hr
      exact hr
    | step predicted polls =>
      unfold run_calls
      split
      · simp
      · rename_i o heq
        have hb := (single_step_counter s predicted polls o heq).bound (by omega)
        have hr := ih o.state (by omega)
        exact ⟨fun x hx => Nat.le_trans hb.1 (hr.1 x hx), hr.2⟩

/-- Claim C6: after `attach`, for every sequence of `create_breakpoint`, `delete_breakpoint`
and `single_step` calls short enough for the 64-bit id counter not to wrap, each id returned
by `create_breakpoint` is strictly greater than every id returned earlier, so no id is
returned twice; and the first `insert_infinite_loop` after `attach` gets id 0. -/
theorem breakpoint_ids_strictly_increasing (s0 : Debugger) (guest : Domain) (cs_open_ok : Bool)
    (calls : List Call) (hlen : 3 * calls.length < WORD) :
    (run_calls (attach s0 guest cs_open_ok).state calls).Pairwise (fun a b => a < b)
    ∧ (run_calls (attach s0 guest cs_open_ok).state calls).Nodup
    ∧ ∀ A, guest.can_map A 2 = true →
        (insert_infinite_loop (attach s0 guest cs_open_ok).state A).result
          = .ok { id := 0, address := A, orig_bytes := read_u16 guest.mem A } := by
  have h0 : (attach s0 guest cs_open_ok).state.next_breakpoint_id = 0 := by
    cases cs_open_ok <;> rfl
  have hd : (attach s0 guest cs_open_ok).state.domain = some guest := by
    cases cs_open_ok <;> rfl
  have hp := (run_calls_increasing calls (attach s0 guest cs_open_ok).state
    (by rw [h0]; omega)).2
  refine ⟨hp, hp.imp (fun h => Nat.ne_of_lt h), ?_⟩
  intro A hm
  rw [insert_infinite_loop_of_mappable _ guest A hd hm, h0]

/-- Witness of `breakpoint_ids_strictly_increasing`: create, create, delete 0, create on the
guest of scenario S1 returns the ids 0, 1, 2. -/
theorem breakpoint_ids_strictly_increasing_witness :
    run_calls Fixture.dbg_attached
      [Call.create 0x1000, Call.create 0x2000, Call.delete 0, Call.create 0x1000] = [0, 1, 2]
    ∧ (run_calls Fixture.dbg_attached
      [Call.create 0x1000, Call.create 0x2000, Call.delete 0, Call.create 0x1000]).Pairwise
        (fun a b => a < b) :=
  ⟨by decide, (breakpoint_ids_strictly_increasing Fixture.dbg_detached Fixture.guest true
    [Call.create 0x1000, Call.create 0x2000, Call.delete 0, Call.create 0x1000]
    (by decide)).1⟩

end Debugger

namespace DebuggerPV

/-- Claim C7, evaluated on the code: with the guest holding `48 89` at `0x1000` and a
breakpoint planted there, `read_memory_masking_breakpoints(0x1000, 2)` returns `48 89`, but
`read_memory_masking_breakpoints(0x1001, 1)`, whose range starts at the second byte of the
sentinel, returns `FE` where guest memory held `89`. -/
theorem read_memory_masking_misses_breakpoint_before_range :
    (read_memory_masking_breakpoints Fixture.pv_planted 0x1000 2).result = .ok [0x48, 0x89]
    ∧ read_bytes Fixture.pv_empty.domain.mem 0x1001 1 = [0x89]
    ∧ (read_memory_masking_breakpoints Fixture.pv_planted 0x1001 1).result = .ok [0xFE] := by
  refine ⟨by decide, by decide, by decide⟩

/-- Claim C8, evaluated on the code: with breakpoints at `0x2000` and `0x2004`,
`write_memory_retaining_breakpoints(0x2000, 6, FF FF FF FF FF FF)` returns with both entries
in the table and with the bytes `FF FF FF FF FF FF` at `0x2000..0x2006`: no sentinel is
planted again. -/
theorem write_memory_retaining_overwrites_sentinels :
    Map.keys Fixture.pv_two.infinite_loops = [0x2000, 0x2004]
    ∧ (write_memory_retaining_breakpoints Fixture.pv_two 0x2000 6
        [0xFF, 0xFF, 0xFF, 0xFF, 0xFF, 0xFF]).result = .ok ()
    ∧ Map.keys (write_memory_retaining_breakpoints Fixture.pv_two 0x2000 6
        [0xFF, 0xFF, 0xFF, 0xFF, 0xFF, 0xFF]).state.infinite_loops = [0x2000, 0x2004]
    ∧ read_bytes (write_memory_retaining_breakpoints Fixture.pv_two 0x2000 6
        [0xFF, 0xFF, 0xFF, 0xFF, 0xFF, 0xFF]).state.domain.mem 0x2000 6
        = [0xFF, 0xFF, 0xFF, 0xFF, 0xFF, 0xFF] := by
  refine ⟨by decide, by decide, by decide, by decide⟩

/-- Claim C9, evaluated on the code: with one breakpoint at `0x2001`, the last byte of the
range, `write_memory_retaining_breakpoints(0x2000, 2, 11 22)` stores the data one byte too
far: `0x2000`, which no sentinel covers, keeps its old byte `00` instead of `11`, and `11 22`
land at `0x2001..0x2003`. -/
theorem write_memory_retaining_shifts_data_on_end_overlap :
    Map.keys Fixture.pv_end_overlap.infinite_loops = [0x2001]
    ∧ (write_memory_retaining_breakpoints Fixture.pv_end_overlap 0x2000 2
        [0x11, 0x22]).result = .ok ()
    ∧ read_bytes (write_memory_retaining_breakpoints Fixture.pv_end_overlap 0x2000 2
        [0x11, 0x22]).state.domain.mem 0x2000 3 = [0x00, 0x11, 0x22] := by
  refine ⟨by decide, by decide, by decide⟩

/-- Claim C10: when the two bytes at the instruction pointer can be mapped,
`check_breakpoint_hit` returns the instruction pointer if and only if those bytes are the
sentinel `0xFEEB` and the instruction pointer is a key of the table, and returns no hit
otherwise; it changes no state.  An instruction pointer that is not in the table is never
reported, whatever the guest bytes are. -/
theorem check_breakpoint_hit_iff (s : DebuggerPV)
    (hm : s.domain.can_map s.domain.ip 2 = true) :
    ((check_breakpoint_hit s).result = .ok (some s.domain.ip) ↔
      (read_u16 s.domain.mem s.domain.ip = X86_INFINITE_LOOP
        ∧ s.domain.ip ∈ Map.keys s.infinite_loops))
    ∧ (¬ (read_u16 s.domain.mem s.domain.ip = X86_INFINITE_LOOP
          ∧ s.domain.ip ∈ Map.keys s.infinite_loops) →
        (check_breakpoint_hit s).result = .ok none)
    ∧ (s.domain.ip ∉ Map.keys s.infinite_loops → (check_breakpoint_hit s).result = .ok none)
    ∧ (check_breakpoint_hit s).state = s := by
  have hk := Map.count_ne_zero_iff s.infinite_loops s.domain.ip
  by_cases hc : read_u16 s.domain.mem s.domain.ip = X86_INFINITE_LOOP
      ∧ Map.count s.infinite_loops s.domain.ip ≠ 0
  · have e : check_breakpoint_hit s = ⟨s, .ok (some s.domain.ip)⟩ := by
      simp only [check_breakpoint_hit, hm, Bool.true_eq_false, if_false, if_pos hc]
    have hc2 : read_u16 s.domain.mem s.domain.ip = X86_INFINITE_LOOP
        ∧ s.domain.ip ∈ Map.keys s.infinite_loops := ⟨hc.1, hk.1 hc.2⟩
    rw [e]
    exact ⟨⟨fun _ => hc2, fun _ => rfl⟩, fun h => absurd hc2 h, fun h => absurd hc2.2 h, rfl⟩
  · have e : check_breakpoint_hit s = ⟨s, .ok none⟩ := by
      simp only [check_breakpoint_hit, hm, Bool.true_eq_false, if_false, if_neg hc]
    have hc2 : ¬ (read_u16 s.domain.mem s.domain.ip = X86_INFINITE_LOOP
        ∧ s.domain.ip ∈ Map.keys s.infinite_loops) := fun h => hc ⟨h.1, hk.2 h.2⟩
    rw [e]
    refine ⟨⟨fun h => ?_, fun h => absurd h hc2⟩, fun _ => rfl, fun _ => rfl, rfl⟩
    simp at h

/-- Witness of `check_breakpoint_hit_iff`: a guest with its own `EB FE` at the instruction
pointer and an empty table is not reported as a hit. -/
theorem check_breakpoint_hit_iff_witness :
    read_u16 Fixture.pv_guest_loop.domain.mem Fixture.pv_guest_loop.domain.ip
      = X86_INFINITE_LOOP
    ∧ (check_breakpoint_hit Fixture.pv_guest_loop).result = .ok none :=
  ⟨by decide, (check_breakpoint_hit_iff Fixture.pv_guest_loop rfl).2.2.1 (by decide)⟩

theorem remove_loop_of_present (address address_end : Address) (s : DebuggerPV) :
    ∀ keys : List Address, (∀ k ∈ keys, k ∈ Map.keys s.infinite_loops) →
      remove_loop address address_end keys s
        = ⟨s, .ok (keys.filter (fun k => decide (k ≥ address ∧ k < address_end)))⟩ := by
  intro keys
  induction keys with
  | nil => intro _; rfl
  | cons k rest ih =>
    intro hk
    have ih2 := ih (fun x hx => hk x (List.mem_cons_of_mem k hx))
    have hp := remove_breakpoint_of_present s k (hk k (List.mem_cons_self k rest))
    by_cases hr : k ≥ address ∧ k < address_end
    · simp only [remove_loop, if_pos hr, hp, ih2, List.filter_cons, decide_eq_true hr, if_true]
    · simp only [remove_loop, if_neg hr, ih2, List.filter_cons, decide_eq_false hr]
      rfl

theorem insert_loop_of_present (s : DebuggerPV) :
    ∀ il_addresses : List Address, (∀ k ∈ il_addresses, k ∈ Map.keys s.infinite_loops) →
      insert_loop il_addresses s = ⟨s, .ok ()⟩ := by
  intro il_addresses
  induction il_addresses with
  | nil => intro _; rfl
  | cons k rest ih =>
    intro hk
    have hp := insert_breakpoint_of_present s k (hk k (List.mem_cons_self k rest))
    simp only [insert_loop, hp]
    exact ih (fun x hx => hk x (List.mem_cons_of_mem k hx))

/-- What `write_memory_retaining_breakpoints` does in every state in which the window can be
mapped: the table stays as it is, and guest memory is changed by the `memcpy` alone; the
calls of `remove_breakpoint` and `insert_breakpoint` around it change nothing. -/
theorem write_memory_retaining_breakpoints_eq (s : DebuggerPV) (address : Address)
    (length : Nat) (data : List Byte)
    (hm : ∀ a n, s.domain.can_map a n = true) :
    ∃ mem_orig : Address,
      write_memory_retaining_breakpoints s address length data
        = ⟨{ s with domain :=
              { s.domain with mem := write_bytes s.domain.mem mem_orig (data.take length) } },
           .ok ()⟩ := by
  unfold write_memory_retaining_breakpoints
  simp only
  rw [remove_loop_of_present _ _ s (Map.keys s.infinite_loops) (fun k hk => hk)]
  simp only [hm, Bool.true_eq_false, if_false]
  exact ⟨_, insert_loop_of_present _ _ (fun k hk => (List.mem_filter.1 hk).1)⟩

end DebuggerPV

/-! ### The predictor -/

theorem to_u64_of_nonneg (i : Int) (h0 : 0 ≤ i) (h1 : i < 18446744073709551616) :
    (to_u64 i : Int) = i := by
  unfold to_u64
  rw [Int.emod_eq_of_lt h0 h1]
  exact Int.toNat_of_nonneg h0

theorem read_le_four_of_eight (m : Memory) (a : Address) :
    read_le m a 4 = read_le m a 8 % 4294967296 := by
  have h0 := (m a).isLt
  have h1 := (m (a + 1)).isLt
  have h2 := (m (a + 1 + 1)).isLt
  have h3 := (m (a + 1 + 1 + 1)).isLt
  simp only [read_le]
  omega

/-- Claim C14: when the window at the instruction pointer can be mapped, the decoder yields
at least two instructions and the first is in the jump or call group with an immediate first
operand, both versions of `get_address_of_next_instruction` return the address of the second
decoded instruction as primary and the immediate, converted to an address, as alternate. -/
theorem predictor_immediate_target (d : Domain) (cpu : Cpu) (cs_disasm : Disasm)
    (cur next : Insn) (rest : List Insn)
    (hm : d.can_map d.ip (2 * X86_MAX_INSTRUCTION_SIZE) = true)
    (hdec : cs_disasm (read_bytes d.mem d.ip (2 * X86_MAX_INSTRUCTION_SIZE - 1)) d.ip
      = cur :: next :: rest)
    (hgrp : cur.grp_jump = true ∨ cur.grp_call = true)
    (hcount : cur.op_count ≠ 0) (himm : cur.op0.type = .imm) :
    DebuggerPV.get_address_of_next_instruction d cpu cs_disasm
      = .ok (next.address, some (to_u64 cur.op0.imm))
    ∧ Debugger.get_address_of_next_instruction d cpu cs_disasm
      = .ok (next.address, to_u64 cur.op0.imm)
    ∧ (0 ≤ cur.op0.imm → cur.op0.imm < 18446744073709551616 →
        (to_u64 cur.op0.imm : Int) = cur.op0.imm) := by
  refine ⟨?_, ?_, to_u64_of_nonneg _⟩
  · simp only [DebuggerPV.get_address_of_next_instruction, hm, Bool.true_eq_false, if_false,
      hdec, if_pos hgrp, if_neg hcount, himm]
  · simp only [Debugger.get_address_of_next_instruction, hm, Bool.true_eq_false, if_false,
      hdec, if_pos hgrp, if_neg hcount, himm]

/-- Witness of `predictor_immediate_target`: `EB 05` at `0x1000`, next instruction at
`0x1002`, gives `(0x1002, 0x1007)`. -/
theorem predictor_immediate_target_witness :
    DebuggerPV.get_address_of_next_instruction Fixture.guest Fixture.cpu64
        (fun _ _ => [Fixture.insn_jmp_imm, Fixture.insn_next]) = .ok (0x1002, some 0x1007)
    ∧ Debugger.get_address_of_next_instruction Fixture.guest Fixture.cpu64
        (fun _ _ => [Fixture.insn_jmp_imm, Fixture.insn_next]) = .ok (0x1002, 0x1007) :=
  have h := predictor_immediate_target Fixture.guest Fixture.cpu64
    (fun _ _ => [Fixture.insn_jmp_imm, Fixture.insn_next]) Fixture.insn_jmp_imm
    Fixture.insn_next [] rfl rfl (Or.inl rfl) (by decide) rfl
  ⟨h.1, h.2.1⟩

theorem DebuggerPV.read_reg_cs_const (cpu : Cpu) (r1 r2 : Nat) :
    DebuggerPV.read_reg_cs cpu r1 = DebuggerPV.read_reg_cs cpu r2 := rfl

/-- Claim C15, evaluated on the code: in a context whose registers all hold different
values, the predictor of src/src/Debugger/Debugger.cpp returns the same primary, the value
of the register with id 0, for a jump through register 35 and a jump through register 37. -/
theorem predictor_register_operand_reads_register_zero :
    DebuggerPV.get_address_of_next_instruction Fixture.guest Fixture.cpu64
        (fun _ _ => [Fixture.insn_jmp_reg 35, Fixture.insn_next]) = .ok (0x1000, none)
    ∧ DebuggerPV.get_address_of_next_instruction Fixture.guest Fixture.cpu64
        (fun _ _ => [Fixture.insn_jmp_reg 37, Fixture.insn_next]) = .ok (0x1000, none)
    ∧ Fixture.cpu64.find_by_id 0 = some 0x1000
    ∧ (∀ i j, Fixture.cpu64.find_by_id i = Fixture.cpu64.find_by_id j → i = j) := by
  refine ⟨by decide, by decide, by decide, ?_⟩
  intro i j h
  simp only [Fixture.cpu64, Option.some.injEq] at h
  omega

/-- Claim C16: when the windows at the instruction pointer and at the stack pointer can be
mapped, the decoder yields at least two instructions and the first is in the return or
interrupt-return group (and in neither the jump nor the call group), the predictor returns
as primary the guest word at the stack pointer, the eight-byte little-endian number for word
size 8 and otherwise the four-byte one, which is the low 32 bits of the former, and no
alternate; the fallthrough address does not enter the result. -/
theorem predictor_return_group (d : Domain) (cpu : Cpu) (cs_disasm : Disasm)
    (cur next : Insn) (rest : List Insn)
    (hm : d.can_map d.ip (2 * X86_MAX_INSTRUCTION_SIZE) = true)
    (hdec : cs_disasm (read_bytes d.mem d.ip (2 * X86_MAX_INSTRUCTION_SIZE - 1)) d.ip
      = cur :: next :: rest)
    (hnj : cur.grp_jump = false) (hnc : cur.grp_call = false)
    (hret : cur.grp_ret = true ∨ cur.grp_iret = true)
    (hsp : d.can_map cpu.sp 8 = true) :
    DebuggerPV.get_address_of_next_instruction d cpu cs_disasm
      = .ok (if cpu.word_size = 8 then read_le d.mem cpu.sp 8 else read_le d.mem cpu.sp 4, none)
    ∧ read_le d.mem cpu.sp 4 = read_le d.mem cpu.sp 8 % 4294967296 := by
  refine ⟨?_, read_le_four_of_eight _ _⟩
  have hg : ¬ (cur.grp_jump = true ∨ cur.grp_call = true) := by simp [hnj, hnc]
  simp only [DebuggerPV.get_address_of_next_instruction, hm, Bool.true_eq_false, if_false,
    hdec, if_neg hg, if_pos hret, DebuggerPV.read_word, hsp]
  by_cases hw : cpu.word_size = 8
  · simp only [if_pos hw, Result.bind]
  · simp only [if_neg hw, Result.bind]

/-- Witness of `predictor_return_group`: with `01 02 03 04 05 06 07 08` on the stack the
primary is `0x0807060504030201` for word size 8. -/
theorem predictor_return_group_witness :
    DebuggerPV.get_address_of_next_instruction Fixture.guest_stack Fixture.cpu64
        (fun _ _ => [Fixture.insn_ret, Fixture.insn_next])
      = .ok (if Fixture.cpu64.word_size = 8 then read_le Fixture.guest_stack.mem 0x3000 8
              else read_le Fixture.guest_stack.mem 0x3000 4, none)
    ∧ read_le Fixture.guest_stack.mem 0x3000 8 = 0x0807060504030201
    ∧ read_le Fixture.guest_stack.mem 0x3000 4 = 0x04030201 :=
  ⟨(predictor_return_group Fixture.guest_stack Fixture.cpu64
      (fun _ _ => [Fixture.insn_ret, Fixture.insn_next]) Fixture.insn_ret Fixture.insn_next []
      rfl rfl rfl rfl (Or.inl rfl) rfl).1, by decide, by decide⟩

theorem Result.bind_ne_throw {α β : Type} (r : Result α) (f : α → Result β) (e : Error)
    (hr : r ≠ .throw e) (hf : ∀ v, f v ≠ .throw e) : r.bind f ≠ .throw e := by
  cases r with
  | ok v => exact hf v
  | throw e2 =>
    intro h
    apply hr
    simpa [Result.bind] using h

theorem DebuggerPV.read_reg_cs_ne_capstone (cpu : Cpu) (r : Nat) :
    DebuggerPV.read_reg_cs cpu r ≠ .throw .capstone_exception := by
  unfold DebuggerPV.read_reg_cs
  simp only
  split <;> simp

theorem DebuggerPV.read_word_ne_capstone (d : Domain) (cpu : Cpu) (a : Address) :
    DebuggerPV.read_word d cpu a ≠ .throw .capstone_exception := by
  unfold DebuggerPV.read_word
  split
  · simp
  · split <;> simp

/-- Claim C17: when the window at the instruction pointer can be mapped, the predictor of
src/src/Debugger/Debugger.cpp throws `CapstoneException` if and only if the decoder yields
fewer than two instructions. -/
theorem predictor_decode_error_iff (d : Domain) (cpu : Cpu) (cs_disasm : Disasm)
    (hm : d.can_map d.ip (2 * X86_MAX_INSTRUCTION_SIZE) = true) :
    DebuggerPV.get_address_of_next_instruction d cpu cs_disasm = .throw .capstone_exception
      ↔ (cs_disasm (read_bytes d.mem d.ip (2 * X86_MAX_INSTRUCTION_SIZE - 1)) d.ip).length < 2
    := by
  cases hdec : cs_disasm (read_bytes d.mem d.ip (2 * X86_MAX_INSTRUCTION_SIZE - 1)) d.ip with
  | nil =>
    simp [DebuggerPV.get_address_of_next_instruction, hm, hdec]
  | cons cur t =>
    cases t with
    | nil => simp [DebuggerPV.get_address_of_next_instruction, hm, hdec]
    | cons next rest =>
      simp only [DebuggerPV.get_address_of_next_instruction, hm, Bool.true_eq_false, if_false,
        hdec, List.length_cons]
      constructor
      · intro h
        exfalso
        revert h
        by_cases hg : cur.grp_jump = true ∨ cur.grp_call = true
        · simp only [if_pos hg]
          by_cases hc : cur.op_count = 0
          · simp [hc]
          · simp only [if_neg hc]
            cases cur.op0.type with
            | invalid => simp
            | imm => simp
            | reg =>
              exact Result.bind_ne_throw _ _ _ (DebuggerPV.read_reg_cs_ne_capstone _ _)
                (fun v => by simp)
            | mem =>
              refine Result.bind_ne_throw _ _ _ ?_ (fun base => ?_)
              · split
                · exact DebuggerPV.read_reg_cs_ne_capstone _ _
                · simp
              · refine Result.bind_ne_throw _ _ _ ?_ (fun index => ?_)
                · split
                  · exact DebuggerPV.read_reg_cs_ne_capstone _ _
                  · simp
                · repeat' split
                  all_goals simp
        · simp only [if_neg hg]
          by_cases hr : cur.grp_ret = true ∨ cur.grp_iret = true
          · simp only [if_pos hr]
            exact Result.bind_ne_throw _ _ _ (DebuggerPV.read_word_ne_capstone _ _ _)
              (fun v => by simp)
          · simp [if_neg hr]
      · intro h
        omega

/-- Witness of `predictor_decode_error_iff`: a decoder that yields one instruction. -/
theorem predictor_decode_error_iff_witness :
    DebuggerPV.get_address_of_next_instruction Fixture.guest Fixture.cpu64
      (fun _ _ => [Fixture.insn_jmp_imm]) = .throw .capstone_exception :=
  (predictor_decode_error_iff Fixture.guest Fixture.cpu64 (fun _ _ => [Fixture.insn_jmp_imm])
    rfl).2 (by decide)

namespace DebuggerPV

/-- Claim C11, evaluated on the code: from an empty table, a `single_step` whose predictor
returns the primary `0x1002` and no alternate, and whose guest is then seen at `0x1002`,
returns `0x1002` with the transient address still in the table and its sentinel still in
guest memory. -/
theorem pv_single_step_leaves_transient_entry :
    Fixture.pv_empty.infinite_loops = []
    ∧ (single_step Fixture.pv_empty (.ok (0x1002, none)) [0x1002]).map (fun o => o.result)
        = some (.ok 0x1002)
    ∧ (single_step Fixture.pv_empty (.ok (0x1002, none)) [0x1002]).map
        (fun o => o.state.infinite_loops) = some [(0x1002, 0)]
    ∧ (single_step Fixture.pv_empty (.ok (0x1002, none)) [0x1002]).map
        (fun o => read_u16 o.state.domain.mem 0x1002) = some X86_INFINITE_LOOP := by
  refine ⟨by decide, by decide, by decide, by decide⟩

theorem cleanup_loop_state (keys : List Address) :
    ∀ s : DebuggerPV, (cleanup_loop keys s).state = s := by
  induction keys with
  | nil => intro s; rfl
  | cons k rest ih =>
    intro s
    have hr := remove_breakpoint_state s k
    unfold cleanup_loop
    split
    · rename_i s1 e heq
      rw [heq] at hr
      exact hr
    · rename_i s1 u heq
      rw [heq] at hr
      simp only at hr
      rw [ih s1, hr]

theorem cleanup_state (s : DebuggerPV) : (cleanup s).state = s :=
  cleanup_loop_state _ s

theorem detach_table (s : DebuggerPV) :
    (detach s).state.infinite_loops = s.infinite_loops
    ∧ (detach s).state.domain.mem = s.domain.mem := by
  have hc := cleanup_state s
  unfold detach
  split
  · rename_i s1 e heq
    rw [heq] at hc
    simp only at hc
    rw [hc]
    exact ⟨rfl, rfl⟩
  · rename_i s1 u heq
    rw [heq] at hc
    simp only at hc
    rw [hc]
    exact ⟨rfl, rfl⟩

/-- Claim C18, evaluated on the code: `detach` on a `DebuggerPV` with a breakpoint at
`0x1000` (original bytes `48 89`) returns with the entry still in the table and the sentinel
still at `0x1000`, and the guest unpaused. -/
theorem pv_detach_keeps_breakpoints :
    Fixture.pv_planted.infinite_loops = [(0x1000, 0x8948)]
    ∧ (detach Fixture.pv_planted).result = .ok ()
    ∧ (detach Fixture.pv_planted).state.infinite_loops = [(0x1000, 0x8948)]
    ∧ read_u16 (detach Fixture.pv_planted).state.domain.mem 0x1000 = X86_INFINITE_LOOP
    ∧ (detach Fixture.pv_planted).state.domain.paused = false := by
  refine ⟨by decide, by decide, by decide, by decide, by decide⟩

/-- Claim C19 as stated fails: when the window at the alternate `0x1007` cannot be mapped,
`single_step` throws the mapping error with the primary `0x1002` still in the table, which
was empty before, and with the sentinel at `0x1002`, where the guest held `00 00`. -/
theorem pv_single_step_map_failure_keeps_primary_trap :
    Fixture.pv_unmappable_1007.infinite_loops = []
    ∧ read_u16 Fixture.pv_unmappable_1007.domain.mem 0x1002 = 0
    ∧ (single_step Fixture.pv_unmappable_1007 (.ok (0x1002, some 0x1007)) [0x1002]).map
        (fun o => o.result) = some (.throw .map_error)
    ∧ (single_step Fixture.pv_unmappable_1007 (.ok (0x1002, some 0x1007)) [0x1002]).map
        (fun o => o.state.infinite_loops) = some [(0x1002, 0)]
    ∧ (single_step Fixture.pv_unmappable_1007 (.ok (0x1002, some 0x1007)) [0x1002]).map
        (fun o => read_u16 o.state.domain.mem 0x1002) = some X86_INFINITE_LOOP := by
  refine ⟨by decide, by decide, by decide, by decide, by decide⟩

end DebuggerPV

namespace Debugger

/-- Claim C13, evaluated on the code: with no breakpoint in the table and the guest holding
`00 00` at `0x1002`, a `single_step` whose predictor returns `0x1002` for both successors
returns with the sentinel `EB FE` left at `0x1002`. -/
theorem single_step_equal_successors_leaves_sentinel :
    Fixture.dbg_attached.breakpoints = []
    ∧ Fixture.dbg_attached.domain.map (fun g => read_u16 g.mem 0x1002) = some 0
    ∧ (single_step Fixture.dbg_attached (.ok (0x1002, 0x1002)) [0x1002]).map
        (fun o => o.result) = some (.ok ())
    ∧ (single_step Fixture.dbg_attached (.ok (0x1002, 0x1002)) [0x1002]).map
        (fun o => o.state.domain.map (fun g => read_u16 g.mem 0x1002))
        = some (some X86_INFINITE_LOOP) := by
  refine ⟨by decide, by decide, by decide, by decide⟩

/-- Claim C20 as stated fails: with breakpoint 0 at the instruction pointer `0x1000`
(original bytes `48 89`), a `single_step` whose predictor throws ends with that error, the
breakpoint still in the table and the bytes `48 89`, not the sentinel, at `0x1000`. -/
theorem single_step_predictor_failure_leaves_breakpoint_removed :
    Fixture.dbg_one.breakpoints = [(0, { id := 0, address := 0x1000, orig_bytes := 0x8948 })]
    ∧ Fixture.dbg_one.domain.map (fun g => (g.ip, read_u16 g.mem 0x1000))
        = some (0x1000, X86_INFINITE_LOOP)
    ∧ (single_step Fixture.dbg_one (.throw .runtime_error) []).map (fun o => o.result)
        = some (.throw .runtime_error)
    ∧ (single_step Fixture.dbg_one (.throw .runtime_error) []).map
        (fun o => o.state.breakpoints)
        = some [(0, { id := 0, address := 0x1000, orig_bytes := 0x8948 })]
    ∧ (single_step Fixture.dbg_one (.throw .runtime_error) []).map
        (fun o => o.state.domain.map (fun g => read_u16 g.mem 0x1000)) = some (some 0x8948) := by
  refine ⟨by decide, by decide, by decide, by decide, by decide⟩

end Debugger

namespace DebuggerPV

theorem check_breakpoint_hit_of_mappable (s : DebuggerPV)
    (hm : s.domain.can_map s.domain.ip 2 = true) :
    check_breakpoint_hit s
      = ⟨s, .ok (if read_u16 s.domain.mem s.domain.ip = X86_INFINITE_LOOP
                    ∧ Map.count s.infinite_loops s.domain.ip ≠ 0
                 then some s.domain.ip else none)⟩ := by
  simp only [check_breakpoint_hit, hm, Bool.true_eq_false, if_false]
  split <;> rfl

theorem pv_single_step_predicted_alternate_map_failure (s : DebuggerPV)
    (orig_addr : Option Address) (p a : Address) (polls : List Address)
    (hp : p ∉ Map.keys s.infinite_loops) (hpm : s.domain.can_map p 2 = true)
    (ha : a ∉ Map.keys s.infinite_loops) (hap : a ≠ p)
    (ham : s.domain.can_map a 2 = false) :
    single_step_predicted s orig_addr (.ok (p, some a)) polls
      = some ⟨{ domain := { s.domain with mem := write_u16 s.domain.mem p X86_INFINITE_LOOP },
                infinite_loops := Map.set s.infinite_loops p (read_u16 s.domain.mem p) },
              .throw .map_error⟩ := by
  have hc : Map.count s.infinite_loops a = 0 := (Map.count_eq_zero_iff _ _).2 ha
  have ha2 : a ∉ Map.keys (Map.set s.infinite_loops p (read_u16 s.domain.mem p)) := by
    intro h
    rcases (Map.mem_keys_set _ _ _ _).1 h with h1 | h1
    · exact hap h1
    · exact ha h1
  have h2 := insert_breakpoint_of_unmappable
    { domain := { s.domain with mem := write_u16 s.domain.mem p X86_INFINITE_LOOP },
      infinite_loops := Map.set s.infinite_loops p (read_u16 s.domain.mem p) } a ha2 ham
  simp only [single_step_predicted, hc, ne_eq, not_true_eq_false, decide_False,
    insert_breakpoint_of_fresh s p hp hpm, on_dest2, if_true, h2]

/-- Claim C19, amended: if mapping guest memory fails while `single_step` plants the trap
at the alternate address `a`, after the trap at the primary address `p` was planted (`p`
and `a` different and neither in the table, the windows at the instruction pointer and at
`p` mappable), the mapping error reaches the caller with no trap removed: the guest is left
paused, `p` is in the table with the bytes it replaced, and guest memory at `p` reads the
sentinel. -/
theorem pv_single_step_alternate_map_failure (s : DebuggerPV) (p a : Address)
    (polls : List Address)
    (hip : s.domain.can_map s.domain.ip 2 = true)
    (hp : p ∉ Map.keys s.infinite_loops) (hpm : s.domain.can_map p 2 = true)
    (ha : a ∉ Map.keys s.infinite_loops) (hap : a ≠ p)
    (ham : s.domain.can_map a 2 = false) :
    single_step s (.ok (p, some a)) polls
      = some ⟨{ domain :=
                  { s.domain with
                    mem := write_u16 s.domain.mem p X86_INFINITE_LOOP, paused := true },
                infinite_loops := Map.set s.infinite_loops p (read_u16 s.domain.mem p) },
              .throw .map_error⟩
    ∧ p ∈ Map.keys (Map.set s.infinite_loops p (read_u16 s.domain.mem p))
    ∧ Map.at_ (Map.set s.infinite_loops p (read_u16 s.domain.mem p)) p
        = some (read_u16 s.domain.mem p)
    ∧ read_u16 (write_u16 s.domain.mem p X86_INFINITE_LOOP) p = X86_INFINITE_LOOP := by
  refine ⟨?_, (Map.mem_keys_set _ _ _ _).2 (Or.inl rfl), Map.at_set_same _ _ _,
    read_write_u16 _ _ _ (by decide)⟩
  have hpred := pv_single_step_predicted_alternate_map_failure
    { s with domain := s.domain.pause }
  have hchk := check_breakpoint_hit_of_mappable { s with domain := s.domain.pause } hip
  unfold single_step
  simp only [hchk]
  split
  · rename_i s2 e heq
    simp at heq
  · rename_i s2 heq
    simp only [Outcome.mk.injEq] at heq
    rw [← heq.1]
    exact hpred none p a polls hp hpm ha hap ham
  · rename_i s2 orig heq
    simp only [Outcome.mk.injEq, Result.ok.injEq] at heq
    rw [← heq.1]
    have horig : orig ∈ Map.keys s.infinite_loops := by
      have h3 := heq.2
      split at h3
      · rename_i hcond
        simp only [Option.some.injEq] at h3
        rw [← h3]
        exact (Map.count_ne_zero_iff _ _).1 hcond.2
      · simp at h3
    rw [remove_breakpoint_of_present { s with domain := s.domain.pause } orig horig]
    exact hpred (some orig) p a polls hp hpm ha hap ham

/-- Witness of `pv_single_step_alternate_map_failure`: primary `0x1002`, alternate `0x1007`
whose window cannot be mapped. -/
theorem pv_single_step_alternate_map_failure_witness :
    (single_step Fixture.pv_unmappable_1007 (.ok (0x1002, some 0x1007)) [0x1002]).map
        (fun o => o.result) = some (.throw .map_error)
    ∧ read_u16 (write_u16 Fixture.pv_unmappable_1007.domain.mem 0x1002 X86_INFINITE_LOOP) 0x1002
        = X86_INFINITE_LOOP :=
  have h := pv_single_step_alternate_map_failure Fixture.pv_unmappable_1007 0x1002 0x1007
    [0x1002] rfl (by decide) rfl (by decide) (by decide) rfl
  ⟨by rw [h.1]; rfl, h.2.2.2⟩

end DebuggerPV

namespace Debugger

theorem get_breakpoint_by_address_address (s : Debugger) (a : Address) (b : Breakpoint)
    (h : get_breakpoint_by_address s a = some b) : b.address = a := by
  unfold get_breakpoint_by_address at h
  cases hf : s.breakpoints.find? (fun pair => pair.2.address == a) with
  | none => simp [hf] at h
  | some e =>
    rw [hf] at h
    simp only [Option.map_some', Option.some.injEq] at h
    have := List.find?_some hf
    rw [← h]
    simpa using this

theorem check_breakpoint_hit_at_sentinel (s : Debugger) (d : Domain)
    (hd : s.domain = some d) (hm : d.can_map d.ip 2 = true)
    (hsent : read_u16 d.mem d.ip = X86_INFINITE_LOOP) (hip : d.ip ≠ 0) :
    check_breakpoint_hit s = ⟨s, .ok (get_breakpoint_by_address s d.ip)⟩ := by
  simp [check_breakpoint_hit, check_infinite_loop_hit, hd, hm, hsent, hip]

theorem remove_infinite_loop_of_mappable (s : Debugger) (d : Domain) (bp : Breakpoint)
    (hd : s.domain = some d) (hm : d.can_map bp.address 2 = true) :
    remove_infinite_loop s bp
      = ⟨{ s with domain := some { d with mem := write_u16 d.mem bp.address bp.orig_bytes } },
         .ok ()⟩ := by
  simp [remove_infinite_loop, hd, hm]

/-- Claim C20, amended: if the predictor fails during `single_step` started with the
instruction pointer (not 0, window mappable) at the sentinel of a user breakpoint `b`, the
error reaches the caller with no trap planted and without `b` being planted again: the guest
is left paused, the table and the id counter are unchanged, and guest memory differs from
before only in that the two bytes at `b.address` are the original bytes recorded in `b`. -/
theorem single_step_predictor_failure (s : Debugger) (d : Domain) (b : Breakpoint)
    (e : Error) (polls : List Address)
    (hd : s.domain = some d) (hip : d.ip ≠ 0) (hm : d.can_map d.ip 2 = true)
    (hsent : read_u16 d.mem d.ip = X86_INFINITE_LOOP)
    (hb : get_breakpoint_by_address s d.ip = some b) :
    single_step s (.throw e) polls
      = some ⟨{ s with
                domain := some
                  { d with mem := write_u16 d.mem b.address b.orig_bytes, paused := true } },
              .throw e⟩
    ∧ b.address = d.ip
    ∧ (b.orig_bytes < 65536 →
        read_u16 (write_u16 d.mem b.address b.orig_bytes) b.address = b.orig_bytes) := by
  have hba := get_breakpoint_by_address_address s d.ip b hb
  refine ⟨?_, hba, fun h => read_write_u16 _ _ _ h⟩
  have hchk := check_breakpoint_hit_at_sentinel { s with domain := some d.pause } d.pause
    rfl hm hsent hip
  have hb2 : get_breakpoint_by_address { s with domain := some d.pause } d.pause.ip = some b := hb
  rw [hb2] at hchk
  have hrm := remove_infinite_loop_of_mappable { s with domain := some d.pause } d.pause b
    rfl (by rw [hba]; exact hm)
  simp only [single_step, hd, hchk, hrm, single_step_predicted]
  rfl

/-- Witness of `single_step_predictor_failure`: breakpoint 0 at `0x1000`, predictor throws. -/
theorem single_step_predictor_failure_witness :
    (single_step Fixture.dbg_one (.throw .runtime_error) []).map (fun o => o.result)
      = some (.throw .runtime_error)
    ∧ read_u16 (write_u16 (write_u16 Fixture.mem_4889 0x1000 X86_INFINITE_LOOP) 0x1000 0x8948)
        0x1000 = 0x8948 :=
  have h := single_step_predictor_failure Fixture.dbg_one
    { Fixture.guest with mem := write_u16 Fixture.mem_4889 0x1000 X86_INFINITE_LOOP,
                         paused := false }
    { id := 0, address := 0x1000, orig_bytes := 0x8948 } .runtime_error []
    rfl (by decide) rfl (by decide) (by decide)
  ⟨by rw [h.1]; rfl, h.2.2 (by decide)⟩

theorem insert_infinite_loop_breakpoints (s : Debugger) (A : Address) :
    (insert_infinite_loop s A).state.breakpoints = s.breakpoints := by
  cases hd : s.domain with
  | none => rw [insert_infinite_loop_of_detached s A hd]
  | some d =>
    cases hm : d.can_map A 2 with
    | false => rw [insert_infinite_loop_of_unmappable s d A hd hm]
    | true => rw [insert_infinite_loop_of_mappable s d A hd hm]

theorem insert_infinite_loop_ok_sentinel (s s2 : Debugger) (A : Address) (bp : Breakpoint)
    (h : insert_infinite_loop s A = ⟨s2, .ok bp⟩) :
    s2.domain.map (fun g => read_u16 g.mem A) = some X86_INFINITE_LOOP := by
  cases hd : s.domain with
  | none =>
    rw [insert_infinite_loop_of_detached s A hd] at h
    simp at h
  | some d =>
    cases hm : d.can_map A 2 with
    | false =>
      rw [insert_infinite_loop_of_unmappable s d A hd hm] at h
      simp at h
    | true =>
      rw [insert_infinite_loop_of_mappable s d A hd hm] at h
      simp only [Outcome.mk.injEq] at h
      rw [← h.1]
      exact congrArg some (read_write_u16 _ _ _ (by decide))

theorem remove_infinite_loop_breakpoints (s : Debugger) (bp : Breakpoint) :
    (remove_infinite_loop s bp).state.breakpoints = s.breakpoints := by
  cases hd : s.domain with
  | none => simp [remove_infinite_loop, hd]
  | some d =>
    cases hm : d.can_map bp.address 2 <;> simp [remove_infinite_loop, hd, hm]

theorem poll_infinite_loop_hit_breakpoints (polls : List Address) :
    ∀ (s : Debugger) (o : Outcome Debugger Unit), poll_infinite_loop_hit s polls = some o →
      o.state.breakpoints = s.breakpoints := by
  induction polls with
  | nil => intro s o h; simp [poll_infinite_loop_hit] at h
  | cons ip rest ih =>
    intro s o h
    unfold poll_infinite_loop_hit at h
    simp only at h
    have hs := check_infinite_loop_hit_state
      { s with domain := s.domain.map (fun d => { d with ip := ip }) }
    cases hc : check_infinite_loop_hit
      { s with domain := s.domain.map (fun d => { d with ip := ip }) } with
    | mk s2 r =>
      rw [hc] at h hs
      simp only at hs
      cases r with
      | throw e =>
        simp only [Option.some.injEq] at h
        subst h; subst hs; rfl
      | ok address =>
        by_cases h0 : address = 0
        · simp only [h0, ne_eq, not_true_eq_false, if_false] at h
          rw [ih s2 o h, hs]
        · simp only [ne_eq, h0, not_false_eq_true, if_true, Option.some.injEq] at h
          subst h; subst hs; rfl

theorem plant_dest_breakpoints (s : Debugger) (a : Address) :
    (plant_dest s a).state.breakpoints = s.breakpoints := by
  unfold plant_dest
  split
  · exact insert_infinite_loop_breakpoints s a
  · rfl

theorem unplant_dest_breakpoints (s : Debugger) (a : Address) (bp : Breakpoint) :
    (unplant_dest s a bp).state.breakpoints = s.breakpoints := by
  unfold unplant_dest
  split
  · exact remove_infinite_loop_breakpoints s bp
  · rfl

/-- What `single_step_finish` leaves when it returns normally: the table it found, and,
when a breakpoint was lifted for the step, the sentinel at its address. -/
theorem single_step_finish_ok (s s2 : Debugger) (bp_orig : Option Breakpoint)
    (d1 d2 : Address) (b1 b2 : Breakpoint) (polls : List Address)
    (h : single_step_finish s bp_orig d1 d2 b1 b2 polls = some ⟨s2, .ok ()⟩) :
    s2.breakpoints = s.breakpoints
    ∧ ∀ bp, bp_orig = some bp →
        s2.domain.map (fun g => read_u16 g.mem bp.address) = some X86_INFINITE_LOOP := by
  unfold single_step_finish at h
  simp only at h
  split at h
  · simp at h
  · simp at h
  · rename_i s3 u hp
    have h3 : s3.breakpoints = s.breakpoints := poll_infinite_loop_hit_breakpoints polls _ _ hp
    have h4 := unplant_dest_breakpoints { s3 with domain := s3.domain.map Domain.pause } d1 b1
    split at h
    · simp at h
    · rename_i s4 u1 hu1
      rw [hu1] at h4
      have h5 := unplant_dest_breakpoints s4 d2 b2
      split at h
      · simp at h
      · rename_i s5 u2 hu2
        rw [hu2] at h5
        have h05 : s5.breakpoints = s.breakpoints := h5.trans (h4.trans h3)
        split at h
        · simp only [Option.some.injEq, Outcome.mk.injEq, and_true] at h
          subst h
          exact ⟨h05, fun bp hbp => by simp at hbp⟩
        · rename_i bp
          have h6 := insert_infinite_loop_breakpoints s5 bp.address
          split at h
          · simp at h
          · rename_i s6 b hi
            rw [hi] at h6
            simp only [Option.some.injEq, Outcome.mk.injEq, and_true] at h
            subst h
            refine ⟨h6.trans h05, fun bp2 hbp => ?_⟩
            simp only [Option.some.injEq] at hbp
            subst hbp
            exact insert_infinite_loop_ok_sentinel _ _ _ _ hi

theorem single_step_predicted_ok (s s2 : Debugger) (bp_orig : Option Breakpoint)
    (predicted : Result (Address × Address)) (polls : List Address)
    (h : single_step_predicted s bp_orig predicted polls = some ⟨s2, .ok ()⟩) :
    s2.breakpoints = s.breakpoints
    ∧ ∀ bp, bp_orig = some bp →
        s2.domain.map (fun g => read_u16 g.mem bp.address) = some X86_INFINITE_LOOP := by
  unfold single_step_predicted at h
  split at h
  · simp at h
  · rename_i d1 d2
    have h1 := plant_dest_breakpoints s d1
    split at h
    · simp at h
    · rename_i s1 b1 hp1
      rw [hp1] at h1
      have h2 := plant_dest_breakpoints s1 d2
      split at h
      · simp at h
      · rename_i s3 b2 hp2
        rw [hp2] at h2
        have hf := single_step_finish_ok _ _ _ _ _ _ _ _ h
        exact ⟨hf.1.trans (h2.trans h1), hf.2⟩

/-- Claim C12: for every `single_step` of the id-keyed debugger that starts with the
instruction pointer (not 0, the value the code uses for "no address") at the sentinel of a
user breakpoint `b` and returns normally, the table `_breakpoints` on return equals the
table before the step and the two guest bytes at `b.address` are the sentinel `0xFEEB`. -/
theorem single_step_through_user_breakpoint (s s2 : Debugger) (d : Domain) (b : Breakpoint)
    (predicted : Result (Address × Address)) (polls : List Address)
    (hd : s.domain = some d) (hip : d.ip ≠ 0)
    (hsent : read_u16 d.mem d.ip = X86_INFINITE_LOOP)
    (hb : get_breakpoint_by_address s d.ip = some b)
    (hret : single_step s predicted polls = some ⟨s2, .ok ()⟩) :
    s2.breakpoints = s.breakpoints
    ∧ s2.domain.map (fun g => read_u16 g.mem b.address) = some X86_INFINITE_LOOP := by
  have hba := get_breakpoint_by_address_address s d.ip b hb
  cases hm : d.can_map d.ip 2 with
  | false =>
    have hthrow : check_breakpoint_hit { s with domain := some d.pause }
        = ⟨{ s with domain := some d.pause }, .throw .map_error⟩ := by
      have hm2 : d.pause.can_map d.pause.ip 2 = false := hm
      simp [check_breakpoint_hit, check_infinite_loop_hit, hm2]
    simp [single_step, hd, hthrow] at hret
  | true =>
    have hchk := check_breakpoint_hit_at_sentinel { s with domain := some d.pause } d.pause
      rfl hm hsent hip
    have hb2 : get_breakpoint_by_address { s with domain := some d.pause } d.pause.ip
        = some b := hb
    rw [hb2] at hchk
    have hrm := remove_infinite_loop_of_mappable { s with domain := some d.pause } d.pause b
      rfl (by rw [hba]; exact hm)
    simp only [single_step, hd, hchk, hrm] at hret
    have hp := single_step_predicted_ok _ _ _ _ _ hret
    exact ⟨hp.1, hp.2 b rfl⟩

/-- Witness of `single_step_through_user_breakpoint`: breakpoint 0 at `0x1000`, the
predictor returns the successor `0x1002`, where the guest is then seen. -/
theorem single_step_through_user_breakpoint_witness :
    ∃ s2, single_step Fixture.dbg_one (.ok (0x1002, 0)) [0x1002] = some ⟨s2, .ok ()⟩
      ∧ s2.breakpoints = Fixture.dbg_one.breakpoints
      ∧ s2.domain.map (fun g => read_u16 g.mem 0x1000) = some X86_INFINITE_LOOP :=
  match hs : single_step Fixture.dbg_one (.ok (0x1002, 0)) [0x1002] with
  | some ⟨s2, .ok ()⟩ =>
    ⟨s2, rfl, single_step_through_user_breakpoint Fixture.dbg_one s2
      { Fixture.guest with mem := write_u16 Fixture.mem_4889 0x1000 X86_INFINITE_LOOP,
                           paused := false }
      { id := 0, address := 0x1000, orig_bytes := 0x8948 } (.ok (0x1002, 0)) [0x1002]
      rfl (by decide) (by decide) (by decide) hs⟩
  | some ⟨_, .throw _⟩ => by
    have h2 : (single_step Fixture.dbg_one (.ok (0x1002, 0)) [0x1002]).map (fun o => o.result)
        = some (.ok ()) := by decide
    rw [hs] at h2
    simp at h2
  | none => by
    have h2 : (single_step Fixture.dbg_one (.ok (0x1002, 0)) [0x1002]).map (fun o => o.result)
        = some (.ok ()) := by decide
    rw [hs] at h2
    simp at h2

end Debugger

namespace DebuggerPV

theorem insert_breakpoint_keys_mono (s : DebuggerPV) (a k : Address)
    (hk : k ∈ Map.keys s.infinite_loops) :
    k ∈ Map.keys (insert_breakpoint s a).state.infinite_loops := by
  by_cases h : a ∈ Map.keys s.infinite_loops
  · rw [insert_breakpoint_of_present s a h]
    exact hk
  · cases hm : s.domain.can_map a 2 with
    | false =>
      rw [insert_breakpoint_of_unmappable s a h hm]
      exact hk
    | true =>
      rw [insert_breakpoint_of_fresh s a h hm]
      exact (Map.mem_keys_set _ _ _ _).2 (Or.inr hk)

theorem insert_breakpoint_ok_mem (s s1 : DebuggerPV) (a : Address) (u : Unit)
    (h : insert_breakpoint s a = ⟨s1, .ok u⟩) : a ∈ Map.keys s1.infinite_loops := by
  by_cases hp : a ∈ Map.keys s.infinite_loops
  · rw [insert_breakpoint_of_present s a hp] at h
    simp only [Outcome.mk.injEq] at h
    rw [← h.1]
    exact hp
  · cases hm : s.domain.can_map a 2 with
    | false =>
      rw [insert_breakpoint_of_unmappable s a hp hm] at h
      simp at h
    | true =>
      rw [insert_breakpoint_of_fresh s a hp hm] at h
      simp only [Outcome.mk.injEq] at h
      rw [← h.1]
      exact (Map.mem_keys_set _ _ _ _).2 (Or.inl rfl)

theorem pv_check_breakpoint_hit_state (s : DebuggerPV) : (check_breakpoint_hit s).state = s := by
  unfold check_breakpoint_hit
  simp only
  split
  · rfl
  · split <;> rfl

theorem poll_breakpoint_hit_table (polls : List Address) :
    ∀ (s : DebuggerPV) (o : Outcome DebuggerPV Address), poll_breakpoint_hit s polls = some o →
      o.state.infinite_loops = s.infinite_loops := by
  induction polls with
  | nil => intro s o h; simp [poll_breakpoint_hit] at h
  | cons ip rest ih =>
    intro s o h
    unfold poll_breakpoint_hit at h
    simp only at h
    have hs := pv_check_breakpoint_hit_state { s with domain := { s.domain with ip := ip } }
    split at h
    · rename_i s2 e heq
      rw [heq] at hs
      simp only [Option.some.injEq] at h
      subst h
      simp only at hs
      rw [hs]
    · rename_i s2 a heq
      rw [heq] at hs
      simp only [Option.some.injEq] at h
      subst h
      simp only at hs
      rw [hs]
    · rename_i s2 heq
      rw [heq] at hs
      simp only at hs
      rw [ih s2 o h, hs]

theorem on_dest2_insert_keys_mono (s : DebuggerPV) (dest2 : Option Address) (had : Bool)
    (k : Address) (hk : k ∈ Map.keys s.infinite_loops) :
    k ∈ Map.keys (on_dest2 insert_breakpoint s dest2 had).state.infinite_loops := by
  unfold on_dest2
  split
  · split
    · exact insert_breakpoint_keys_mono _ _ _ hk
    · exact hk
  · exact hk

theorem on_dest2_remove_state (s : DebuggerPV) (dest2 : Option Address) (had : Bool) :
    (on_dest2 remove_breakpoint s dest2 had).state = s := by
  unfold on_dest2
  split
  · split
    · exact remove_breakpoint_state _ _
    · rfl
  · rfl

theorem pv_single_step_finish_keys_mono (s : DebuggerPV) (orig_addr : Option Address)
    (dest1 : Address) (dest2 : Option Address) (had : Bool) (polls : List Address)
    (o : Outcome DebuggerPV Address)
    (h : single_step_finish s orig_addr dest1 dest2 had polls = some o)
    (k : Address) (hk : k ∈ Map.keys s.infinite_loops) :
    k ∈ Map.keys o.state.infinite_loops := by
  unfold single_step_finish at h
  simp only at h
  split at h
  · simp at h
  · rename_i s2 e hp
    have h2 := poll_breakpoint_hit_table polls _ _ hp
    simp only [Option.some.injEq] at h
    subst h
    simp only at h2 ⊢
    rw [h2]
    exact hk
  · rename_i s2 address hp
    have h2 : s2.infinite_loops = s.infinite_loops := poll_breakpoint_hit_table polls _ _ hp
    have h4 := remove_breakpoint_state { s2 with domain := s2.domain.pause } dest1
    have hk4 : ∀ s4 : DebuggerPV, s4 = { s2 with domain := s2.domain.pause } →
        k ∈ Map.keys s4.infinite_loops := by
      intro s4 e
      rw [e]
      show k ∈ Map.keys s2.infinite_loops
      rw [h2]
      exact hk
    split at h
    · rename_i s4 e hr1
      rw [hr1] at h4
      simp only [Option.some.injEq] at h
      subst h
      exact hk4 s4 h4
    · rename_i s4 u1 hr1
      rw [hr1] at h4
      have h5 := on_dest2_remove_state s4 dest2 had
      split at h
      · rename_i s5 e hr2
        rw [hr2] at h5
        simp only [Option.some.injEq] at h
        subst h
        simp only at h5 ⊢
        rw [h5]
        exact hk4 s4 h4
      · rename_i s5 u2 hr2
        rw [hr2] at h5
        simp only at h5
        have hk5 : k ∈ Map.keys s5.infinite_loops := by rw [h5]; exact hk4 s4 h4
        split at h
        · simp only [Option.some.injEq] at h
          subst h
          exact hk5
        · rename_i orig
          have h6 := insert_breakpoint_keys_mono s5 orig k hk5
          split at h
          · rename_i s6 e hi
            rw [hi] at h6
            simp only [Option.some.injEq] at h
            subst h
            exact h6
          · rename_i s6 u hi
            rw [hi] at h6
            simp only [Option.some.injEq] at h
            subst h
            exact h6

theorem pv_single_step_predicted_keeps_primary (s : DebuggerPV) (orig_addr : Option Address)
    (dest1 : Address) (dest2 : Option Address) (polls : List Address)
    (o : Outcome DebuggerPV Address) (a : Address)
    (h : single_step_predicted s orig_addr (.ok (dest1, dest2)) polls = some o)
    (hok : o.result = .ok a) :
    dest1 ∈ Map.keys o.state.infinite_loops
    ∧ ∀ k ∈ Map.keys s.infinite_loops, k ∈ Map.keys o.state.infinite_loops := by
  unfold single_step_predicted at h
  simp only at h
  split at h
  · rename_i s1 e hi
    simp only [Option.some.injEq] at h
    subst h
    simp at hok
  · rename_i s1 u hi
    have h1 := insert_breakpoint_ok_mem s s1 dest1 u hi
    have hm1 : ∀ k ∈ Map.keys s.infinite_loops, k ∈ Map.keys s1.infinite_loops := by
      intro k hk
      have := insert_breakpoint_keys_mono s dest1 k hk
      rw [hi] at this
      exact this
    split at h
    · rename_i s2 e hi2
      simp only [Option.some.injEq] at h
      subst h
      simp at hok
    · rename_i s2 u2 hi2
      have hm2 : ∀ k ∈ Map.keys s1.infinite_loops, k ∈ Map.keys s2.infinite_loops := by
        intro k hk
        have hs2 : s2 = (Outcome.mk s2 (Result.ok u2) : Outcome DebuggerPV Unit).state := rfl
        rw [hs2, ← hi2]
        exact on_dest2_insert_keys_mono s1 dest2 _ k hk
      have hf := pv_single_step_finish_keys_mono _ _ _ _ _ _ _ h
      exact ⟨hf dest1 (hm2 dest1 h1), fun k hk => hf k (hm2 k (hm1 k hk))⟩

/-- Every `single_step` that returns an address returns with the primary predicted address
in the table, and with every address that was in the table before: no entry is ever
removed. -/
theorem pv_single_step_keeps_primary (s : DebuggerPV) (dest1 : Address)
    (dest2 : Option Address) (polls : List Address) (o : Outcome DebuggerPV Address)
    (a : Address) (h : single_step s (.ok (dest1, dest2)) polls = some o)
    (hok : o.result = .ok a) :
    dest1 ∈ Map.keys o.state.infinite_loops
    ∧ ∀ k ∈ Map.keys s.infinite_loops, k ∈ Map.keys o.state.infinite_loops := by
  have hc := pv_check_breakpoint_hit_state { s with domain := s.domain.pause }
  unfold single_step at h
  simp only at h
  split at h
  · rename_i s2 e heq
    simp only [Option.some.injEq] at h
    subst h
    simp at hok
  · rename_i s2 heq
    rw [heq] at hc
    simp only at hc
    subst hc
    have hp := pv_single_step_predicted_keeps_primary { s with domain := s.domain.pause }
      _ _ _ _ _ _ h hok
    exact hp
  · rename_i s2 orig heq
    rw [heq] at hc
    simp only at hc
    subst hc
    have hr := remove_breakpoint_state { s with domain := s.domain.pause } orig
    split at h
    · rename_i s3 e hrm
      simp only [Option.some.injEq] at h
      subst h
      simp at hok
    · rename_i s3 u hrm
      rw [hrm] at hr
      simp only at hr
      subst hr
      have hp := pv_single_step_predicted_keeps_primary { s with domain := s.domain.pause }
        _ _ _ _ _ _ h hok
      exact hp

end DebuggerPV

/-! ### Number formatting -/

theorem digit_value_digit_char (d : Nat) (h : d < 16) : digit_value (digit_char d) = d := by
  interval_cases d <;> decide

theorem digit_char_mem_hex (d : Nat) (h : d < 16) :
    digit_char d ∈ "0123456789abcdef".data := by
  interval_cases d <;> decide

theorem digit_char_zero_iff (d : Nat) (h : d < 16) : digit_char d = '0' ↔ d = 0 := by
  interval_cases d <;> decide

theorem digits_value_append_singleton (base : Nat) (cs : List Char) (c : Char) :
    digits_value base (cs ++ [c]) = digits_value base cs * base + digit_value c := by
  simp [digits_value, List.foldl_append]

theorem digits_value_unsigned_digits (base : Nat) (hb : 2 ≤ base) (hb16 : base ≤ 16) :
    ∀ fuel n : Nat, n < base ^ (fuel + 1) →
      digits_value base (unsigned_digits base fuel n) = n := by
  intro fuel
  induction fuel with
  | zero =>
    intro n hn
    have hn2 : n < base := by simpa using hn
    simp only [unsigned_digits, Nat.mod_eq_of_lt hn2]
    simp [digits_value, digit_value_digit_char n (by omega)]
  | succ fuel ih =>
    intro n hn
    unfold unsigned_digits
    split
    · rename_i hlt
      simp [digits_value, digit_value_digit_char n (by omega)]
    · rename_i hge
      have hdiv : n / base < base ^ (fuel + 1) := by
        rw [Nat.div_lt_iff_lt_mul (by omega)]
        calc n < base ^ (fuel + 1 + 1) := hn
          _ = base ^ (fuel + 1) * base := by rw [Nat.pow_succ]
      have hmod : n % base < 16 := Nat.lt_of_lt_of_le (Nat.mod_lt n (by omega)) hb16
      rw [digits_value_append_singleton, ih (n / base) hdiv, digit_value_digit_char _ hmod]
      exact Nat.div_add_mod' n base

theorem lt_pow_succ_self (base n : Nat) (hb : 2 ≤ base) : n < base ^ (n + 1) := by
  have h1 : n < 2 ^ n := Nat.lt_two_pow n
  have h2 : 2 ^ n ≤ base ^ n := Nat.pow_le_pow_left hb n
  have h3 : base ^ n ≤ base ^ (n + 1) := Nat.pow_le_pow_right (by omega) (by omega)
  omega

/-- The text the stream prints for a number denotes that number. -/
theorem digits_value_format_unsigned (hex : Bool) (n : Nat) :
    digits_value (if hex then 16 else 10) (format_unsigned hex n) = n := by
  unfold format_unsigned
  cases hex
  · exact digits_value_unsigned_digits 10 (by decide) (by decide) n n
      (lt_pow_succ_self 10 n (by decide))
  · exact digits_value_unsigned_digits 16 (by decide) (by decide) n n
      (lt_pow_succ_self 16 n (by decide))

theorem unsigned_digits_mem (base : Nat) (hb : 0 < base) (hb16 : base ≤ 16) :
    ∀ (fuel n : Nat) (c : Char), c ∈ unsigned_digits base fuel n →
      c ∈ "0123456789abcdef".data := by
  intro fuel
  induction fuel with
  | zero =>
    intro n c hc
    simp only [unsigned_digits, List.mem_singleton] at hc
    rw [hc]
    exact digit_char_mem_hex _ (Nat.lt_of_lt_of_le (Nat.mod_lt n hb) hb16)
  | succ fuel ih =>
    intro n c hc
    unfold unsigned_digits at hc
    split at hc
    · rename_i hlt
      simp only [List.mem_singleton] at hc
      rw [hc]
      exact digit_char_mem_hex _ (by omega)
    · simp only [List.mem_append, List.mem_singleton] at hc
      rcases hc with hc | hc
      · exact ih _ _ hc
      · rw [hc]
        exact digit_char_mem_hex _ (Nat.lt_of_lt_of_le (Nat.mod_lt n hb) hb16)

/-- The text the stream prints for a number consists of lowercase hexadecimal digits. -/
theorem format_unsigned_mem (hex : Bool) (n : Nat) (c : Char)
    (hc : c ∈ format_unsigned hex n) : c ∈ "0123456789abcdef".data := by
  unfold format_unsigned at hc
  cases hex
  · exact unsigned_digits_mem 10 (by decide) (by decide) _ _ c hc
  · exact unsigned_digits_mem 16 (by decide) (by decide) _ _ c hc

theorem unsigned_digits_ne_nil (base fuel n : Nat) : unsigned_digits base fuel n ≠ [] := by
  cases fuel with
  | zero => simp [unsigned_digits]
  | succ fuel =>
    unfold unsigned_digits
    split <;> simp

theorem unsigned_digits_length_le (base : Nat) (hb : 2 ≤ base) :
    ∀ fuel n k : Nat, n < base ^ (k + 1) → (unsigned_digits base fuel n).length ≤ k + 1 := by
  intro fuel
  induction fuel with
  | zero => intro n k _; simp [unsigned_digits]
  | succ fuel ih =>
    intro n k hn
    unfold unsigned_digits
    split
    · simp
    · rename_i hge
      cases k with
      | zero =>
        exfalso
        apply hge
        simpa using hn
      | succ k =>
        have hdiv : n / base < base ^ (k + 1) := by
          rw [Nat.div_lt_iff_lt_mul (by omega)]
          calc n < base ^ (k + 1 + 1) := hn
            _ = base ^ (k + 1) * base := by rw [Nat.pow_succ]
        have := ih (n / base) k hdiv
        simp only [List.length_append, List.length_singleton]
        omega

/-- A number other than 0 is printed without a leading zero. -/
theorem unsigned_digits_head (base : Nat) (hb : 2 ≤ base) (hb16 : base ≤ 16) :
    ∀ fuel n : Nat, n ≠ 0 → n < base ^ (fuel + 1) →
      (unsigned_digits base fuel n).head? ≠ some '0' := by
  intro fuel
  induction fuel with
  | zero =>
    intro n h0 hn
    have hn2 : n < base := by simpa using hn
    simp only [unsigned_digits, Nat.mod_eq_of_lt hn2, List.head?_cons, ne_eq,
      Option.some.injEq]
    rw [digit_char_zero_iff n (by omega)]
    exact h0
  | succ fuel ih =>
    intro n h0 hn
    unfold unsigned_digits
    split
    · rename_i hlt
      simp only [List.head?_cons, ne_eq, Option.some.injEq]
      rw [digit_char_zero_iff n (by omega)]
      exact h0
    · rename_i hge
      have hdiv : n / base < base ^ (fuel + 1) := by
        rw [Nat.div_lt_iff_lt_mul (by omega)]
        calc n < base ^ (fuel + 1 + 1) := hn
          _ = base ^ (fuel + 1) * base := by rw [Nat.pow_succ]
      have hd0 : n / base ≠ 0 := by
        intro h
        rw [Nat.div_eq_zero_iff (by omega)] at h
        exact hge h
      have hne := unsigned_digits_ne_nil base fuel (n / base)
      rw [List.head?_append_of_ne_nil _ hne]
      exact ih _ hd0 hdiv

theorem format_unsigned_head (hex : Bool) (n : Nat) (h0 : n ≠ 0) :
    (format_unsigned hex n).head? ≠ some '0' := by
  unfold format_unsigned
  cases hex
  · exact unsigned_digits_head 10 (by decide) (by decide) n n h0
      (lt_pow_succ_self 10 n (by decide))
  · exact unsigned_digits_head 16 (by decide) (by decide) n n h0
      (lt_pow_succ_self 16 n (by decide))

namespace pkt

theorem digits_value_replicate_zero (base k : Nat) (cs : List Char) :
    digits_value base (List.replicate k '0' ++ cs) = digits_value base cs := by
  induction k with
  | zero => rfl
  | succ k ih =>
    have h0 : digit_value '0' = 0 := by decide
    simp only [digits_value, List.replicate_succ, List.cons_append, List.foldl_cons, h0,
      Nat.zero_mul, Nat.add_zero] at ih ⊢
    exact ih

theorem hex_field_value (size v : Nat) : digits_value 16 (hex_field size v) = v := by
  unfold hex_field
  rw [digits_value_replicate_zero]
  exact digits_value_format_unsigned true v

theorem hex_field_length (size v : Nat) (hv : v < 256 ^ size) (hs : 0 < size) :
    (hex_field size v).length = 2 * size := by
  have hlen : (format_unsigned true v).length ≤ 2 * size := by
    obtain ⟨k, hk⟩ : ∃ k, 2 * size = k + 1 := ⟨2 * size - 1, by omega⟩
    rw [hk]
    apply unsigned_digits_length_le 16 (by decide)
    rw [← hk, Nat.pow_mul]
    exact hv
  simp only [hex_field, List.length_append, List.length_replicate]
  omega

/-- Claim C22: for a 64-bit register file the text is the concatenation, in the order rax,
rbx, rcx, rdx, rsi, rdi, rbp, rsp, r8 to r15, rip, eflags, cs, ss, ds, es, fs, gs, of one
hexadecimal field per register; the fields of the general registers and of rip have 16
digits, the eflags field has 8 digits and denotes rflags mod 2^32, so a register file that
differs only in the upper 32 bits of rflags has the same text. -/
theorem batch64_fields (sizeof_seg : Nat) (r : GDBRegisters64) :
    GeneralRegistersBatchReadResponse.to_string sizeof_seg (.regs64 r)
      = String.mk (hex_field 8 (r.rax % 256 ^ 8) ++ hex_field 8 (r.rbx % 256 ^ 8)
          ++ hex_field 8 (r.rcx % 256 ^ 8) ++ hex_field 8 (r.rdx % 256 ^ 8)
          ++ hex_field 8 (r.rsi % 256 ^ 8) ++ hex_field 8 (r.rdi % 256 ^ 8)
          ++ hex_field 8 (r.rbp % 256 ^ 8) ++ hex_field 8 (r.rsp % 256 ^ 8)
          ++ hex_field 8 (r.r8 % 256 ^ 8) ++ hex_field 8 (r.r9 % 256 ^ 8)
          ++ hex_field 8 (r.r10 % 256 ^ 8) ++ hex_field 8 (r.r11 % 256 ^ 8)
          ++ hex_field 8 (r.r12 % 256 ^ 8) ++ hex_field 8 (r.r13 % 256 ^ 8)
          ++ hex_field 8 (r.r14 % 256 ^ 8) ++ hex_field 8 (r.r15 % 256 ^ 8)
          ++ hex_field 8 (r.rip % 256 ^ 8)
          ++ hex_field 4 (r.rflags % 4294967296)
          ++ hex_field sizeof_seg (r.cs % 256 ^ sizeof_seg)
          ++ hex_field sizeof_seg (r.ss % 256 ^ sizeof_seg)
          ++ hex_field sizeof_seg (r.ds % 256 ^ sizeof_seg)
          ++ hex_field sizeof_seg (r.es % 256 ^ sizeof_seg)
          ++ hex_field sizeof_seg (r.fs % 256 ^ sizeof_seg)
          ++ hex_field sizeof_seg (r.gs % 256 ^ sizeof_seg))
    ∧ (∀ v, (hex_field 8 (v % 256 ^ 8)).length = 16)
    ∧ (hex_field 4 (r.rflags % 4294967296)).length = 8
    ∧ digits_value 16 (hex_field 4 (r.rflags % 4294967296)) = r.rflags % 4294967296
    ∧ (∀ rflags2, rflags2 % 4294967296 = r.rflags % 4294967296 →
        GeneralRegistersBatchReadResponse.to_string sizeof_seg
            (.regs64 { r with rflags := rflags2 })
          = GeneralRegistersBatchReadResponse.to_string sizeof_seg (.regs64 r)) := by
  refine ⟨?_, ?_, ?_, hex_field_value _ _, ?_⟩
  · have h4 : ∀ v : Nat, v % 4294967296 % 256 ^ 4 = v % 4294967296 := by
      intro v
      have : (256 : Nat) ^ 4 = 4294967296 := by decide
      rw [this, Nat.mod_mod]
    simp only [GeneralRegistersBatchReadResponse.to_string, write_register,
      StringStream.setw, StringStream.put_unsigned, StringStream.put_field,
      StringStream.set_hex, StringStream.setfill, StringStream.fresh, StringStream.str,
      hex_field, List.nil_append, List.append_assoc, h4]
  · intro v
    exact hex_field_length 8 _ (Nat.mod_lt _ (by decide)) (by decide)
  · exact hex_field_length 4 _ (Nat.mod_lt _ (by decide)) (by decide)
  · intro rflags2 h
    simp only [GeneralRegistersBatchReadResponse.to_string, h]

/-- Witness of `batch64_fields`: `rflags = 0x100000202` and `rflags = 0x202` give the same
text. -/
theorem batch64_fields_witness :
    GeneralRegistersBatchReadResponse.to_string 4
        (.regs64 { Fixture.regs64_with_rflags 0x202 with rflags := 0x100000202 })
      = GeneralRegistersBatchReadResponse.to_string 4
        (.regs64 (Fixture.regs64_with_rflags 0x202)) :=
  (batch64_fields 4 (Fixture.regs64_with_rflags 0x202)).2.2.2.2 0x100000202 (by decide)

set_option maxRecDepth 8000 in
/-- Claim C21, evaluated on the code: for the 32-bit register file of scenario S4 the fields
come in the order eax, ecx, edx, ebx, esp, ebp, esi, edi, eip, eflags, cs, ss, ds, es, fs, gs
with 8 digits each, but each field is the register as a number, most significant digit
first: `eax = 1` is written `00000001`, not `01000000`. -/
theorem batch32_fields_are_numbers :
    GeneralRegistersBatchReadResponse.to_string 4 (.regs32 Fixture.regs_s4)
      = "00000001000000020000000300000004000000050000000600000007000000080000000900000202000000100000001100000012000000130000001400000015" := by
  decide

/-- Claim C23, evaluated on the code: `RegisterReadResponse(0x11223344, 4).to_string()` is
the 16 digits `4433221100000000`, the eight bytes of the value, not the 8 digits `44332211`:
the width does not enter the text. -/
theorem register_read_ignores_width :
    RegisterReadResponse.to_string { value := 0x11223344, width := 4 } = "4433221100000000"
    ∧ RegisterReadResponse.to_string { value := 0x11223344, width := 8 } = "4433221100000000"
    ∧ (RegisterReadResponse.to_string { value := 0x11223344, width := 4 }).length = 16 := by
  refine ⟨by decide, by decide, by decide⟩

/-- Claim C24, evaluated on the code: `MemoryReadResponse` writes each byte as the character
with that code, right-adjusted in a field of two with `0` in front: the byte `0x41` gives
`0A`, not `41`, and the bytes `48 89` give `0H0` followed by the character with code `0x89`,
not `4889`. -/
theorem memory_read_writes_characters :
    MemoryReadResponse.to_string { data := [0x41] } = "0A"
    ∧ MemoryReadResponse.to_string { data := [0x48, 0x89] }
        = String.mk ['0', 'H', '0', Char.ofNat 0x89] := by
  refine ⟨by decide, by decide⟩

/-- Claim C25 as stated fails: `QueryProcessInfoResponse(255).to_string()` is `pid:255;`,
not `pid:ff;`. -/
theorem query_process_info_is_decimal :
    QueryProcessInfoResponse.to_string { pid := 255 } = "pid:255;"
    ∧ QueryProcessInfoResponse.to_string { pid := 255 } ≠ "pid:ff;" := by
  refine ⟨by decide, by decide⟩

/-- Claim C25, amended: for every pid the text is `pid:`, then the pid written in decimal
without padding, then `;`. -/
theorem query_process_info_text (pid : Nat) :
    QueryProcessInfoResponse.to_string { pid := pid }
      = String.mk ("pid:".data ++ format_unsigned false pid ++ ";".data)
    ∧ digits_value 10 (format_unsigned false pid) = pid
    ∧ (pid ≠ 0 → (format_unsigned false pid).head? ≠ some '0') := by
  refine ⟨?_, digits_value_format_unsigned false pid, format_unsigned_head false pid⟩
  simp [QueryProcessInfoResponse.to_string, add_list_entry, StringStream.put_string,
    StringStream.put_unsigned, StringStream.put_field, StringStream.fresh, StringStream.str]

/-- Witness of `query_process_info_text`: pid 255. -/
theorem query_process_info_text_witness :
    QueryProcessInfoResponse.to_string { pid := 255 }
      = String.mk ("pid:".data ++ format_unsigned false 255 ++ ";".data)
    ∧ (format_unsigned false 255).head? ≠ some '0' :=
  ⟨(query_process_info_text 255).1, (query_process_info_text 255).2.2 (by decide)⟩

/-- Claim C26: constructing `QueryThreadInfoResponse` with the empty list throws, so there
is no object whose text could be produced; constructing it with a non-empty list succeeds
and keeps the list. -/
theorem query_thread_info_create (id : Nat) (rest : List Nat) :
    QueryThreadInfoResponse.create [] = .throw .runtime_error
    ∧ QueryThreadInfoResponse.create (id :: rest) = .ok { thread_ids := id :: rest } := by
  exact ⟨rfl, rfl⟩

theorem thread_ids_fold (rest : List Nat) :
    ∀ ss : StringStream, ss.hex = true → ss.width = 0 →
      (rest.foldl (fun st tid => (st.put_string ",").put_unsigned tid) ss)
        = { ss with
            buf := ss.buf ++ (rest.map (fun tid => ',' :: format_unsigned true tid)).flatten }
      := by
  induction rest with
  | nil => intro ss _ _; simp
  | cons t rest ih =>
    intro ss hh hw
    simp only [List.foldl_cons]
    rw [ih _ (by simp [StringStream.put_string, StringStream.put_unsigned,
      StringStream.put_field, hh]) (by simp [StringStream.put_unsigned,
      StringStream.put_field])]
    simp [StringStream.put_string, StringStream.put_unsigned, StringStream.put_field, hh, hw]

/-- Claim C27: for every non-empty list of thread ids the text is `m`, then the ids in list
order, each in lowercase hexadecimal without padding and with a comma before each but the
first, then `l`. -/
theorem query_thread_info_text (id : Nat) (rest : List Nat) :
    QueryThreadInfoResponse.to_string { thread_ids := id :: rest }
      = String.mk ('m' :: format_unsigned true id
          ++ (rest.map (fun tid => ',' :: format_unsigned true tid)).flatten ++ ['l'])
    ∧ (∀ n, digits_value 16 (format_unsigned true n) = n)
    ∧ (∀ n c, c ∈ format_unsigned true n → c ∈ "0123456789abcdef".data)
    ∧ (∀ n, n ≠ 0 → (format_unsigned true n).head? ≠ some '0')
    ∧ QueryThreadInfoResponse.to_string { thread_ids := [1, 10, 255] } = "m1,a,ffl" := by
  refine ⟨?_, fun n => digits_value_format_unsigned true n,
    fun n c => format_unsigned_mem true n c, fun n => format_unsigned_head true n, by decide⟩
  simp only [QueryThreadInfoResponse.to_string, List.head?_cons, List.tail_cons]
  rw [thread_ids_fold rest _ (by simp [StringStream.put_unsigned, StringStream.put_field,
    StringStream.set_hex]) (by simp [StringStream.put_unsigned, StringStream.put_field])]
  simp [StringStream.put_string, StringStream.put_unsigned, StringStream.put_field,
    StringStream.set_hex, StringStream.fresh, StringStream.str]

theorem format_unsigned_ne_minus (hex : Bool) (n : Nat) (cs : List Char) :
    format_unsigned hex n ≠ '-' :: cs := by
  intro h
  have hm := format_unsigned_mem hex n '-' (by rw [h]; exact List.mem_cons_self _ _)
  revert hm
  decide

/-- Claim C28: the text for the all-threads id `2^64 - 1` is `QC-1`; for every other id it
is `QC` followed by the id in lowercase hexadecimal without padding, and is not `QC-1`. -/
theorem query_current_thread_id_text (tid : Nat) (h : tid ≠ WORD - 1) :
    QueryCurrentThreadIDResponse.to_string { thread_id := WORD - 1 } = "QC-1"
    ∧ QueryCurrentThreadIDResponse.to_string { thread_id := tid }
        = String.mk ('Q' :: 'C' :: format_unsigned true tid)
    ∧ digits_value 16 (format_unsigned true tid) = tid
    ∧ (tid ≠ 0 → (format_unsigned true tid).head? ≠ some '0')
    ∧ QueryCurrentThreadIDResponse.to_string { thread_id := tid } ≠ "QC-1" := by
  have htext : QueryCurrentThreadIDResponse.to_string { thread_id := tid }
      = String.mk ('Q' :: 'C' :: format_unsigned true tid) := by
    simp [QueryCurrentThreadIDResponse.to_string, h, StringStream.put_string,
      StringStream.put_unsigned, StringStream.put_field, StringStream.set_hex,
      StringStream.fresh, StringStream.str]
  refine ⟨by decide, htext, digits_value_format_unsigned true tid,
    format_unsigned_head true tid, ?_⟩
  rw [htext]
  intro heq
  have hd : ('Q' :: 'C' :: format_unsigned true tid) = ['Q', 'C', '-', '1'] :=
    congrArg String.data heq
  simp only [List.cons.injEq, true_and] at hd
  exact format_unsigned_ne_minus true tid _ hd

/-- Witness of `query_current_thread_id_text`: thread id 0 is written `QC0`. -/
theorem query_current_thread_id_text_witness :
    QueryCurrentThreadIDResponse.to_string { thread_id := 0 }
        = String.mk ('Q' :: 'C' :: format_unsigned true 0)
    ∧ QueryCurrentThreadIDResponse.to_string { thread_id := 0 } = "QC0" :=
  ⟨(query_current_thread_id_text 0 (by decide)).2.1, by decide⟩

end pkt

theorem Map.at_of_count_ne_zero {β : Type} (t : List (Nat × β)) (k : Nat)
    (h : Map.count t k ≠ 0) : ∃ v, Map.at_ t k = some v := by
  unfold Map.count at h
  unfold Map.at_
  cases hl : List.lookup k t with
  | none => simp [hl] at h
  | some v => exact ⟨v, rfl⟩

namespace Debugger

theorem delete_breakpoint_of_detached (s : Debugger) (id : Nat) (hd : s.domain = none) :
    delete_breakpoint s id = ⟨s, .throw .no_guest_attached⟩ := by
  simp [delete_breakpoint, hd]

theorem single_step_of_detached (s : Debugger) (predicted : Result (Address × Address))
    (polls : List Address) (hd : s.domain = none) :
    single_step s predicted polls = some ⟨s, .throw .no_guest_attached⟩ := by
  simp [single_step, hd]

theorem continue_until_breakpoint_of_detached (s : Debugger)
    (predicted : Result (Address × Address)) (step_polls polls : List Address)
    (hd : s.domain = none) :
    continue_until_breakpoint s predicted step_polls polls
      = some ⟨s, .throw .no_guest_attached⟩ := by
  simp [continue_until_breakpoint, hd]

theorem create_breakpoint_of_detached (s : Debugger) (address : Address)
    (hd : s.domain = none) :
    create_breakpoint s address = ⟨s, .throw .empty_optional_access⟩ := by
  simp [create_breakpoint, hd]

/-- Claim C29, evaluated on the code: on a debugger with no domain attached,
`delete_breakpoint`, `single_step` and `continue_until_breakpoint` throw
`NoGuestAttachedException`, but `create_breakpoint` ends in the member access
`_domain->pause()` through the empty optional, before any check. -/
theorem create_breakpoint_detached_touches_domain :
    Fixture.dbg_detached.domain.isNone = true
    ∧ (create_breakpoint Fixture.dbg_detached 0x1000).result = .throw .empty_optional_access
    ∧ (delete_breakpoint Fixture.dbg_detached 0).result = .throw .no_guest_attached
    ∧ (single_step Fixture.dbg_detached (.ok (0x1002, 0)) [0x1002]).map (fun o => o.result)
        = some (.throw .no_guest_attached)
    ∧ (continue_until_breakpoint Fixture.dbg_detached (.ok (0x1002, 0)) [0x1002] [0x1000]).map
        (fun o => o.result) = some (.throw .no_guest_attached) := by
  refine ⟨by decide, by decide, by decide, by decide, by decide⟩

/-- Claim C30: with a domain attached, `delete_breakpoint(id)` for an id that is not in the
table throws `NoSuchBreakpointException(id)` and leaves the whole state (table, guest
memory, paused flag, id counter) as it was; for an id that is in the table it does not
throw a `NoSuchBreakpointException`. -/
theorem delete_breakpoint_no_such_breakpoint (s : Debugger) (d : Domain) (id : Nat)
    (hd : s.domain = some d) :
    (id ∉ Map.keys s.breakpoints →
      delete_breakpoint s id = ⟨s, .throw (.no_such_breakpoint id)⟩)
    ∧ (id ∈ Map.keys s.breakpoints →
      ∀ j, (delete_breakpoint s id).result ≠ .throw (.no_such_breakpoint j)) := by
  constructor
  · intro h
    have hc := (Map.count_eq_zero_iff s.breakpoints id).2 h
    simp [delete_breakpoint, hd, hc]
  · intro h j
    have hc := (Map.count_ne_zero_iff s.breakpoints id).2 h
    obtain ⟨bp, hbp⟩ := Map.at_of_count_ne_zero s.breakpoints id hc
    cases hm : d.can_map bp.address 2 with
    | true =>
      rw [delete_breakpoint_of_present s d id bp hd hbp hm]
      simp
    | false =>
      simp [delete_breakpoint, hd, hc, hbp, remove_infinite_loop, Domain.pause, hm]

/-- Witness of `delete_breakpoint_no_such_breakpoint`: with breakpoint 0 in the table,
deleting id 5 throws and changes nothing, deleting id 0 succeeds. -/
theorem delete_breakpoint_no_such_breakpoint_witness :
    delete_breakpoint Fixture.dbg_one 5 = ⟨Fixture.dbg_one, .throw (.no_such_breakpoint 5)⟩
    ∧ (delete_breakpoint Fixture.dbg_one 0).result ≠ .throw (.no_such_breakpoint 0)
    ∧ (delete_breakpoint Fixture.dbg_one 0).result = .ok () :=
  have h := delete_breakpoint_no_such_breakpoint Fixture.dbg_one
    { Fixture.guest with mem := write_u16 Fixture.mem_4889 0x1000 X86_INFINITE_LOOP,
                         paused := false }
  ⟨(h 5 rfl).1 (by decide), (h 0 rfl).2 (by decide) 0, by decide⟩

end Debugger

/-! ### Symbols and variables -/

namespace Debugger

theorem NameTable.lookup_assign (t : NameTable) (name : String) (v : Nat) :
    (NameTable.assign t name v).lookup name = some v := by
  induction t with
  | nil => simp [NameTable.assign, List.lookup]
  | cons kv rest ih =>
    obtain ⟨k, w⟩ := kv
    by_cases hk : name = k
    · subst hk
      simp [NameTable.assign, List.lookup]
    · have hb : (name == k) = false := by simpa using hk
      simp [NameTable.assign, List.lookup, hb, ih]

theorem get_var_set_var (vars : NameTable) (name : String) (v : Nat) :
    get_var (set_var vars name v) name = .ok v := by
  simp [get_var, set_var, NameTable.count, NameTable.lookup_assign]

theorem get_var_of_undefined (vars : NameTable) (name : String)
    (h : vars.lookup name = none) :
    get_var vars name = .throw (.no_such_symbol name) := by
  simp [get_var, NameTable.count, h]

/-- Claim C31, evaluated on the code: a value stored by `set_var` is returned by `get_var`,
but `get_var` of the undefined name `x` throws `NoSuchSymbolException`, the exception of
`lookup_symbol`, while `delete_var` of the same name throws `NoSuchVariableException`. -/
theorem get_var_undefined_throws_no_such_symbol :
    get_var (set_var [("y", 7)] "x" 9) "x" = .ok 9 ∧
    get_var [("y", 7)] "x" = .throw (.no_such_symbol "x") ∧
    lookup_symbol [] "x" = .throw (.no_such_symbol "x") ∧
    delete_var [("y", 7)] "x" = .throw (.no_such_variable "No such variable!") := by
  decide

end Debugger

/-! ### Foreign memory -/

namespace XenForeignMemory

theorem map_requests_of_frame (hv : List Nat → List Int) (domain : GuestInfo)
    (address size mfn : Nat)
    (h : pfn_to_mfn_pv domain (address >>> XC_PAGE_SHIFT) = .ok mfn) :
    (map hv domain address size).requests = [page_list mfn (num_pages size)] := by
  unfold map
  rw [h]
  simp only
  split <;> rfl

theorem pfn_to_mfn_pv_at_size (domain : GuestInfo)
    (h : domain.p2m_table.length = domain.p2m_size) :
    pfn_to_mfn_pv domain domain.p2m_size = .throw .out_of_bounds_access := by
  have hg : domain.p2m_table.get? domain.p2m_size = none := by
    rw [List.get?_eq_none]
    omega
  unfold pfn_to_mfn_pv
  rw [hg, if_neg (Nat.lt_irrefl _)]

theorem pfn_to_mfn_pv_invalid_iff (domain : GuestInfo) (pfn : Nat) :
    pfn_to_mfn_pv domain pfn = .throw (.xen_exception "Invalid PFN!") ↔
      pfn > domain.p2m_size := by
  unfold pfn_to_mfn_pv
  split
  · simp [*]
  · rename_i hp
    constructor
    · intro h
      split at h
      · cases h
      · split at h <;> cases h
    · intro h
      exact absurd h hp

theorem num_pages_covers_size (size : Nat) (h : size + XC_PAGE_SIZE ≤ WORD) :
    size ≤ num_pages size * XC_PAGE_SIZE := by
  have hw : WORD = 18446744073709551616 := by decide
  have hp : XC_PAGE_SIZE = 4096 := by decide
  rw [hw, hp] at h
  unfold num_pages
  rw [Nat.shiftRight_eq_div_pow, hw, hp]
  have hs : XC_PAGE_SHIFT = 12 := rfl
  rw [hs, Nat.mod_eq_of_lt (by omega)]
  omega

/-- Claim C32, evaluated on the code: for a 32-bit guest whose table entry for page 0 is
`0xFFFFFFFF`, `pfn_to_mfn_pv` returns `INVALID_MFN` and `map` of a 2-byte window in page 0
hands that frame to the hypervisor: when the hypervisor refuses it the call ends with
"Failed to map page 1 of 1", when the hypervisor reports no error the call returns a
window, and a window of two pages requests the frames `INVALID_MFN` and 0. -/
theorem map_invalid_frame_asks_hypervisor :
    pfn_to_mfn_pv Fixture.guest32_invalid (0x10 >>> XC_PAGE_SHIFT) = .ok INVALID_MFN ∧
    map Fixture.hv_refusing_invalid Fixture.guest32_invalid 0x10 2 =
      { requests := [[INVALID_MFN]]
        result := .throw (.xen_exception "Failed to map page 1 of 1") } ∧
    map Fixture.hv_accepting Fixture.guest32_invalid 0x10 2 =
      { requests := [[INVALID_MFN]]
        result := .ok { offset := 0x10, pages := [INVALID_MFN] } } ∧
    (map Fixture.hv_accepting Fixture.guest32_invalid 0x10 0x1001).requests =
      [[INVALID_MFN, 0]] := by
  decide

/-- Claim C34, evaluated on the code: `map` of the 2-byte window at `0x1FFF`, the last byte
of page 1, requests one page and returns a pointer at offset `0xFFF` of it, so the second
byte of the window lies past the mapped page: `0xFFF + 2 > 1 * 4096`. -/
theorem map_window_exceeds_mapped_pages :
    map Fixture.hv_accepting Fixture.guest64_two_pages 0x1FFF 2 =
      { requests := [[0x101]], result := .ok { offset := 0xFFF, pages := [0x101] } } ∧
    num_pages 2 = 1 ∧
    ¬ (0x1FFF % XC_PAGE_SIZE + 2 ≤ num_pages 2 * XC_PAGE_SIZE) := by
  decide

/-- Claim C35, evaluated on the code: with a table of two entries and `p2m_size = 2`,
`pfn_to_mfn_pv` does not reject the frame number 2 with "Invalid PFN!" but reads the table
at index 2, one past its last entry. -/
theorem pfn_to_mfn_pv_accepts_pfn_equal_to_size :
    Fixture.guest64_two_pages.p2m_table.length = Fixture.guest64_two_pages.p2m_size ∧
    pfn_to_mfn_pv Fixture.guest64_two_pages 2 = .throw .out_of_bounds_access ∧
    pfn_to_mfn_pv Fixture.guest64_two_pages 2 ≠ .throw (.xen_exception "Invalid PFN!") ∧
    ¬ (2 < Fixture.guest64_two_pages.p2m_size) ∧
    pfn_to_mfn_pv Fixture.guest64_two_pages 3 = .throw (.xen_exception "Invalid PFN!") := by
  decide

end XenForeignMemory

/-! ### The store -/

namespace XenStore

/-- Claim C33, evaluated on the code: for the directory entry `5`, `get_domid_from_name`
reads the path `local/domain/5/name`, without the leading slash.  On a store that holds the
names under `/local/domain/<id>/name` the lookup of an existing name therefore ends with the
exception of the first read; on a store that answers the paths without the slash it returns
the decimal value of the first matching entry. -/
theorem get_domid_from_name_reads_relative_path :
    name_path "5" = "local/domain/5/name" ∧
    get_domid_from_name Fixture.store_absolute "guest" =
      .throw (.xen_exception "Read from \"local/domain/0/name\" failed!") ∧
    get_domid_from_name Fixture.store_relative "guest" = .ok 5 ∧
    get_domid_from_name Fixture.store_relative "other" =
      .throw (.xen_exception "Domain \"other\" not found!") := by
  decide

end XenStore

/-! ### The expression parser -/

namespace parser

theorem parse_equal_precedence (precedence_of : Operator → Nat) (a b c : Nat)
    (s : SymbolType) (op : BinaryOperator)
    (hs : symbol_to_binop s = .ok (.binary op))
    (hp : precedence_of .sentinel ≤ precedence_of (.binary op)) :
    parse precedence_of
        [.constant a, .symbol s, .constant b, .symbol s, .constant c] =
      some (.ok (.binary op (.binary op (.constant c) (.constant b)) (.constant a))) := by
  have hn : ¬ precedence_of .sentinel > precedence_of (.binary op) := by omega
  cases s <;> simp [symbol_to_binop] at hs <;> subst hs <;>
    simp [parse, parse_tokens, parse_expression, parse_unit, parse_operators, next_token,
      consume, is_binary_operator_symbol, symbol_to_binop, Result.bind,
      push_operator_and_merge, merge_while, merge, hn]

/-- Claim C36, evaluated on the code: `parse` of the tokens of `1 - 2 - 3` merges 2 and 3
first: the inner expression is `BinaryExpression(Subtract, 3, 2)` and the root is
`BinaryExpression(Subtract, inner, 1)`, so the root has the first operand, not the third,
as a direct operand. -/
theorem parse_groups_equal_precedence_to_the_right :
    parse Fixture.precedence Fixture.tokens_1_minus_2_minus_3 =
      some (.ok (.binary .Subtract (.binary .Subtract (.constant 3) (.constant 2))
        (.constant 1))) := by
  decide

end parser

/-! ### Argument lists -/

namespace repl

theorem validate_args_loop_ok_iff (prev : Bool) (args : List Argument) :
    validate_args_loop prev args = .ok () ↔
      (prev = true → ∀ a ∈ args, a.default_value.isEmpty = false) ∧
      args.Pairwise (fun x y => x.default_value.isEmpty = false →
        y.default_value.isEmpty = false) := by
  induction args generalizing prev with
  | nil => simp [validate_args_loop]
  | cons a rest ih =>
    cases ha : a.default_value.isEmpty
    · simp only [validate_args_loop, ha, Bool.false_eq_true, if_false, ih true,
        List.pairwise_cons, List.mem_cons, forall_eq_or_imp, true_implies]
      constructor
      · rintro ⟨h1, h2⟩
        exact ⟨fun _ => ⟨trivial, h1⟩, h1, h2⟩
      · rintro ⟨_, h1, h2⟩
        exact ⟨h1, h2⟩
    · cases prev
      · simp [validate_args_loop, ha, ih false]
      · simp [validate_args_loop, ha]

theorem isEmpty_eq_false_iff (s : String) : s.isEmpty = false ↔ s ≠ "" := by
  rw [← Bool.not_eq_true, ne_eq, String.isEmpty_iff]

theorem validate_args_ok_iff (args : List Argument) :
    validate_args args = .ok () ↔ NoRequiredAfterDefault args := by
  unfold validate_args NoRequiredAfterDefault
  rw [validate_args_loop_ok_iff, List.pairwise_iff_get]
  simp only [Bool.false_eq_true, false_implies, true_and, isEmpty_eq_false_iff]

theorem validate_new_arg_ok_iff (args : List Argument) (a : Argument) :
    validate_new_arg args a = .ok () ↔
      ∀ back, args.getLast? = some back → back.default_value.isEmpty = false →
        a.default_value.isEmpty = false := by
  unfold validate_new_arg
  cases h : args.getLast? with
  | none => simp
  | some back =>
    cases hb : back.default_value.isEmpty <;> cases ha : a.default_value.isEmpty <;>
      simp [hb, ha]

theorem validate_new_arg_iff_append (args : List Argument) (a : Argument)
    (h : validate_args args = .ok ()) :
    validate_new_arg args a = .ok () ↔ validate_args (args ++ [a]) = .ok () := by
  unfold validate_args at h ⊢
  rw [validate_args_loop_ok_iff] at h
  rw [validate_new_arg_ok_iff, validate_args_loop_ok_iff, List.pairwise_append]
  simp only [Bool.false_eq_true, false_implies, true_and, List.pairwise_singleton,
    List.mem_singleton, forall_eq] at h ⊢
  rcases List.eq_nil_or_concat args with rfl | ⟨L, b, rfl⟩
  · simp
  · rw [List.concat_eq_append] at h ⊢
    have hL := (List.pairwise_append.1 h).2.2
    have hlast : (L ++ [b]).getLast? = some b := by simp
    constructor
    · intro hb
      refine ⟨h, ?_⟩
      intro x hx hd
      rcases List.mem_append.1 hx with hx | hx
      · exact hb b hlast (hL x hx b (by simp) hd)
      · rw [List.mem_singleton] at hx
        subst hx
        exact hb _ hlast hd
    · rintro ⟨_, hall⟩ back hback hd
      rw [hlast] at hback
      cases hback
      exact hall _ (by simp) hd

/-- Claim C37: `validate_args(args)` succeeds if and only if no argument without a default
value comes after an argument with a default value; and when `validate_args(args)`
succeeds, `validate_new_arg(args, a)` succeeds if and only if `validate_args` succeeds on
`args` followed by `a`. -/
theorem validate_new_arg_agrees_with_validate_args (args : List Argument) (a : Argument) :
    (validate_args args = .ok () ↔ NoRequiredAfterDefault args) ∧
    (validate_args args = .ok () →
      (validate_new_arg args a = .ok () ↔ validate_args (args ++ [a]) = .ok ())) :=
  ⟨validate_args_ok_iff args, validate_new_arg_iff_append args a⟩

/-- Witness of `validate_new_arg_agrees_with_validate_args`: the list of a required and an
optional argument is valid, and both checks refuse a further required argument. -/
theorem validate_new_arg_agrees_with_validate_args_witness :
    validate_args [Fixture.arg_required, Fixture.arg_optional] = .ok () ∧
    (validate_new_arg [Fixture.arg_required, Fixture.arg_optional] Fixture.arg_required
        = .ok () ↔
      validate_args ([Fixture.arg_required, Fixture.arg_optional] ++ [Fixture.arg_required])
        = .ok ()) ∧
    validate_new_arg [Fixture.arg_required, Fixture.arg_optional] Fixture.arg_required
      = .throw .default_arg_position :=
  ⟨by decide,
   (validate_new_arg_agrees_with_validate_args
      [Fixture.arg_required, Fixture.arg_optional] Fixture.arg_required).2 (by decide),
   by decide⟩

end repl

end xd
